import Mathlib

/-!
# Resurrection system (`src/js/phoenix-resurrection.js`)

A shallow embedding of the backup / recovery subsystem: the object
`resurrectionSystem` becomes the record `Sys`, each method becomes a function on
`Sys`.  What the browser supplies (clock, random numbers, the outcome of each
`localStorage.setItem`) is carried by `Sys` as a stream that the methods consume.

Conventions of the embedding:
* an instant is an `Int` (milliseconds since the epoch); a snapshot's `timestamp`
  field, an ISO-8601 string in the source, is represented by the instant it denotes,
  so that `new Date(x.timestamp)` is the field itself;
* a JavaScript number is an `Int`;
* the text stored under a `localStorage` key is represented by the value it decodes
  to (`JSON.parse` of the stored text);
* `console.log` / `console.error` have no effect on the state and are left out.
-/

namespace Resurrection

/-! ## JavaScript values -/

/-- JavaScript values that the payload of a snapshot is built from. -/
inductive JSValue where
  | undefined
  | null
  | bool (b : Bool)
  | num (n : Int)
  | str (s : String)
  | arr (items : List JSValue)
  | obj (props : List (String × JSValue))
  /-- An array object to which named properties have been assigned
  (`a.userData = ...`): its items and, in order of creation, its named properties.
  Only an assignment builds such a value, so the list of properties is not empty. -/
  | arrWith (items : List JSValue) (props : List (String × JSValue))

namespace JSValue

mutual
/-- Decision procedure for equality of values. -/
def decEq : (a b : JSValue) → Decidable (a = b)
  | .undefined, .undefined => isTrue rfl
  | .null, .null => isTrue rfl
  | .bool a, .bool b =>
    if h : a = b then isTrue (by rw [h]) else isFalse (by intro e; cases e; exact h rfl)
  | .num a, .num b =>
    if h : a = b then isTrue (by rw [h]) else isFalse (by intro e; cases e; exact h rfl)
  | .str a, .str b =>
    if h : a = b then isTrue (by rw [h]) else isFalse (by intro e; cases e; exact h rfl)
  | .arr a, .arr b =>
    match decEqItems a b with
    | isTrue h => isTrue (by rw [h])
    | isFalse h => isFalse (by intro e; cases e; exact h rfl)
  | .obj a, .obj b =>
    match decEqProps a b with
    | isTrue h => isTrue (by rw [h])
    | isFalse h => isFalse (by intro e; cases e; exact h rfl)
  | .arrWith a p, .arrWith b q =>
    match decEqItems a b, decEqProps p q with
    | isTrue h, isTrue h2 => isTrue (by rw [h, h2])
    | isFalse h, _ => isFalse (by intro e; cases e; exact h rfl)
    | _, isFalse h => isFalse (by intro e; cases e; exact h rfl)
  | .undefined, .null | .undefined, .bool _ | .undefined, .num _ | .undefined, .str _
  | .undefined, .arr _ | .undefined, .obj _ => isFalse (by intro e; cases e)
  | .null, .undefined | .null, .bool _ | .null, .num _ | .null, .str _
  | .null, .arr _ | .null, .obj _ => isFalse (by intro e; cases e)
  | .bool _, .undefined | .bool _, .null | .bool _, .num _ | .bool _, .str _
  | .bool _, .arr _ | .bool _, .obj _ => isFalse (by intro e; cases e)
  | .num _, .undefined | .num _, .null | .num _, .bool _ | .num _, .str _
  | .num _, .arr _ | .num _, .obj _ => isFalse (by intro e; cases e)
  | .str _, .undefined | .str _, .null | .str _, .bool _ | .str _, .num _
  | .str _, .arr _ | .str _, .obj _ => isFalse (by intro e; cases e)
  | .arr _, .undefined | .arr _, .null | .arr _, .bool _ | .arr _, .num _
  | .arr _, .str _ | .arr _, .obj _ => isFalse (by intro e; cases e)
  | .obj _, .undefined | .obj _, .null | .obj _, .bool _ | .obj _, .num _
  | .obj _, .str _ | .obj _, .arr _ => isFalse (by intro e; cases e)
  | .arrWith _ _, .undefined | .arrWith _ _, .null | .arrWith _ _, .bool _
  | .arrWith _ _, .num _ | .arrWith _ _, .str _ | .arrWith _ _, .arr _
  | .arrWith _ _, .obj _ => isFalse (by intro e; cases e)
  | .undefined, .arrWith _ _ | .null, .arrWith _ _ | .bool _, .arrWith _ _
  | .num _, .arrWith _ _ | .str _, .arrWith _ _ | .arr _, .arrWith _ _
  | .obj _, .arrWith _ _ => isFalse (by intro e; cases e)
/-- Decision procedure for equality of array contents. -/
def decEqItems : (a b : List JSValue) → Decidable (a = b)
  | [], [] => isTrue rfl
  | [], _ :: _ => isFalse (by intro e; cases e)
  | _ :: _, [] => isFalse (by intro e; cases e)
  | x :: xs, y :: ys =>
    match decEq x y, decEqItems xs ys with
    | isTrue h, isTrue h2 => isTrue (by rw [h, h2])
    | isFalse h, _ => isFalse (by intro e; cases e; exact h rfl)
    | _, isFalse h => isFalse (by intro e; cases e; exact h rfl)
/-- Decision procedure for equality of property lists. -/
def decEqProps : (a b : List (String × JSValue)) → Decidable (a = b)
  | [], [] => isTrue rfl
  | [], _ :: _ => isFalse (by intro e; cases e)
  | _ :: _, [] => isFalse (by intro e; cases e)
  | (k, x) :: xs, (l, y) :: ys =>
    if hk : k = l then
      match decEq x y, decEqProps xs ys with
      | isTrue h, isTrue h2 => isTrue (by rw [hk, h, h2])
      | isFalse h, _ => isFalse (by intro e; cases e; exact h rfl)
      | _, isFalse h => isFalse (by intro e; cases e; exact h rfl)
    else isFalse (by intro e; cases e; exact hk rfl)
end

instance : DecidableEq JSValue := decEq

/-- Truthiness of a value: what `if (v)`, `!v` and `v || w` test. -/
def truthy : JSValue → Bool
  | .undefined => false
  | .null => false
  | .bool b => b
  | .num n => n != 0
  | .str s => s != ""
  | .arr _ => true
  | .obj _ => true
  | .arrWith _ _ => true

/-- Read `v.key` for a value `v` that is neither `null` nor `undefined` and a key
that no prototype defines (`userData`, `appState`, `confidenceScore`, ...): the
property of an object or of an array that was assigned named properties,
`undefined` when it lacks the property or when `v` is a primitive or an array
without named properties. -/
def get (v : JSValue) (key : String) : JSValue :=
  match v with
  | .obj props => (props.lookup key).getD .undefined
  | .arrWith _ props => (props.lookup key).getD .undefined
  | _ => .undefined

/-- Read `v.key` for any `v`: reading a property of `null` or `undefined` raises
a `TypeError`, rendered as `none`. -/
def getProp? (v : JSValue) (key : String) : Option JSValue :=
  match v with
  | .undefined => none
  | .null => none
  | w => some (w.get key)

end JSValue

open JSValue

mutual
/-- The value that `JSON.parse(JSON.stringify(v))` rebuilds from a `v` nested in
an array or an object, or from a field of a stored snapshot: properties whose
value is `undefined` are dropped, `undefined` array items become `null`, and of an
array only the items are written, not its named properties. -/
def jsonNormalize : JSValue → JSValue
  | .arr items => .arr (normalizeItems items)
  | .obj props => .obj (normalizeProps props)
  | .arrWith items _ => .arr (normalizeItems items)
  | v => v
/-- Array items through `JSON.stringify` and back. -/
def normalizeItems : List JSValue → List JSValue
  | [] => []
  | .undefined :: rest => .null :: normalizeItems rest
  | v :: rest => jsonNormalize v :: normalizeItems rest
/-- Object properties through `JSON.stringify` and back. -/
def normalizeProps : List (String × JSValue) → List (String × JSValue)
  | [] => []
  | (_, .undefined) :: rest => normalizeProps rest
  | (k, v) :: rest => (k, jsonNormalize v) :: normalizeProps rest
end

/-- The deep clone `JSON.parse(JSON.stringify(v))`.  `JSON.stringify(undefined)` is
`undefined`, which `JSON.parse` rejects with a `SyntaxError`: `none`. -/
def jsonClone : JSValue → Option JSValue
  | .undefined => none
  | v => some (jsonNormalize v)

mutual
/-- JSON-representable values: no `undefined` and no array with named properties
anywhere inside. -/
def isJson : JSValue → Bool
  | .undefined => false
  | .arr items => isJsonItems items
  | .obj props => isJsonProps props
  | .arrWith _ _ => false
  | _ => true
/-- Every array item is JSON-representable. -/
def isJsonItems : List JSValue → Bool
  | [] => true
  | v :: rest => isJson v && isJsonItems rest
/-- Every property value is JSON-representable. -/
def isJsonProps : List (String × JSValue) → Bool
  | [] => true
  | (_, v) :: rest => isJson v && isJsonProps rest
end

/-- Exceptions raised by the methods. -/
inductive JSError where
  | error (message : String)
  | syntaxError
  | typeError
  deriving DecidableEq, Repr

/-! ## Snapshots and the system state -/

/-- An entry of `this.backups`. -/
structure Backup where
  id : String
  type : String
  timestamp : Int
  data : JSValue
  status : String
  deriving DecidableEq

/-- An entry of `this.recoveryPoints`. -/
structure RecoveryPoint where
  id : String
  name : String
  timestamp : Int
  data : JSValue
  status : String
  deriving DecidableEq

/-- What the list persisted by `JSON.stringify(this.backups)` decodes to, entry by
entry. -/
def Backup.toJSON (b : Backup) : Backup :=
  { b with data := jsonNormalize b.data }

/-- What the list persisted by `JSON.stringify(this.recoveryPoints)` decodes to,
entry by entry. -/
def RecoveryPoint.toJSON (r : RecoveryPoint) : RecoveryPoint :=
  { r with data := jsonNormalize r.data }

/-- The parts of `window.Phoenix.Intelligence` that the resurrection system reads
and writes. -/
structure Intelligence where
  userData : JSValue
  appState : JSValue
  deriving DecidableEq

/-- Outcome of one `localStorage.setItem` call. -/
inductive WriteResult where
  | ok
  | quotaExceeded
  | otherError
  deriving DecidableEq, Repr

/-- What `sessionStorage.getItem('phoenixEmergencyBackup')` finds: no item, an item
whose text `JSON.parse` turns into a value (`text (some v)`), an item that yields
no value (`text none`: text that `JSON.parse` rejects, or the empty text, which
the test `if (emergencyBackup)` skips), or a store whose access throws. -/
inductive SessionEntry where
  | absent
  | text (parsed : Option JSValue)
  | blocked
  deriving DecidableEq

/-- State of the resurrection system and of the parts of the browser it touches. -/
structure Sys where
  /-- Field `this.backups`. -/
  backups : List Backup
  /-- Field `this.recoveryPoints`. -/
  recoveryPoints : List RecoveryPoint
  /-- Field `this.maxBackups` (10 in the object literal). -/
  maxBackups : Nat
  /-- Field `this.maxRecoveryPoints` (5 in the object literal). -/
  maxRecoveryPoints : Nat
  /-- Object `window.Phoenix.Intelligence`, `none` when it is not installed. -/
  intelligence : Option Intelligence
  /-- Details of the `phoenix:dataRestored` events dispatched so far. -/
  restoredEvents : List JSValue
  /-- Value stored under `phoenixBackups`, `none` when the key is absent. -/
  storedBackups : Option (List Backup)
  /-- Value stored under `phoenixRecoveryPoints`, `none` when the key is absent. -/
  storedRecoveryPoints : Option (List RecoveryPoint)
  /-- Outcome of the n-th `localStorage.setItem` call. -/
  writeResult : Nat → WriteResult
  /-- Number of `localStorage.setItem` calls made so far. -/
  writes : Nat
  /-- The n-th reading of the clock (`Date.now()`, `new Date()`). -/
  clock : Nat → Int
  /-- Number of clock readings made so far. -/
  clockReads : Nat
  /-- The n-th value of `Math.floor(Math.random() * 1000)`. -/
  random : Nat → Fin 1000
  /-- Number of random draws made so far. -/
  randomDraws : Nat
  /-- Item `phoenixEmergencyBackup` of `sessionStorage`. -/
  sessionEmergency : SessionEntry := SessionEntry.absent
  /-- Outcome of the n-th `sessionStorage.setItem` call. -/
  sessionWriteResult : Nat → WriteResult := fun _ => WriteResult.ok
  /-- Number of `sessionStorage.setItem` calls made so far. -/
  sessionWrites : Nat := 0

/-- Result of a method call: a value, an exception (the state keeps what was done
before the throw), or no result within the allowed depth of recursion: the retry
of `saveBackups` or `saveRecoveryPoints` has exhausted the call stack. -/
inductive Res (α : Type) where
  | ok (val : α) (s : Sys)
  | throw (e : JSError) (s : Sys)
  | diverge

/-- Read the clock once. -/
def readClock (s : Sys) : Int × Sys :=
  (s.clock s.clockReads, { s with clockReads := s.clockReads + 1 })

/-- Draw `Math.floor(Math.random() * 1000)` once. -/
def drawRandom (s : Sys) : Nat × Sys :=
  ((s.random s.randomDraws).val, { s with randomDraws := s.randomDraws + 1 })

/-- Text of `new Date(t).toISOString()`.  The calendar arithmetic of ISO-8601 is not
reproduced: the instant is written as its millisecond count, which determines it
just as the ISO form does. -/
def toISOString (t : Int) : String :=
  "T" ++ toString t

/-! ## Methods of `resurrectionSystem` -/

/-- Method `generateId(prefix)`: the prefix, `Date.now()` and a random integer below
1000, joined by dashes.  Reads the clock once and draws once. -/
def generateId (pfx : String) (s : Sys) : String × Sys :=
  let now := readClock s
  let rnd := drawRandom now.2
  (pfx ++ "-" ++ toString now.1 ++ "-" ++ toString rnd.1, rnd.2)

/-- Method `getDefaultUserData()`; `lastActive` reads the clock. -/
def getDefaultUserData (s : Sys) : JSValue × Sys :=
  let now := readClock s
  (.obj [("confidenceScore", .num 65),
         ("challengesCompleted", .num 0),
         ("streak", .num 0),
         ("lastActive", .str (toISOString now.1)),
         ("achievements", .arr []),
         ("preferences", .obj [("theme", .str "light"),
                               ("notifications", .bool true),
                               ("accessibility", .obj [("highContrast", .bool false),
                                                       ("largeText", .bool false)])])],
   now.2)

/-- Method `getDefaultAppState()`. -/
def getDefaultAppState : JSValue :=
  .obj [("currentView", .str "home"),
        ("activeChallenges", .arr []),
        ("systemHealth", .num 100),
        ("lastBackup", .null),
        ("evolutionStage", .num 1)]

/-- Method `getCurrentData()`: the live `userData` and `appState` of
`window.Phoenix.Intelligence`, each replaced by its default when falsy or when the
object is not installed, with the time of capture and a version. -/
def getCurrentData (s : Sys) : JSValue × Sys :=
  let liveUser := match s.intelligence with
    | some i => i.userData
    | none => JSValue.undefined
  let liveApp := match s.intelligence with
    | some i => i.appState
    | none => JSValue.undefined
  let user := if liveUser.truthy then (liveUser, s) else getDefaultUserData s
  let app := if liveApp.truthy then liveApp else getDefaultAppState
  let now := readClock user.2
  (.obj [("userData", user.1),
         ("appState", app),
         ("timestamp", .str (toISOString now.1)),
         ("version", .str "1.0.0")],
   now.2)

/-- The loop `while (list.length > max) list.shift()`. -/
def evictOldest {α : Type} (max : Nat) : List α → List α
  | [] => []
  | x :: xs => if (x :: xs).length > max then evictOldest max xs else x :: xs

/-- The call `list.slice(-k)` for `k ≥ 0`: the last `k` entries, and the whole list
when `k = 0`, since `-0` is `0`. -/
def sliceLast {α : Type} (k : Nat) (l : List α) : List α :=
  if k = 0 then l else l.drop (l.length - k)

/-- Method `saveBackups()`.  A `QuotaExceededError` keeps the last
`Math.floor(maxBackups / 2)` backups and calls `saveBackups()` again; any other
exception is swallowed.  The source puts no bound on the retry.  `fuel` is the
depth of recursion that the engine allows, and the result is `none` when the retry
has not ended at that depth: there the engine raises a `RangeError` for the
exhausted call stack, and whether that error leaves the method or is swallowed by
the `catch` of the innermost call depends on the point at which the stack ends,
which the source does not fix.  `none` stands for both outcomes; nothing is stated
about the state after it, and the theorems about a completed call carry a
condition on the store under which the retry ends. -/
def saveBackups : Nat → Sys → Option Sys
  | 0, _ => none
  | fuel + 1, s =>
    match s.writeResult s.writes with
    | .ok =>
      some { s with writes := s.writes + 1,
                    storedBackups := some (s.backups.map Backup.toJSON) }
    | .quotaExceeded =>
      saveBackups fuel { s with writes := s.writes + 1,
                                backups := sliceLast (s.maxBackups / 2) s.backups }
    | .otherError => some { s with writes := s.writes + 1 }

/-- Method `saveRecoveryPoints()`, the same as `saveBackups` on the other list, with
the same reading of `fuel` and of `none`. -/
def saveRecoveryPoints : Nat → Sys → Option Sys
  | 0, _ => none
  | fuel + 1, s =>
    match s.writeResult s.writes with
    | .ok =>
      some { s with writes := s.writes + 1,
                    storedRecoveryPoints := some (s.recoveryPoints.map RecoveryPoint.toJSON) }
    | .quotaExceeded =>
      saveRecoveryPoints fuel
        { s with writes := s.writes + 1,
                 recoveryPoints := sliceLast (s.maxRecoveryPoints / 2) s.recoveryPoints }
    | .otherError => some { s with writes := s.writes + 1 }

/-- Method `createBackup(type, data)`. -/
def createBackup (fuel : Nat) (type : String) (data : JSValue) (s : Sys) : Res Backup :=
  let id := generateId "backup" s
  let stamp := readClock id.2
  match jsonClone data with
  | none => .throw .syntaxError stamp.2
  | some copy =>
    let backup : Backup :=
      { id := id.1, type := type, timestamp := stamp.1, data := copy, status := "valid" }
    let pushed : Sys :=
      { stamp.2 with backups := evictOldest stamp.2.maxBackups (stamp.2.backups ++ [backup]) }
    match saveBackups fuel pushed with
    | none => .diverge
    | some saved => .ok backup saved

/-- Method `createRecoveryPoint(name, data)`. -/
def createRecoveryPoint (fuel : Nat) (name : String) (data : JSValue) (s : Sys) :
    Res RecoveryPoint :=
  let id := generateId "recovery" s
  let stamp := readClock id.2
  match jsonClone data with
  | none => .throw .syntaxError stamp.2
  | some copy =>
    let point : RecoveryPoint :=
      { id := id.1, name := name, timestamp := stamp.1, data := copy, status := "valid" }
    let pushed : Sys :=
      { stamp.2 with
        recoveryPoints :=
          evictOldest stamp.2.maxRecoveryPoints (stamp.2.recoveryPoints ++ [point]) }
    match saveRecoveryPoints fuel pushed with
    | none => .diverge
    | some saved => .ok point saved

/-- Method `applyRestoredData(data)`: when `window.Phoenix.Intelligence` is installed,
assign it clones of `data.userData` and then of `data.appState`; then dispatch
`phoenix:dataRestored` with `data` as detail. -/
def applyRestoredData (data : JSValue) (s : Sys) : Res Unit :=
  match s.intelligence with
  | none => .ok () { s with restoredEvents := s.restoredEvents ++ [data] }
  | some i =>
    match data.getProp? "userData" with
    | none => .throw .typeError s
    | some user =>
      match jsonClone user with
      | none => .throw .syntaxError s
      | some userCopy =>
        let s1 : Sys := { s with intelligence := some { i with userData := userCopy } }
        match jsonClone (data.get "appState") with
        | none => .throw .syntaxError s1
        | some appCopy =>
          .ok () { s1 with
                   intelligence := some { userData := userCopy, appState := appCopy },
                   restoredEvents := s1.restoredEvents ++ [data] }

/-- Method `restoreFromBackup(backupId)`. -/
def restoreFromBackup (fuel : Nat) (backupId : String) (s : Sys) : Res JSValue :=
  match s.backups.find? (fun b => b.id == backupId) with
  | none => .throw (.error ("Backup with ID " ++ backupId ++ " not found")) s
  | some backup =>
    if backup.status != "valid" then
      .throw (.error ("Backup with ID " ++ backupId ++ " is not valid")) s
    else
      let current := getCurrentData s
      match createRecoveryPoint fuel "preRestore" current.1 current.2 with
      | .diverge => .diverge
      | .throw e s1 => .throw e s1
      | .ok _ s1 =>
        match applyRestoredData backup.data s1 with
        | .diverge => .diverge
        | .throw e s2 => .throw e s2
        | .ok _ s2 => .ok backup.data s2

/-- Method `restoreFromRecoveryPoint(recoveryPointId)`. -/
def restoreFromRecoveryPoint (fuel : Nat) (recoveryPointId : String) (s : Sys) :
    Res JSValue :=
  match s.recoveryPoints.find? (fun rp => rp.id == recoveryPointId) with
  | none =>
    .throw (.error ("Recovery point with ID " ++ recoveryPointId ++ " not found")) s
  | some point =>
    if point.status != "valid" then
      .throw (.error ("Recovery point with ID " ++ recoveryPointId ++ " is not valid")) s
    else
      let current := getCurrentData s
      match createBackup fuel "preRestore" current.1 current.2 with
      | .diverge => .diverge
      | .throw e s1 => .throw e s1
      | .ok _ s1 =>
        match applyRestoredData point.data s1 with
        | .diverge => .diverge
        | .throw e s2 => .throw e s2
        | .ok _ s2 => .ok point.data s2

/-- The test `!type` on the optional argument of `getLatestBackup`: true when the
argument is omitted (`undefined`) or is the empty string. -/
def argFalsy : Option String → Bool
  | none => true
  | some t => t == ""

/-- The filter of `getLatestBackup`:
`b.status === 'valid' && (!type || b.type === type)`. -/
def backupMatches (type : Option String) (b : Backup) : Bool :=
  b.status == "valid" && (argFalsy type || some b.type == type)

/-- The reducer of `getLatestBackup`: keep `latest` only when it is strictly later
than `current`. -/
def laterBackup (latest current : Backup) : Backup :=
  if latest.timestamp > current.timestamp then latest else current

/-- Method `getLatestBackup(type)`; `none` is the `null` result. -/
def getLatestBackup (type : Option String) (s : Sys) : Option Backup :=
  match s.backups.filter (backupMatches type) with
  | [] => none
  | first :: rest => some (rest.foldl laterBackup first)

/-- The assignment `backup.status = status` on the entry that
`this.backups.find(b => b.id === backupId)` returns: the first one with that id. -/
def setBackupStatus (backupId status : String) : List Backup → List Backup
  | [] => []
  | b :: rest =>
    if b.id == backupId then { b with status := status } :: rest
    else b :: setBackupStatus backupId status rest

/-- The structural check of `validateBackup` on the data of the entry found. -/
def structurallyValid (data : JSValue) : Bool :=
  if !data.truthy || !(data.get "userData").truthy || !(data.get "appState").truthy then
    false
  else if (data.get "userData").get "confidenceScore" == JSValue.undefined
      || (data.get "userData").get "challengesCompleted" == JSValue.undefined
      || (data.get "userData").get "streak" == JSValue.undefined then
    false
  else
    true

/-- Method `validateBackup(backupId)`. -/
def validateBackup (fuel : Nat) (backupId : String) (s : Sys) : Res Bool :=
  match s.backups.find? (fun b => b.id == backupId) with
  | none => .ok false s
  | some backup =>
    if structurallyValid backup.data then .ok true s
    else
      match saveBackups fuel
          { s with backups := setBackupStatus backupId "invalid" s.backups } with
      | none => .diverge
      | some saved => .ok false saved

/-- Method `invalidateBackup(backupId)`. -/
def invalidateBackup (fuel : Nat) (backupId : String) (s : Sys) : Res Unit :=
  match s.backups.find? (fun b => b.id == backupId) with
  | none => .ok () s
  | some _ =>
    match saveBackups fuel
        { s with backups := setBackupStatus backupId "invalid" s.backups } with
    | none => .diverge
    | some saved => .ok () saved

/-- Overall status reported by `performHealthCheck`. -/
inductive Overall where
  | healthy
  | warning
  | degraded
  | critical
  deriving DecidableEq, Repr

/-- The counters `total`, `valid`, `invalid` of one list. -/
structure Counts where
  total : Nat
  valid : Nat
  invalid : Nat
  deriving DecidableEq, Repr

/-- Result of `performHealthCheck`; the text of the storage error is left out. -/
structure HealthResults where
  backups : Counts
  recoveryPoints : Counts
  storageAvailable : Bool
  overall : Overall
  deriving DecidableEq, Repr

/-- The two `if` cascades of `performHealthCheck` that follow the storage probe,
started from the status the probe left. -/
def combineOverall (afterProbe : Overall) (validBackups validPoints : Nat) : Overall :=
  let afterBackups :=
    if validBackups = 0 then Overall.critical
    else if validBackups < 3 then
      (if afterProbe = Overall.degraded then Overall.critical else Overall.warning)
    else afterProbe
  if validPoints = 0 then Overall.critical
  else if validPoints < 2 then
    (if afterBackups = Overall.critical then Overall.critical else Overall.warning)
  else afterBackups

/-- Method `performHealthCheck()`.  The probe is one `setItem` (followed by a
`removeItem` of the same key, which leaves the two stored lists as they were). -/
def performHealthCheck (s : Sys) : HealthResults × Sys :=
  let backups : Counts :=
    { total := s.backups.length,
      valid := (s.backups.filter (fun b => b.status == "valid")).length,
      invalid := (s.backups.filter (fun b => b.status != "valid")).length }
  let points : Counts :=
    { total := s.recoveryPoints.length,
      valid := (s.recoveryPoints.filter (fun rp => rp.status == "valid")).length,
      invalid := (s.recoveryPoints.filter (fun rp => rp.status != "valid")).length }
  let available : Bool := decide (s.writeResult s.writes = WriteResult.ok)
  let afterProbe := if available then Overall.healthy else Overall.degraded
  ({ backups := backups,
     recoveryPoints := points,
     storageAvailable := available,
     overall := combineOverall afterProbe backups.valid points.valid },
   { s with writes := s.writes + 1 })

/-! ## Sample states -/

/-- A snapshot payload with both sub-objects the structural check asks for. -/
def sampleData : JSValue :=
  .obj [("userData", .obj [("confidenceScore", .num 70),
                           ("challengesCompleted", .num 2),
                           ("streak", .num 1)]),
        ("appState", .obj [("currentView", .str "home")])]

/-- A valid backup of type `auto` taken at instant `i`, with id `backup-i-0`. -/
def sampleBackup (i : Nat) : Backup :=
  { id := "backup-" ++ toString i ++ "-0", type := "auto", timestamp := i,
    data := sampleData, status := "valid" }

/-- A freshly started system: empty lists, the limits of the object literal, the
application object installed, nothing stored, and a store, a clock and a random
source that always answer `w`, `100` and `7`. -/
def freshSys (w : WriteResult) : Sys :=
  { backups := [], recoveryPoints := [], maxBackups := 10, maxRecoveryPoints := 5,
    intelligence := some { userData := .obj [], appState := .obj [] },
    restoredEvents := [], storedBackups := none, storedRecoveryPoints := none,
    writeResult := fun _ => w, writes := 0,
    clock := fun _ => 100, clockReads := 0,
    random := fun _ => 7, randomDraws := 0 }

/-- Twelve backups loaded from a store that held twelve, with a store that now
refuses every write with an exception other than `QuotaExceededError`. -/
def overlongSys : Sys :=
  { freshSys WriteResult.otherError with
    backups := (List.range 12).map sampleBackup,
    storedBackups := some ((List.range 12).map sampleBackup) }

/-- The backup that `createBackup type data` builds in state `s` from the clone
`copy` of its data. -/
def newBackup (type : String) (copy : JSValue) (s : Sys) : Backup :=
  { id := (generateId "backup" s).1, type := type,
    timestamp := (readClock (generateId "backup" s).2).1, data := copy,
    status := "valid" }

/-- The recovery point that `createRecoveryPoint name data` builds in state `s` from
the clone `copy` of its data. -/
def newRecoveryPoint (name : String) (copy : JSValue) (s : Sys) : RecoveryPoint :=
  { id := (generateId "recovery" s).1, name := name,
    timestamp := (readClock (generateId "recovery" s).2).1, data := copy,
    status := "valid" }

/-- A valid backup of type `manual` with id `backup-1-0` holding `data`. -/
def manualBackup (data : JSValue) : Backup :=
  { id := "backup-1-0", type := "manual", timestamp := 1, data := data, status := "valid" }

/-- A fresh system, with an accepting store, whose only backup is
`manualBackup data`. -/
def oneBackupSys (data : JSValue) : Sys :=
  { freshSys WriteResult.ok with backups := [manualBackup data] }

/-- A valid backup of type `auto` with the given id and instant. -/
def stampedBackup (id : String) (t : Int) : Backup :=
  { id := id, type := "auto", timestamp := t, data := sampleData, status := "valid" }

/-- Three backups, the first two taken at the same instant. -/
def tieSys : Sys :=
  { freshSys WriteResult.ok with
    backups := [stampedBackup "a" 5, stampedBackup "b" 5, stampedBackup "c" 3] }

/-- A payload other than `sampleData`, with both sub-objects. -/
def otherData : JSValue :=
  .obj [("userData", .obj [("confidenceScore", .num 10),
                           ("challengesCompleted", .num 0),
                           ("streak", .num 0)]),
        ("appState", .obj [("currentView", .str "profile")])]

/-- A system whose list already holds a valid backup with the id that the next
`generateId('backup')` produces (`backup-100-7`), taken earlier. -/
def collideSys : Sys :=
  { freshSys WriteResult.ok with
    backups := [{ id := "backup-100-7", type := "auto", timestamp := 50,
                  data := otherData, status := "valid" }] }

/-- A payload whose `confidenceScore` is present but is a string. -/
def textScoreData : JSValue :=
  .obj [("userData", .obj [("confidenceScore", .str "high"),
                           ("challengesCompleted", .num 0),
                           ("streak", .num 0)]),
        ("appState", .obj [("currentView", .str "home")])]

/-- A system whose only backup, in memory and in the store, holds the empty object,
with a store that refuses every write with an exception other than
`QuotaExceededError`. -/
def refusingSys : Sys :=
  { freshSys WriteResult.otherError with
    backups := [manualBackup (.obj [])],
    storedBackups := some [manualBackup (.obj [])] }

/-- A payload whose `userData` lacks `confidenceScore`. -/
def noScoreData : JSValue :=
  .obj [("userData", .obj [("challengesCompleted", .num 2), ("streak", .num 1)]),
        ("appState", .obj [("currentView", .str "home")])]

/-- Ten valid backups, the oldest one lacking `confidenceScore`, on a store that
answers the first write with `QuotaExceededError` and accepts the following
ones. -/
def fullStoreSys : Sys :=
  { freshSys WriteResult.ok with
    backups := { id := "backup-0-9", type := "auto", timestamp := 0, data := noScoreData,
                 status := "valid" } :: (List.range 9).map (fun i => sampleBackup (i + 1)),
    writeResult := fun n => if n = 0 then WriteResult.quotaExceeded else WriteResult.ok }

/-- Two valid backups with the same id, the second one lacking `confidenceScore`. -/
def twinSys : Sys :=
  { freshSys WriteResult.ok with
    backups := [{ id := "backup-5-5", type := "auto", timestamp := 5, data := sampleData,
                  status := "valid" },
                { id := "backup-5-5", type := "auto", timestamp := 5, data := noScoreData,
                  status := "valid" }] }

/-- A valid recovery point named `userAction` taken at instant `i`. -/
def samplePoint (i : Nat) : RecoveryPoint :=
  { id := "recovery-" ++ toString i ++ "-0", name := "userAction", timestamp := i,
    data := sampleData, status := "valid" }

/-- Three valid backups and one valid recovery point, with a store whose probe
fails. -/
def probeFailSys : Sys :=
  { freshSys WriteResult.quotaExceeded with
    backups := (List.range 3).map sampleBackup,
    recoveryPoints := [samplePoint 0] }

/-- Ten valid backups, the first and the last with the same id, on a store that
answers the first write with `QuotaExceededError` and accepts the following
ones. -/
def twinFullSys : Sys :=
  { freshSys WriteResult.ok with
    backups := stampedBackup "backup-5-5" 5 ::
      ((List.range 8).map (fun i => sampleBackup (i + 1)) ++ [stampedBackup "backup-5-5" 6]),
    writeResult := fun n => if n = 0 then WriteResult.quotaExceeded else WriteResult.ok }

/-- A store that answers the first write with `QuotaExceededError` and accepts the
following ones, with two backups in the list. -/
def quotaOnceSys : Sys :=
  { freshSys WriteResult.ok with
    backups := [sampleBackup 1, sampleBackup 2],
    writeResult := fun n => if n = 0 then WriteResult.quotaExceeded else WriteResult.ok }

/-- A store that answers the first two writes with `QuotaExceededError` and accepts
the following ones. -/
def quotaTwiceSys : Sys :=
  { freshSys WriteResult.ok with
    writeResult := fun n => if n < 2 then WriteResult.quotaExceeded else WriteResult.ok }

/-- A valid recovery point named `userAction` with id `recovery-1-0` holding `data`. -/
def actionPoint (data : JSValue) : RecoveryPoint :=
  { id := "recovery-1-0", name := "userAction", timestamp := 1, data := data,
    status := "valid" }

/-- A fresh system, with an accepting store, whose only recovery point is
`actionPoint data`. -/
def onePointSys (data : JSValue) : Sys :=
  { freshSys WriteResult.ok with recoveryPoints := [actionPoint data] }

/-! ## Automatic backup -/

/-- The comparison `a !== b` of two values that belong to different object graphs,
as a live value and a value held by a snapshot do (the data of a snapshot is a
clone): primitives are compared by value, and an array or an object is unequal to
anything. -/
def strictNe : JSValue → JSValue → Bool
  | .undefined, .undefined => false
  | .null, .null => false
  | .bool a, .bool b => a != b
  | .num a, .num b => a != b
  | .str a, .str b => a != b
  | _, _ => true

/-- Number of UTF-16 code units of a string, its `length` in JavaScript. -/
def utf16Length (s : String) : Nat :=
  (s.toList.map (fun c => if c.toNat < 65536 then 1 else 2)).sum

/-- Read `v.length`: a `TypeError` (`none`) on `null` and `undefined`, the number of
items of an array, the number of code units of a string, the property `length` of
an object, `undefined` on a number or a boolean. -/
def length? : JSValue → Option JSValue
  | .undefined => none
  | .null => none
  | .arr items => some (.num items.length)
  | .arrWith items _ => some (.num items.length)
  | .str s => some (.num (utf16Length s))
  | .obj props => some ((JSValue.obj props).get "length")
  | _ => some .undefined

/-- Read `v.k1.k2`. -/
def readPath (v : JSValue) (k1 k2 : String) : Option JSValue :=
  (v.getProp? k1).bind (fun w => w.getProp? k2)

/-- The test `current.k1.k2 !== last.k1.k2`, `none` when a read throws. -/
def pathDiffers (current last : JSValue) (k1 k2 : String) : Option Bool :=
  (readPath current k1 k2).bind (fun a =>
    (readPath last k1 k2).bind (fun b => some (strictNe a b)))

/-- The test `current.userData.achievements.length !== last.userData.achievements.length`,
`none` when a read throws. -/
def achievementsDiffer (current last : JSValue) : Option Bool :=
  ((readPath current "userData" "achievements").bind length?).bind (fun a =>
    ((readPath last "userData" "achievements").bind length?).bind (fun b =>
      some (strictNe a b)))

/-- Method `hasDataChanged(currentData)`; `none` when it throws a `TypeError`.  The
last backup is `this.backups[this.backups.length - 1]`. -/
def hasDataChanged (currentData : JSValue) (s : Sys) : Option Bool :=
  match s.backups.getLast? with
  | none => some true
  | some lastBackup =>
    (pathDiffers currentData lastBackup.data "userData" "confidenceScore").bind (fun d1 =>
      if d1 then some true else
    (pathDiffers currentData lastBackup.data "userData" "challengesCompleted").bind (fun d2 =>
      if d2 then some true else
    (pathDiffers currentData lastBackup.data "userData" "streak").bind (fun d3 =>
      if d3 then some true else
    (achievementsDiffer currentData lastBackup.data).bind (fun d4 =>
      if d4 then some true else
    (pathDiffers currentData lastBackup.data "appState" "currentView").bind (fun d5 =>
      if d5 then some true else some false)))))

/-- Method `createAutoBackup()`. -/
def createAutoBackup (fuel : Nat) (s : Sys) : Res Unit :=
  let current := getCurrentData s
  match hasDataChanged current.1 current.2 with
  | none => .throw .typeError current.2
  | some false => .ok () current.2
  | some true =>
    match createBackup fuel "auto" current.1 current.2 with
    | .diverge => .diverge
    | .throw e s1 => .throw e s1
    | .ok _ s1 => .ok () s1

/-! ## Recovery points: validation, invalidation, latest -/

/-- The assignment `recoveryPoint.status = status` on the entry that
`this.recoveryPoints.find(rp => rp.id === recoveryPointId)` returns. -/
def setPointStatus (pointId status : String) : List RecoveryPoint → List RecoveryPoint
  | [] => []
  | r :: rest =>
    if r.id == pointId then { r with status := status } :: rest
    else r :: setPointStatus pointId status rest

/-- Method `validateRecoveryPoint(recoveryPointId)`. -/
def validateRecoveryPoint (fuel : Nat) (pointId : String) (s : Sys) : Res Bool :=
  match s.recoveryPoints.find? (fun rp => rp.id == pointId) with
  | none => .ok false s
  | some point =>
    if structurallyValid point.data then .ok true s
    else
      match saveRecoveryPoints fuel
          { s with recoveryPoints := setPointStatus pointId "invalid" s.recoveryPoints } with
      | none => .diverge
      | some saved => .ok false saved

/-- Method `invalidateRecoveryPoint(recoveryPointId)`. -/
def invalidateRecoveryPoint (fuel : Nat) (pointId : String) (s : Sys) : Res Unit :=
  match s.recoveryPoints.find? (fun rp => rp.id == pointId) with
  | none => .ok () s
  | some _ =>
    match saveRecoveryPoints fuel
        { s with recoveryPoints := setPointStatus pointId "invalid" s.recoveryPoints } with
    | none => .diverge
    | some saved => .ok () saved

/-- The filter of `getLatestRecoveryPoint`:
`rp.status === 'valid' && (!name || rp.name === name)`. -/
def pointMatches (name : Option String) (r : RecoveryPoint) : Bool :=
  r.status == "valid" && (argFalsy name || some r.name == name)

/-- The reducer of `getLatestRecoveryPoint`. -/
def laterPoint (latest current : RecoveryPoint) : RecoveryPoint :=
  if latest.timestamp > current.timestamp then latest else current

/-- Method `getLatestRecoveryPoint(name)`; `none` is the `null` result. -/
def getLatestRecoveryPoint (name : Option String) (s : Sys) : Option RecoveryPoint :=
  match s.recoveryPoints.filter (pointMatches name) with
  | [] => none
  | first :: rest => some (rest.foldl laterPoint first)

/-! ## Initial snapshots -/

/-- The object `initialData` of `createInitialBackup`, `createInitialRecoveryPoint`
and of the last resort of `recoverFromEmergency`: the defaults, the time and a
version.  Reads the clock twice. -/
def defaultData (s : Sys) : JSValue × Sys :=
  let user := getDefaultUserData s
  let now := readClock user.2
  (.obj [("userData", user.1),
         ("appState", getDefaultAppState),
         ("timestamp", .str (toISOString now.1)),
         ("version", .str "1.0.0")],
   now.2)

/-- Method `createInitialBackup()`. -/
def createInitialBackup (fuel : Nat) (s : Sys) : Res Backup :=
  let initialData := defaultData s
  createBackup fuel "initial" initialData.1 initialData.2

/-- Method `createInitialRecoveryPoint()`. -/
def createInitialRecoveryPoint (fuel : Nat) (s : Sys) : Res RecoveryPoint :=
  let initialData := defaultData s
  createRecoveryPoint fuel "initialization" initialData.1 initialData.2

/-! ## Repair -/

/-- The named properties of an object after the assignment of `value` to `key`:
the property is replaced in place, or added last. -/
def assignProp (props : List (String × JSValue)) (key : String) (value : JSValue) :
    List (String × JSValue) :=
  if (props.lookup key).isSome then
    props.map (fun p => if p.1 == key then (p.1, value) else p)
  else props ++ [(key, value)]

/-- The assignment `v.key = value` in sloppy mode, for a key that is not an array
index: on an object the property is replaced in place, or added last; an array is
an object too and receives the property beside its items; on a primitive the
assignment is dropped. -/
def JSValue.setProp (v : JSValue) (key : String) (value : JSValue) : JSValue :=
  match v with
  | .obj props => .obj (assignProp props key value)
  | .arr items => .arrWith items (assignProp [] key value)
  | .arrWith items props => .arrWith items (assignProp props key value)
  | w => w

/-- The three repairing assignments of `repairSystem` on the data of a snapshot:
an empty object for falsy data, the default user data for a falsy `userData` (this
reads the clock), the default application state for a falsy `appState`. -/
def repairData (data : JSValue) (s : Sys) : JSValue × Sys :=
  let d0 := if data.truthy then data else JSValue.obj []
  let d1 :=
    if (d0.get "userData").truthy then (d0, s)
    else (d0.setProp "userData" (getDefaultUserData s).1, (getDefaultUserData s).2)
  let d2 :=
    if (d1.1.get "appState").truthy then d1.1
    else d1.1.setProp "appState" getDefaultAppState
  (d2, d1.2)

/-- Bookkeeping of one `forEach` of `repairSystem` over a list of snapshots of type
`α`.  `tags` names, position by position, the objects of the list held by the
system (an object keeps its tag through `splice` and `slice`); `detached` is the
array that `forEach` walks once a `QuotaExceededError` has made `saveBackups`
assign a new array to the field, and is `none` while `forEach` walks the field's
own array. -/
structure Loop (α : Type) where
  tags : List Nat
  detached : Option (List (Nat × α))
  repaired : Nat
  removed : Nat

/-- Apply `f` to the entry of `l` whose tag is `u`, if there is one. -/
def updateTagged {α : Type} (u : Nat) (f : α → α) : List Nat → List α → List α
  | t :: ts, x :: xs => if t = u then f x :: xs else x :: updateTagged u f ts xs
  | _, xs => xs

/-- The callback of `this.backups.forEach((backup, index) => ...)` at `index`. -/
def repairBackupAt (fuel : Nat) (index : Nat) (s : Sys) (st : Loop Backup) :
    Res (Loop Backup) :=
  let walked := match st.detached with
    | some array => array
    | none => st.tags.zip s.backups
  match walked[index]? with
  | none => .ok st s
  | some (tag, backup) =>
    match validateBackup fuel backup.id s with
    | .diverge => .diverge
    | .throw e s1 => .throw e s1
    | .ok true s1 => .ok st s1
    | .ok false s1 =>
      let tags1 := st.tags.drop (s.backups.length - s1.backups.length)
      let reassigned :=
        (s.backups.find? (fun b => b.id == backup.id)).isSome
          && decide (s.writeResult s.writes = WriteResult.quotaExceeded)
      let detached1 := match st.detached with
        | some array => some array
        | none =>
          if reassigned then
            some (st.tags.zip (setBackupStatus backup.id "invalid" s.backups))
          else none
      let now := readClock s1
      if now.1 - backup.timestamp < 24 * 60 * 60 * 1000 then
        let filled := repairData backup.data now.2
        .ok { tags := tags1, detached := detached1,
              repaired := st.repaired + 1, removed := st.removed }
          { filled.2 with
            backups := updateTagged tag
              (fun b => { b with data := filled.1, status := "valid" }) tags1
              filled.2.backups }
      else
        .ok { tags := tags1.eraseIdx index, detached := detached1,
              repaired := st.repaired, removed := st.removed + 1 }
          { now.2 with backups := now.2.backups.eraseIdx index }

/-- The loop `this.backups.forEach(...)`, over the indices below the length the
array had when the loop started. -/
def repairBackups (fuel : Nat) : List Nat → Sys → Loop Backup → Res (Loop Backup)
  | [], s, st => .ok st s
  | index :: rest, s, st =>
    match repairBackupAt fuel index s st with
    | .ok st1 s1 => repairBackups fuel rest s1 st1
    | other => other

/-- The callback of `this.recoveryPoints.forEach((recoveryPoint, index) => ...)`. -/
def repairPointAt (fuel : Nat) (index : Nat) (s : Sys) (st : Loop RecoveryPoint) :
    Res (Loop RecoveryPoint) :=
  let walked := match st.detached with
    | some array => array
    | none => st.tags.zip s.recoveryPoints
  match walked[index]? with
  | none => .ok st s
  | some (tag, point) =>
    match validateRecoveryPoint fuel point.id s with
    | .diverge => .diverge
    | .throw e s1 => .throw e s1
    | .ok true s1 => .ok st s1
    | .ok false s1 =>
      let tags1 := st.tags.drop (s.recoveryPoints.length - s1.recoveryPoints.length)
      let reassigned :=
        (s.recoveryPoints.find? (fun rp => rp.id == point.id)).isSome
          && decide (s.writeResult s.writes = WriteResult.quotaExceeded)
      let detached1 := match st.detached with
        | some array => some array
        | none =>
          if reassigned then
            some (st.tags.zip (setPointStatus point.id "invalid" s.recoveryPoints))
          else none
      let now := readClock s1
      if now.1 - point.timestamp < 24 * 60 * 60 * 1000 then
        let filled := repairData point.data now.2
        .ok { tags := tags1, detached := detached1,
              repaired := st.repaired + 1, removed := st.removed }
          { filled.2 with
            recoveryPoints := updateTagged tag
              (fun r => { r with data := filled.1, status := "valid" }) tags1
              filled.2.recoveryPoints }
      else
        .ok { tags := tags1.eraseIdx index, detached := detached1,
              repaired := st.repaired, removed := st.removed + 1 }
          { now.2 with recoveryPoints := now.2.recoveryPoints.eraseIdx index }

/-- The loop `this.recoveryPoints.forEach(...)`. -/
def repairPoints (fuel : Nat) :
    List Nat → Sys → Loop RecoveryPoint → Res (Loop RecoveryPoint)
  | [], s, st => .ok st s
  | index :: rest, s, st =>
    match repairPointAt fuel index s st with
    | .ok st1 s1 => repairPoints fuel rest s1 st1
    | other => other

/-- Result of `repairSystem`. -/
structure RepairResults where
  backupsRepaired : Nat
  recoveryPointsRepaired : Nat
  backupsRemoved : Nat
  recoveryPointsRemoved : Nat
  storageRepaired : Bool
  overallSuccess : Bool
  deriving DecidableEq, Repr

/-- The storage check at the end of `repairSystem`: one probe, and after a failed
probe the removal of `phoenixLogs` and a second probe. -/
def repairStorage (s : Sys) : Bool × Sys :=
  match s.writeResult s.writes with
  | .ok => (true, { s with writes := s.writes + 1 })
  | _ =>
    (decide (s.writeResult (s.writes + 1) = WriteResult.ok),
     { s with writes := s.writes + 2 })

/-- Method `repairSystem()`. -/
def repairSystem (fuel : Nat) (s : Sys) : Res RepairResults :=
  match repairBackups fuel (List.range s.backups.length) s
      { tags := List.range s.backups.length, detached := none, repaired := 0, removed := 0 } with
  | .diverge => .diverge
  | .throw e s1 => .throw e s1
  | .ok backupLoop s1 =>
    match repairPoints fuel (List.range s1.recoveryPoints.length) s1
        { tags := List.range s1.recoveryPoints.length, detached := none,
          repaired := 0, removed := 0 } with
    | .diverge => .diverge
    | .throw e s2 => .throw e s2
    | .ok pointLoop s2 =>
      match saveBackups fuel s2 with
      | none => .diverge
      | some s3 =>
        match saveRecoveryPoints fuel s3 with
        | none => .diverge
        | some s4 =>
          let afterBackup : Res Nat :=
            if s4.backups.length = 0 then
              match createInitialBackup fuel s4 with
              | .diverge => .diverge
              | .throw e s5 => .throw e s5
              | .ok _ s5 => .ok (backupLoop.repaired + 1) s5
            else .ok backupLoop.repaired s4
          match afterBackup with
          | .diverge => .diverge
          | .throw e s5 => .throw e s5
          | .ok backupsRepaired s5 =>
            let afterPoint : Res Nat :=
              if s5.recoveryPoints.length = 0 then
                match createInitialRecoveryPoint fuel s5 with
                | .diverge => .diverge
                | .throw e s6 => .throw e s6
                | .ok _ s6 => .ok (pointLoop.repaired + 1) s6
              else .ok pointLoop.repaired s5
            match afterPoint with
            | .diverge => .diverge
            | .throw e s6 => .throw e s6
            | .ok pointsRepaired s6 =>
              let storage := repairStorage s6
              let health := performHealthCheck storage.2
              .ok { backupsRepaired := backupsRepaired,
                    recoveryPointsRepaired := pointsRepaired,
                    backupsRemoved := backupLoop.removed,
                    recoveryPointsRemoved := pointLoop.removed,
                    storageRepaired := storage.1,
                    overallSuccess := decide (health.1.overall ≠ Overall.critical) }
                health.2

/-! ## Emergency path -/

/-- What `createEmergencyBackup` returns: the backup made by `createBackup`, or one of
the two object literals of its fallback branches. -/
inductive EmergencySnapshot where
  | backup (b : Backup)
  | object (v : JSValue)
  deriving DecidableEq

/-- The literal `{ id: this.generateId('emergency'), timestamp: new Date().toISOString(),
data: currentData }`, with `extra` properties after it. -/
def emergencyObject (currentData : JSValue) (extra : List (String × JSValue)) (s : Sys) :
    JSValue × Sys :=
  let id := generateId "emergency" s
  let stamp := readClock id.2
  (.obj ([("id", .str id.1), ("timestamp", .str (toISOString stamp.1)),
          ("data", currentData)] ++ extra),
   stamp.2)

/-- Method `createEmergencyBackup()`.  In this embedding `getCurrentData` does not
throw, so the defaults of the first `catch` are not needed.  The `catch` around
`createBackup` is entered when `createBackup` throws; a failed store write does
not make it throw, since `saveBackups` catches it. -/
def createEmergencyBackup (fuel : Nat) (s : Sys) : Res EmergencySnapshot :=
  let current := getCurrentData s
  match createBackup fuel "emergency" current.1 current.2 with
  | .diverge => .diverge
  | .ok backup s1 => .ok (.backup backup) s1
  | .throw _ s1 =>
    let literal := emergencyObject current.1 [] s1
    match literal.2.sessionWriteResult literal.2.sessionWrites with
    | .ok =>
      .ok (.object (jsonNormalize literal.1))
        { literal.2 with
          sessionEmergency := SessionEntry.text (some (jsonNormalize literal.1)),
          sessionWrites := literal.2.sessionWrites + 1 }
    | _ =>
      let written : Sys := { literal.2 with sessionWrites := literal.2.sessionWrites + 1 }
      let inMemory := emergencyObject current.1 [("persistent", .bool false)] written
      .ok (.object inMemory.1) inMemory.2

/-- Result of `recoverFromEmergency`; `source` is `none` for `null`. -/
structure RecoveryResults where
  recovered : Bool
  source : Option String
  data : JSValue
  deriving DecidableEq

/-- Last resort of `recoverFromEmergency`: the default data, applied outside any
`try`. -/
def recoverFromDefault (s : Sys) : Res RecoveryResults :=
  let defaults := defaultData s
  match applyRestoredData defaults.1 defaults.2 with
  | .diverge => .diverge
  | .throw e s1 => .throw e s1
  | .ok _ s1 => .ok { recovered := true, source := some "default", data := defaults.1 } s1

/-- Second source of `recoverFromEmergency`: the latest valid backup of any type; an
exception while applying it is caught and the defaults are used. -/
def recoverFromLatest (s : Sys) : Res RecoveryResults :=
  match getLatestBackup none s with
  | none => recoverFromDefault s
  | some latest =>
    match applyRestoredData latest.data s with
    | .ok _ s1 =>
      .ok { recovered := true, source := some "localStorage", data := latest.data } s1
    | .throw _ s1 => recoverFromDefault s1
    | .diverge => .diverge

/-- Method `recoverFromEmergency()`.  First source: the item of `sessionStorage`; an
exception while reading, parsing or applying it is caught and the next source is
tried. -/
def recoverFromEmergency (s : Sys) : Res RecoveryResults :=
  match s.sessionEmergency with
  | .text (some backupData) =>
    match backupData.getProp? "data" with
    | none => recoverFromLatest s
    | some data =>
      match applyRestoredData data s with
      | .ok _ s1 =>
        .ok { recovered := true, source := some "sessionStorage", data := data } s1
      | .throw _ s1 => recoverFromLatest s1
      | .diverge => .diverge
  | _ => recoverFromLatest s

/-! ## More sample states -/

/-- User data with the three numeric fields fixed and the given achievements. -/
def profileUser (achievements : List JSValue) : JSValue :=
  .obj [("confidenceScore", .num 70), ("challengesCompleted", .num 2), ("streak", .num 1),
        ("achievements", .arr achievements)]

/-- A payload built on `profileUser`, with the view `home`. -/
def profileData (achievements : List JSValue) : JSValue :=
  .obj [("userData", profileUser achievements),
        ("appState", .obj [("currentView", .str "home")])]

/-- A system whose application state is `profileData live` and whose only backup
holds `profileData saved`. -/
def profileSys (live saved : List JSValue) : Sys :=
  { freshSys WriteResult.ok with
    intelligence := some { userData := profileUser live,
                           appState := .obj [("currentView", .str "home")] },
    backups := [{ id := "backup-1-0", type := "auto", timestamp := 1,
                  data := profileData saved, status := "valid" }] }

/-! ## Calls that leave statuses alone -/

/-- A call of one of the methods other than `repairSystem` and the emergency path. -/
inductive Call where
  | createBackup (type : String) (data : JSValue)
  | createRecoveryPoint (name : String) (data : JSValue)
  | createAutoBackup
  | validateBackup (backupId : String)
  | validateRecoveryPoint (pointId : String)
  | invalidateBackup (backupId : String)
  | invalidateRecoveryPoint (pointId : String)
  | getLatestBackup (type : Option String)
  | getLatestRecoveryPoint (name : Option String)
  | restoreFromBackup (backupId : String)
  | restoreFromRecoveryPoint (pointId : String)
  | performHealthCheck

/-- The state a call ends in, whether it returned or threw; `none` when it did not
end within the allowed depth. -/
def Res.state? {α : Type} : Res α → Option Sys
  | .ok _ s => some s
  | .throw _ s => some s
  | .diverge => none

/-- The state after a call.  `getLatestBackup` and `getLatestRecoveryPoint` only read
the state. -/
def Call.run (fuel : Nat) : Call → Sys → Option Sys
  | .createBackup type data, s => (Resurrection.createBackup fuel type data s).state?
  | .createRecoveryPoint name data, s =>
    (Resurrection.createRecoveryPoint fuel name data s).state?
  | .createAutoBackup, s => (Resurrection.createAutoBackup fuel s).state?
  | .validateBackup backupId, s => (Resurrection.validateBackup fuel backupId s).state?
  | .validateRecoveryPoint pointId, s =>
    (Resurrection.validateRecoveryPoint fuel pointId s).state?
  | .invalidateBackup backupId, s => (Resurrection.invalidateBackup fuel backupId s).state?
  | .invalidateRecoveryPoint pointId, s =>
    (Resurrection.invalidateRecoveryPoint fuel pointId s).state?
  | .getLatestBackup _, s => some s
  | .getLatestRecoveryPoint _, s => some s
  | .restoreFromBackup backupId, s => (Resurrection.restoreFromBackup fuel backupId s).state?
  | .restoreFromRecoveryPoint pointId, s =>
    (Resurrection.restoreFromRecoveryPoint fuel pointId s).state?
  | .performHealthCheck, s => some (Resurrection.performHealthCheck s).2

/-- The backup that a call builds when it gets as far as `createBackup`. -/
def Call.freshBackups : Call → Sys → List Backup
  | .createBackup type data, s => [newBackup type (jsonNormalize data) s]
  | .createAutoBackup, s =>
    [newBackup "auto" (jsonNormalize (getCurrentData s).1) (getCurrentData s).2]
  | .restoreFromRecoveryPoint _, s =>
    [newBackup "preRestore" (jsonNormalize (getCurrentData s).1) (getCurrentData s).2]
  | _, _ => []

/-- The recovery point that a call builds when it gets as far as
`createRecoveryPoint`. -/
def Call.freshPoints : Call → Sys → List RecoveryPoint
  | .createRecoveryPoint name data, s => [newRecoveryPoint name (jsonNormalize data) s]
  | .restoreFromBackup _, s =>
    [newRecoveryPoint "preRestore" (jsonNormalize (getCurrentData s).1) (getCurrentData s).2]
  | _, _ => []

/-- The list `after` comes from the list `before` by setting the status of some
entries to `invalid` (through `invalidate`), possibly appending the entries
`fresh`, and dropping entries from the front: entry by entry, what is left of
`before` is the old entry or the old entry invalidated. -/
def Evolves {α : Type} (invalidate : α → α) (fresh before after : List α) : Prop :=
  ∃ (marked : List α) (j : Nat),
    List.Forall₂ (fun old new => new = old ∨ new = invalidate old) before marked ∧
    (after = marked.drop j ∨ after = (marked ++ fresh).drop j)

/-- A system whose only backup is structurally sound and has been invalidated. -/
def invalidatedSys : Sys :=
  { freshSys WriteResult.ok with
    backups := [{ manualBackup sampleData with status := "invalid" }] }

/-- A system that is a day and more past the epoch: every clock reading is
100000000 ms (27 hours and 46 minutes). -/
def lateSys : Sys :=
  { freshSys WriteResult.ok with clock := fun _ => 100000000 }

/-- A backup with status `invalid` holding the empty object, taken at instant `t`. -/
def brokenBackup (id : String) (t : Int) : Backup :=
  { id := id, type := "auto", timestamp := t, data := .obj [], status := "invalid" }

/-- Two invalid backups taken at the epoch, both holding the empty object, and one
valid recovery point, more than 24 hours later. -/
def staleSys : Sys :=
  { lateSys with
    backups := [brokenBackup "backup-1-0" 0, brokenBackup "backup-2-0" 0],
    recoveryPoints := [samplePoint 0] }

/-- An invalid backup older than 24 hours followed by an invalid backup taken one
second ago, both holding the empty object. -/
def mixedSys : Sys :=
  { lateSys with
    backups := [brokenBackup "backup-1-0" 0, brokenBackup "backup-2-0" 99999000],
    recoveryPoints := [samplePoint 0] }

/-- The text of an emergency snapshot in `sessionStorage` holding `data`. -/
def sessionSnapshot (data : JSValue) : SessionEntry :=
  SessionEntry.text (some (.obj [("id", .str "emergency-1-0"), ("timestamp", .str "T1"),
                                 ("data", data)]))

/-! ## Start-up -/

/-- Method `loadBackups()`.  The item under `phoenixBackups` is represented by the list
it decodes to, and the texts that `saveBackups` writes are never empty, so the
test `if (storedBackups)` is the test that the item is there.  A text that
`JSON.parse` rejects, for which the `catch` branch empties the list, is not a
value the key can hold in this representation. -/
def loadBackups (s : Sys) : Sys :=
  match s.storedBackups with
  | none => s
  | some stored => { s with backups := stored }

/-- Method `loadRecoveryPoints()`, the same as `loadBackups` on the other list. -/
def loadRecoveryPoints (s : Sys) : Sys :=
  match s.storedRecoveryPoints with
  | none => s
  | some stored => { s with recoveryPoints := stored }

/-- The object literal `resurrectionSystem` as `initResurrectionSystem` builds it,
in the browser described by `env`: empty lists and the limits 10 and 5. -/
def objectLiteral (env : Sys) : Sys :=
  { env with backups := [], recoveryPoints := [], maxBackups := 10, maxRecoveryPoints := 5 }

/-- The statement `if (this.backups.length === 0) { this.createInitialBackup(); }`. -/
def ensureInitialBackup (fuel : Nat) (s : Sys) : Res Unit :=
  if s.backups.length = 0 then
    match createInitialBackup fuel s with
    | .diverge => .diverge
    | .throw e s1 => .throw e s1
    | .ok _ s1 => .ok () s1
  else .ok () s

/-- The statement
`if (this.recoveryPoints.length === 0) { this.createInitialRecoveryPoint(); }`. -/
def ensureInitialRecoveryPoint (fuel : Nat) (s : Sys) : Res Unit :=
  if s.recoveryPoints.length = 0 then
    match createInitialRecoveryPoint fuel s with
    | .diverge => .diverge
    | .throw e s1 => .throw e s1
    | .ok _ s1 => .ok () s1
  else .ok () s

/-- Method `init()`: load both lists, then create the initial snapshot of each kind
whose list is empty.  `startAutoBackup` only schedules `createAutoBackup` and
`addEventListeners` only registers handlers; neither changes the state. -/
def init (fuel : Nat) (s : Sys) : Res Unit :=
  match ensureInitialBackup fuel (loadRecoveryPoints (loadBackups s)) with
  | .diverge => .diverge
  | .throw e s1 => .throw e s1
  | .ok _ s1 => ensureInitialRecoveryPoint fuel s1

/-- A system with the application object installed, a session snapshot whose data
has no `appState`, and one valid backup holding the empty object. -/
def unusableSourcesSys : Sys :=
  { oneBackupSys (.obj []) with
    sessionEmergency := sessionSnapshot (.obj [("userData", .obj [])]) }

/-- A system without the application object whose session store holds the text
`{"data": null}`. -/
def nullSnapshotSys : Sys :=
  { freshSys WriteResult.ok with
    intelligence := none,
    sessionEmergency := SessionEntry.text (some (.obj [("data", .null)])) }

/-- A fresh system, with an accepting store, whose recovery-point list is full:
five valid points. -/
def fivePointsSys : Sys :=
  { freshSys WriteResult.ok with recoveryPoints := (List.range 5).map samplePoint }

/-- A fresh system, with an accepting store, holding two valid backups. -/
def pairSys : Sys :=
  { freshSys WriteResult.ok with backups := [sampleBackup 1, sampleBackup 2] }

/-! ## Values compared by `!==` -/

/-- A value that `!==` compares by value: anything but an array or an object, which
are compared by identity. -/
def isPrimitive : JSValue → Bool
  | .arr _ => false
  | .obj _ => false
  | .arrWith _ _ => false
  | _ => true

/-- A JSON-representable payload with `userData` and `appState` whose
`confidenceScore` is an object. -/
def objectScoreData : JSValue :=
  .obj [("userData", .obj [("confidenceScore", .obj [("value", .num 70)]),
                           ("challengesCompleted", .num 2),
                           ("streak", .num 1),
                           ("achievements", .arr [])]),
        ("appState", .obj [("currentView", .str "home")])]

/-! ## The resurrection protocol of `phoenix-core.js` -/

namespace Core

/-- The object `resurrectionProtocol` of `initResurrectionProtocol`, with the clock
and the random source that its methods read.  It keeps its lists in memory only. -/
structure Protocol where
  /-- Field `this.backups`. -/
  backups : List Backup
  /-- Field `this.recoveryPoints`. -/
  recoveryPoints : List RecoveryPoint
  /-- The n-th reading of the clock (`Date.now()`, `new Date()`). -/
  clock : Nat → Int
  /-- Number of clock readings made so far. -/
  clockReads : Nat
  /-- The n-th value of `Math.floor(Math.random() * 1000)`. -/
  random : Nat → Fin 1000
  /-- Number of random draws made so far. -/
  randomDraws : Nat

/-- Read the clock once. -/
def readClock (p : Protocol) : Int × Protocol :=
  (p.clock p.clockReads, { p with clockReads := p.clockReads + 1 })

/-- Method `generateBackupId()`. -/
def generateBackupId (p : Protocol) : String × Protocol :=
  let now := readClock p
  ("backup-" ++ toString now.1 ++ "-" ++ toString (now.2.random now.2.randomDraws).val,
   { now.2 with randomDraws := now.2.randomDraws + 1 })

/-- Method `generateRecoveryPointId()`. -/
def generateRecoveryPointId (p : Protocol) : String × Protocol :=
  let now := readClock p
  ("recovery-" ++ toString now.1 ++ "-" ++ toString (now.2.random now.2.randomDraws).val,
   { now.2 with randomDraws := now.2.randomDraws + 1 })

/-- The statement `if (list.length > max) { list.shift(); }`: one entry at most is
removed, the one at index 0. -/
def shiftIfOver {α : Type} (max : Nat) (l : List α) : List α :=
  if l.length > max then l.tail else l

/-- Method `createBackup(data, type)`; the type is `'full'` when the argument is
omitted or empty.  The result is `none` when the clone throws a `SyntaxError`; the
list is then as it was. -/
def createBackup (data : JSValue) (type : Option String) (p : Protocol) :
    Option Backup × Protocol :=
  let id := generateBackupId p
  let stamp := readClock id.2
  match jsonClone data with
  | none => (none, stamp.2)
  | some copy =>
    let backup : Backup :=
      { id := id.1, timestamp := stamp.1,
        type := if argFalsy type then "full" else type.getD "full",
        data := copy, status := "valid" }
    (some backup, { stamp.2 with backups := shiftIfOver 10 (stamp.2.backups ++ [backup]) })

/-- Method `createRecoveryPoint(name, data)`. -/
def createRecoveryPoint (name : String) (data : JSValue) (p : Protocol) :
    Option RecoveryPoint × Protocol :=
  let id := generateRecoveryPointId p
  let stamp := readClock id.2
  match jsonClone data with
  | none => (none, stamp.2)
  | some copy =>
    let point : RecoveryPoint :=
      { id := id.1, name := name, timestamp := stamp.1, data := copy, status := "valid" }
    (some point,
     { stamp.2 with recoveryPoints := shiftIfOver 5 (stamp.2.recoveryPoints ++ [point]) })

/-- Method `invalidateBackup(backupId)`: the first backup with that id, if any, gets
the status `invalid`. -/
def invalidateBackup (backupId : String) (p : Protocol) : Protocol :=
  { p with backups := setBackupStatus backupId "invalid" p.backups }

/-- Method `invalidateRecoveryPoint(recoveryPointId)`. -/
def invalidateRecoveryPoint (pointId : String) (p : Protocol) : Protocol :=
  { p with recoveryPoints := setPointStatus pointId "invalid" p.recoveryPoints }

/-- The end of `initResurrectionProtocol`: the object literal with empty lists, then
the initial backup and the initial recovery point of
`{ version: '1.0.0', timestamp: new Date() }`, whose date `JSON.stringify` writes
as a string. -/
def initResurrectionProtocol (env : Protocol) : Protocol :=
  let literal : Protocol := { env with backups := [], recoveryPoints := [] }
  let now := readClock literal
  let initialData : JSValue :=
    .obj [("version", .str "1.0.0"), ("timestamp", .str (toISOString now.1))]
  let p1 := (createBackup initialData (some "initial") now.2).2
  (createRecoveryPoint "initialization" initialData p1).2

/-- A call of one of the four methods of the protocol that write its lists. -/
inductive Call where
  | createBackup (data : JSValue) (type : Option String)
  | createRecoveryPoint (name : String) (data : JSValue)
  | invalidateBackup (backupId : String)
  | invalidateRecoveryPoint (pointId : String)

/-- The state after a call, whether it returned or threw. -/
def Call.run : Call → Protocol → Protocol
  | .createBackup data type, p => (Core.createBackup data type p).2
  | .createRecoveryPoint name data, p => (Core.createRecoveryPoint name data p).2
  | .invalidateBackup backupId, p => Core.invalidateBackup backupId p
  | .invalidateRecoveryPoint pointId, p => Core.invalidateRecoveryPoint pointId p

/-- The state after a sequence of calls. -/
def runAll (calls : List Call) (p : Protocol) : Protocol :=
  calls.foldl (fun q c => c.run q) p

/-- A browser whose clock always reads 100 and whose random source always gives 7. -/
def sampleEnv : Protocol :=
  { backups := [], recoveryPoints := [], clock := fun _ => 100, clockReads := 0,
    random := fun _ => 7, randomDraws := 0 }

end Core

/-! ## Object identity

The embedding above represents a data object by its value, which is all that the
methods of the system read.  Whether two places hold the same object shows only
when one of them is written to afterwards.  `Located` adds to the state the
address of the data object of every snapshot and of the two live objects of
`window.Phoenix.Intelligence`; an object that `JSON.parse` builds gets an address
that no object had before. -/

/-- The state together with the addresses of its data objects. -/
structure Located where
  /-- The state, with every data object represented by its value. -/
  sys : Sys
  /-- Address of the object `backup.data`, for each entry of `sys.backups` in turn. -/
  backupData : List Nat
  /-- Address of the object `recoveryPoint.data`, for each entry of
  `sys.recoveryPoints` in turn. -/
  pointData : List Nat
  /-- Address of the object `window.Phoenix.Intelligence.userData`. -/
  userData : Nat
  /-- Address of the object `window.Phoenix.Intelligence.appState`. -/
  appState : Nat
  /-- The address that the next new object gets. -/
  next : Nat

/-- The addresses of a list of snapshots that has lost entries at the front (by
`shift` or by `slice(-k)`) and is left with `n` entries. -/
def lastAddresses (n : Nat) (l : List Nat) : List Nat :=
  l.drop (l.length - n)

/-- Method `createRecoveryPoint(name, data)` with addresses: the clone of `data` is
a new object.  `none` when the call does not return. -/
def createRecoveryPointAt (fuel : Nat) (name : String) (data : JSValue) (l : Located) :
    Option (RecoveryPoint × Located) :=
  match createRecoveryPoint fuel name data l.sys with
  | .ok point s1 =>
    some (point,
      { l with sys := s1,
               pointData := lastAddresses s1.recoveryPoints.length (l.pointData ++ [l.next]),
               next := l.next + 1 })
  | _ => none

/-- Method `applyRestoredData(data)` with addresses: when the application object is
installed, its `userData` and `appState` become two new objects, the clones.
`none` when the call throws. -/
def applyRestoredDataAt (data : JSValue) (l : Located) : Option Located :=
  match applyRestoredData data l.sys with
  | .ok _ s1 =>
    if l.sys.intelligence.isSome then
      some { l with sys := s1, userData := l.next, appState := l.next + 1, next := l.next + 2 }
    else some { l with sys := s1 }
  | _ => none

/-- Method `restoreFromBackup(backupId)` with addresses.  The result is the value
returned and the address of the object returned: `return backup.data` hands out
the object that the backup found by `find` holds, not a copy of it.  `none` when
the call does not return. -/
def restoreFromBackupAt (fuel : Nat) (backupId : String) (l : Located) :
    Option ((JSValue × Nat) × Located) :=
  match (l.sys.backups.zip l.backupData).find? (fun entry => entry.1.id == backupId) with
  | none => none
  | some (backup, address) =>
    if backup.status != "valid" then none
    else
      let current := getCurrentData l.sys
      match createRecoveryPointAt fuel "preRestore" current.1 { l with sys := current.2 } with
      | none => none
      | some (_, l1) =>
        match applyRestoredDataAt backup.data l1 with
        | none => none
        | some l2 => some ((backup.data, address), l2)

/-- An assignment made through a reference to the object at `address`, which turns
its value `v` into `change v`: every place that holds that object shows the new
value. -/
def assignAt (address : Nat) (change : JSValue → JSValue) (l : Located) : Located :=
  { l with
    sys :=
      { l.sys with
        backups := List.zipWith
          (fun (b : Backup) a => if a = address then { b with data := change b.data } else b)
          l.sys.backups l.backupData,
        recoveryPoints := List.zipWith
          (fun (r : RecoveryPoint) a =>
            if a = address then { r with data := change r.data } else r)
          l.sys.recoveryPoints l.pointData,
        intelligence := l.sys.intelligence.map (fun i =>
          { userData := if l.userData = address then change i.userData else i.userData,
            appState := if l.appState = address then change i.appState else i.appState }) } }

/-- A system with one valid backup holding `sampleData`, whose data object is at
address 0; the live `userData` and `appState` are at addresses 1 and 2. -/
def locatedSys : Located :=
  { sys := oneBackupSys sampleData, backupData := [0], pointData := [],
    userData := 1, appState := 2, next := 3 }

/-- A system, a second before the clock reading 100000000, whose only backup was
taken then, has status `valid` and holds `noScoreData`, with one valid recovery
point and a store that accepts every write. -/
def recentNoScoreSys : Sys :=
  { lateSys with
    backups := [{ id := "backup-1-0", type := "auto", timestamp := 99999000,
                  data := noScoreData, status := "valid" }],
    recoveryPoints := [samplePoint 0] }

/-- The system `onePointSys data` with a live `userData` whose `streak` is 3 and a
live `appState` whose view is `quiz`. -/
def livePointSys (data : JSValue) : Sys :=
  { onePointSys data with
    intelligence := some { userData := .obj [("streak", .num 3)],
                           appState := .obj [("currentView", .str "quiz")] } }

/-- A system, a second before the clock reading 100000000, whose only backup was
taken then, has status `valid` and holds the array `[1]` as its data, with one
valid recovery point and a store that accepts every write. -/
def recentArraySys : Sys :=
  { lateSys with
    backups := [{ id := "backup-1-0", type := "auto", timestamp := 99999000,
                  data := .arr [.num 1], status := "valid" }],
    recoveryPoints := [samplePoint 0] }

/-! # Theorems -/

/-! ## Lists: eviction and slicing -/

theorem evictOldest_eq_drop {α : Type} (max : Nat) (l : List α) :
    evictOldest max l = l.drop (l.length - max) := by
  induction l with
  | nil => simp [evictOldest]
  | cons x xs ih =>
    unfold evictOldest
    split
    · next h =>
      rw [ih]
      have h1 : (x :: xs).length - max = (xs.length - max) + 1 := by
        simp only [List.length_cons] at h ⊢
        omega
      rw [h1, List.drop_succ_cons]
    · next h =>
      have h1 : (x :: xs).length - max = 0 := by omega
      rw [h1, List.drop_zero]

theorem evictOldest_length_le {α : Type} (max : Nat) (l : List α) :
    (evictOldest max l).length ≤ max := by
  rw [evictOldest_eq_drop, List.length_drop]
  omega

theorem sliceLast_eq_drop {α : Type} (k : Nat) (l : List α) :
    ∃ j, sliceLast k l = l.drop j ∧ (l ≠ [] → j < l.length) := by
  unfold sliceLast
  split
  · exact ⟨0, by simp, fun h => List.length_pos.2 h⟩
  · next hk =>
    refine ⟨_, rfl, fun h => ?_⟩
    have := List.length_pos.2 h
    omega

/-! ## Saving -/

theorem saveBackups_accepted (fuel : Nat) (s : Sys)
    (h : s.writeResult s.writes = WriteResult.ok) :
    saveBackups (fuel + 1) s =
      some { s with writes := s.writes + 1,
                    storedBackups := some (s.backups.map Backup.toJSON) } := by
  simp [saveBackups, h]

theorem saveRecoveryPoints_accepted (fuel : Nat) (s : Sys)
    (h : s.writeResult s.writes = WriteResult.ok) :
    saveRecoveryPoints (fuel + 1) s =
      some { s with writes := s.writes + 1,
                    storedRecoveryPoints :=
                      some (s.recoveryPoints.map RecoveryPoint.toJSON) } := by
  simp [saveRecoveryPoints, h]

/-- What a completed `saveBackups` leaves: the in-memory list is a suffix of the
old one, the persisted list is either untouched or the image of the in-memory
list, and nothing but the write counter changes otherwise. -/
theorem saveBackups_spec (fuel : Nat) : ∀ (s s' : Sys), saveBackups fuel s = some s' →
    s'.maxBackups = s.maxBackups ∧ s'.maxRecoveryPoints = s.maxRecoveryPoints ∧
    s'.recoveryPoints = s.recoveryPoints ∧ s'.intelligence = s.intelligence ∧
    s'.restoredEvents = s.restoredEvents ∧
    s'.storedRecoveryPoints = s.storedRecoveryPoints ∧
    (∃ j, s'.backups = s.backups.drop j ∧ (s.backups ≠ [] → j < s.backups.length)) ∧
    (s'.storedBackups = s.storedBackups ∨
      s'.storedBackups = some (s'.backups.map Backup.toJSON)) := by
  induction fuel with
  | zero => intro s s' h; simp [saveBackups] at h
  | succ n ih =>
    intro s s' h
    unfold saveBackups at h
    split at h
    · cases h
      exact ⟨rfl, rfl, rfl, rfl, rfl, rfl,
        ⟨0, by simp, fun hne => List.length_pos.2 hne⟩, Or.inr rfl⟩
    · obtain ⟨h1, h2, h3, h4, h5, h6, ⟨j, h7, h7b⟩, h8⟩ := ih _ _ h
      obtain ⟨i, hi, hib⟩ := sliceLast_eq_drop (s.maxBackups / 2) s.backups
      refine ⟨h1, h2, h3, h4, h5, h6, ⟨i + j, ?_, ?_⟩, h8⟩
      · rw [h7]
        simp only [hi, List.drop_drop]
      · intro hne
        have hi1 := hib hne
        have hne1 : sliceLast (s.maxBackups / 2) s.backups ≠ [] := by
          rw [hi]
          intro h0
          have := congrArg List.length h0
          rw [List.length_drop, List.length_nil] at this
          omega
        have hj := h7b hne1
        simp only [hi, List.length_drop] at hj
        omega
    · cases h
      exact ⟨rfl, rfl, rfl, rfl, rfl, rfl,
        ⟨0, by simp, fun hne => List.length_pos.2 hne⟩, Or.inl rfl⟩

/-- The recovery-point counterpart of `saveBackups_spec`. -/
theorem saveRecoveryPoints_spec (fuel : Nat) :
    ∀ (s s' : Sys), saveRecoveryPoints fuel s = some s' →
    s'.maxBackups = s.maxBackups ∧ s'.maxRecoveryPoints = s.maxRecoveryPoints ∧
    s'.backups = s.backups ∧ s'.intelligence = s.intelligence ∧
    s'.restoredEvents = s.restoredEvents ∧
    s'.storedBackups = s.storedBackups ∧
    (∃ j, s'.recoveryPoints = s.recoveryPoints.drop j ∧ (s.recoveryPoints ≠ [] → j < s.recoveryPoints.length)) ∧
    (s'.storedRecoveryPoints = s.storedRecoveryPoints ∨
      s'.storedRecoveryPoints = some (s'.recoveryPoints.map RecoveryPoint.toJSON)) := by
  induction fuel with
  | zero => intro s s' h; simp [saveRecoveryPoints] at h
  | succ n ih =>
    intro s s' h
    unfold saveRecoveryPoints at h
    split at h
    · cases h
      exact ⟨rfl, rfl, rfl, rfl, rfl, rfl,
        ⟨0, by simp, fun hne => List.length_pos.2 hne⟩, Or.inr rfl⟩
    · obtain ⟨h1, h2, h3, h4, h5, h6, ⟨j, h7, h7b⟩, h8⟩ := ih _ _ h
      obtain ⟨i, hi, hib⟩ := sliceLast_eq_drop (s.maxRecoveryPoints / 2) s.recoveryPoints
      refine ⟨h1, h2, h3, h4, h5, h6, ⟨i + j, ?_, ?_⟩, h8⟩
      · rw [h7]
        simp only [hi, List.drop_drop]
      · intro hne
        have hi1 := hib hne
        have hne1 : sliceLast (s.maxRecoveryPoints / 2) s.recoveryPoints ≠ [] := by
          rw [hi]
          intro h0
          have := congrArg List.length h0
          rw [List.length_drop, List.length_nil] at this
          omega
        have hj := h7b hne1
        simp only [hi, List.length_drop] at hj
        omega
    · cases h
      exact ⟨rfl, rfl, rfl, rfl, rfl, rfl,
        ⟨0, by simp, fun hne => List.length_pos.2 hne⟩, Or.inl rfl⟩

/-! ## Creating a backup -/

/-- Every completed `createBackup` returns the backup built from the clone of the
data and leaves a suffix of the old list followed by that backup. -/
theorem createBackup_ok (fuel : Nat) (type : String) (data : JSValue) (s s' : Sys)
    (b : Backup) (h : createBackup fuel type data s = .ok b s') :
    ∃ copy, jsonClone data = some copy ∧ b = newBackup type copy s ∧
      s'.maxBackups = s.maxBackups ∧ s'.backups.length ≤ s.maxBackups ∧
      (∃ j, s'.backups = (s.backups ++ [b]).drop j) ∧
      s'.recoveryPoints = s.recoveryPoints ∧ s'.intelligence = s.intelligence ∧
      (s'.storedBackups = s.storedBackups ∨
        s'.storedBackups = some (s'.backups.map Backup.toJSON)) ∧
      (1 ≤ s.maxBackups → ∃ j, j ≤ s.backups.length ∧
        s'.backups = s.backups.drop j ++ [b]) := by
  simp only [createBackup] at h
  split at h
  · cases h
  · next copy hc =>
    split at h
    · cases h
    · next saved hs =>
      cases h
      obtain ⟨h1, _, h3, h4, _, _, ⟨j, h7, h7b⟩, h8⟩ := saveBackups_spec _ _ _ hs
      have hp : ({ (readClock (generateId "backup" s).2).2 with
          backups := evictOldest (readClock (generateId "backup" s).2).2.maxBackups
            ((readClock (generateId "backup" s).2).2.backups ++
              [newBackup type copy s]) } : Sys).backups
          = (s.backups ++ [newBackup type copy s]).drop
              ((s.backups ++ [newBackup type copy s]).length - s.maxBackups) := by
        simp only [readClock, generateId, drawRandom, newBackup, evictOldest_eq_drop]
      rw [newBackup] at hp
      rw [hp] at h7 h7b
      rw [List.drop_drop] at h7
      refine ⟨copy, hc, rfl, h1, ?_, ⟨_, h7⟩, h3, h4, h8, ?_⟩
      · rw [h7, List.length_drop]
        simp only [List.length_append, List.length_singleton]
        omega
      · intro hmax
        have hne : List.drop ((s.backups ++ [newBackup type copy s]).length - s.maxBackups)
            (s.backups ++ [newBackup type copy s]) ≠ [] := by
          intro h0
          have := congrArg List.length h0
          simp only [List.length_drop, List.length_append, List.length_singleton,
            List.length_nil] at this
          omega
        have hj := h7b hne
        simp only [List.length_drop, List.length_append, List.length_singleton] at hj
        refine ⟨(s.backups ++ [newBackup type copy s]).length - s.maxBackups + j, ?_, ?_⟩
        · simp only [List.length_append, List.length_singleton]
          omega
        · rw [h7]
          exact List.drop_append_of_le_length (by
            simp only [List.length_append, List.length_singleton]
            omega)

theorem jsonClone_eq_some (data : JSValue) (h : data ≠ JSValue.undefined) :
    jsonClone data = some (jsonNormalize data) := by
  cases data <;> simp_all [jsonClone]

/-- With clonable data and a store that accepts the write, `createBackup` returns
after one write, having persisted the list it leaves in memory. -/
theorem createBackup_accepted (fuel : Nat) (type : String) (data copy : JSValue)
    (s : Sys) (hc : jsonClone data = some copy)
    (hw : s.writeResult s.writes = WriteResult.ok) :
    createBackup (fuel + 1) type data s =
      .ok (newBackup type copy s)
        { (readClock (generateId "backup" s).2).2 with
          backups := evictOldest s.maxBackups (s.backups ++ [newBackup type copy s]),
          writes := s.writes + 1,
          storedBackups :=
            some ((evictOldest s.maxBackups
              (s.backups ++ [newBackup type copy s])).map Backup.toJSON) } := by
  simp only [createBackup, hc]
  rw [saveBackups_accepted]
  · rfl
  · exact hw

/-- Claim C1, as the code has it.  Whenever `createBackup(type, data)` returns, the
in-memory backup list has length at most `maxBackups`, and the list persisted
under `phoenixBackups` is either left as it was (no write of the call was
accepted) or has length at most `maxBackups`.  When the data can be cloned and
the store accepts the write, the call does return and both lists are within the
bound. -/
theorem createBackup_length_bounded :
    (∀ (fuel : Nat) (type : String) (data : JSValue) (s s' : Sys) (b : Backup),
      createBackup fuel type data s = .ok b s' →
        s'.maxBackups = s.maxBackups ∧ s'.backups.length ≤ s.maxBackups ∧
        (s'.storedBackups = s.storedBackups ∨
          ∃ l, s'.storedBackups = some l ∧ l.length ≤ s.maxBackups)) ∧
    (∀ (fuel : Nat) (type : String) (data : JSValue) (s : Sys),
      data ≠ JSValue.undefined → s.writeResult s.writes = WriteResult.ok →
        ∃ b s', createBackup (fuel + 1) type data s = .ok b s' ∧
          s'.maxBackups = s.maxBackups ∧ s'.backups.length ≤ s.maxBackups ∧
          ∃ l, s'.storedBackups = some l ∧ l.length ≤ s.maxBackups) := by
  constructor
  · intro fuel type data s s' b h
    obtain ⟨copy, _, _, h1, h2, _, _, _, h3, _⟩ := createBackup_ok fuel type data s s' b h
    refine ⟨h1, h2, ?_⟩
    rcases h3 with h3 | h3
    · exact Or.inl h3
    · exact Or.inr ⟨_, h3, by rw [List.length_map]; exact h2⟩
  · intro fuel type data s hd hw
    refine ⟨_, _, createBackup_accepted fuel type data _ s (jsonClone_eq_some data hd) hw,
      rfl, ?_, _, rfl, ?_⟩
    · exact evictOldest_length_le _ _
    · rw [List.length_map]
      exact evictOldest_length_le _ _

/-- Witness for C1: a first backup on a fresh system with an accepting store. -/
theorem createBackup_length_bounded_witness :
    sampleData ≠ JSValue.undefined ∧
    (freshSys WriteResult.ok).writeResult (freshSys WriteResult.ok).writes = WriteResult.ok ∧
    ∃ b s', createBackup 1 "manual" sampleData (freshSys WriteResult.ok) = .ok b s' ∧
      s'.maxBackups = (freshSys WriteResult.ok).maxBackups ∧
      s'.backups.length ≤ (freshSys WriteResult.ok).maxBackups ∧
      ∃ l, s'.storedBackups = some l ∧ l.length ≤ (freshSys WriteResult.ok).maxBackups :=
  ⟨by decide, rfl,
    createBackup_length_bounded.2 0 "manual" sampleData (freshSys WriteResult.ok)
      (by decide) rfl⟩

/-- Counterexample to C1 as stated: twelve backups were loaded from the store and
the store refuses the write; `createBackup` returns with ten backups in memory
while the list persisted under `phoenixBackups` still has twelve entries, above
`maxBackups = 10`. -/
theorem createBackup_persisted_overlong :
    ∃ b s', createBackup 1 "auto" sampleData overlongSys = .ok b s' ∧
      s'.maxBackups = 10 ∧ s'.backups.length = 10 ∧
      s'.storedBackups.map List.length = some 12 :=
  ⟨_, _, rfl, rfl, rfl, rfl⟩

/-! ## The JSON round trip on representable values -/

mutual
theorem jsonNormalize_of_isJson : ∀ (v : JSValue), isJson v = true → jsonNormalize v = v
  | .undefined, h => by simp [isJson] at h
  | .null, _ => by simp [jsonNormalize]
  | .bool _, _ => by simp [jsonNormalize]
  | .num _, _ => by simp [jsonNormalize]
  | .str _, _ => by simp [jsonNormalize]
  | .arr items, h => by
    have := normalizeItems_of_isJson items (by simpa [isJson] using h)
    simp [jsonNormalize, this]
  | .obj props, h => by
    have := normalizeProps_of_isJson props (by simpa [isJson] using h)
    simp [jsonNormalize, this]
theorem normalizeItems_of_isJson :
    ∀ (l : List JSValue), isJsonItems l = true → normalizeItems l = l
  | [], _ => by simp [normalizeItems]
  | v :: rest, h => by
    have hv : isJson v = true := by
      simp only [isJsonItems, Bool.and_eq_true] at h
      exact h.1
    have hr : isJsonItems rest = true := by
      simp only [isJsonItems, Bool.and_eq_true] at h
      exact h.2
    have h1 := jsonNormalize_of_isJson v hv
    have h2 := normalizeItems_of_isJson rest hr
    cases v <;> simp_all [normalizeItems, isJson]
theorem normalizeProps_of_isJson :
    ∀ (l : List (String × JSValue)), isJsonProps l = true → normalizeProps l = l
  | [], _ => by simp [normalizeProps]
  | (k, v) :: rest, h => by
    have hv : isJson v = true := by
      simp only [isJsonProps, Bool.and_eq_true] at h
      exact h.1
    have hr : isJsonProps rest = true := by
      simp only [isJsonProps, Bool.and_eq_true] at h
      exact h.2
    have h1 := jsonNormalize_of_isJson v hv
    have h2 := normalizeProps_of_isJson rest hr
    cases v <;> simp_all [normalizeProps, isJson]
end

/-- On a JSON-representable value the deep clone is the value itself. -/
theorem jsonClone_of_isJson (v : JSValue) (h : isJson v = true) : jsonClone v = some v := by
  have hn := jsonNormalize_of_isJson v h
  cases v <;> simp_all [jsonClone, isJson]

/-- Claim C2, for JSON-representable data.  With `maxBackups ≥ 1` and a store that
accepts the write, `createBackup(type, data)` returns a snapshot with status
`valid`, the given type and the given data, and leaves the list equal to the old
list without its first `length + 1 - maxBackups` entries, followed by that
snapshot: eviction is by position, the survivors keep their order, and the length
is the smaller of `length + 1` and `maxBackups`. -/
theorem createBackup_appends_evicting_oldest (fuel : Nat) (type : String)
    (data : JSValue) (s : Sys) (hmax : 1 ≤ s.maxBackups)
    (hw : s.writeResult s.writes = WriteResult.ok) (hj : isJson data = true) :
    ∃ b s', createBackup (fuel + 1) type data s = .ok b s' ∧
      s'.backups = s.backups.drop (s.backups.length + 1 - s.maxBackups) ++ [b] ∧
      s'.backups.length = min (s.backups.length + 1) s.maxBackups ∧
      b.status = "valid" ∧ b.type = type ∧ b.data = data := by
  refine ⟨_, _, createBackup_accepted fuel type data data s (jsonClone_of_isJson data hj) hw,
    ?_, ?_, rfl, rfl, rfl⟩
  · show evictOldest s.maxBackups (s.backups ++ [newBackup type data s]) = _
    rw [evictOldest_eq_drop, List.length_append, List.length_singleton,
      List.drop_append_of_le_length (by omega)]
  · show (evictOldest s.maxBackups (s.backups ++ [newBackup type data s])).length = _
    rw [evictOldest_eq_drop, List.length_drop, List.length_append, List.length_singleton]
    omega

/-- Witness for C2: an eleventh backup on a full list evicts the entry at index 0. -/
theorem createBackup_appends_evicting_oldest_witness :
    1 ≤ ({ freshSys WriteResult.ok with backups := (List.range 10).map sampleBackup }
          : Sys).maxBackups ∧
    isJson sampleData = true ∧
    ∃ b s', createBackup 1 "manual" sampleData
        { freshSys WriteResult.ok with backups := (List.range 10).map sampleBackup }
          = .ok b s' ∧
      s'.backups = ((List.range 10).map sampleBackup).drop
        (((List.range 10).map sampleBackup).length + 1 - 10) ++ [b] ∧
      s'.backups.length = min (((List.range 10).map sampleBackup).length + 1) 10 ∧
      b.status = "valid" ∧ b.type = "manual" ∧ b.data = sampleData :=
  ⟨by decide, by decide,
    createBackup_appends_evicting_oldest 0 "manual" sampleData
      { freshSys WriteResult.ok with backups := (List.range 10).map sampleBackup }
      (by decide) rfl (by decide)⟩

/-- Counterexample to C2 as stated (any data): with `undefined` as data the deep
clone throws, no snapshot is returned and the list is left as it was; with an
array that holds `undefined` the data of the snapshot holds `null` in its place
and is not the given data. -/
theorem createBackup_data_not_representable :
    (∃ s', createBackup 1 "manual" JSValue.undefined (freshSys WriteResult.ok)
        = .throw JSError.syntaxError s' ∧ s'.backups = []) ∧
    (∃ b s', createBackup 1 "manual" (.obj [("achievements", .arr [JSValue.undefined])])
        (freshSys WriteResult.ok) = .ok b s' ∧
      b.data = .obj [("achievements", .arr [JSValue.null])] ∧
      b.data ≠ .obj [("achievements", .arr [JSValue.undefined])]) :=
  ⟨⟨_, rfl, rfl⟩, ⟨_, _, rfl, rfl, by decide⟩⟩

/-! ## Creating a recovery point, capturing and applying data -/

/-- Every completed `createRecoveryPoint` returns the point built from the clone of
the data and leaves a suffix of the old list followed by that point; the backup
list and the application state are untouched. -/
theorem createRecoveryPoint_ok (fuel : Nat) (name : String) (data : JSValue)
    (s s' : Sys) (r : RecoveryPoint)
    (h : createRecoveryPoint fuel name data s = .ok r s') :
    ∃ copy, jsonClone data = some copy ∧ r = newRecoveryPoint name copy s ∧
      s'.maxRecoveryPoints = s.maxRecoveryPoints ∧
      s'.recoveryPoints.length ≤ s.maxRecoveryPoints ∧
      (∃ j, s'.recoveryPoints = (s.recoveryPoints ++ [r]).drop j) ∧
      s'.backups = s.backups ∧ s'.intelligence = s.intelligence ∧
      s'.restoredEvents = s.restoredEvents ∧ s'.storedBackups = s.storedBackups ∧
      s'.maxBackups = s.maxBackups ∧
      (1 ≤ s.maxRecoveryPoints → ∃ j, j ≤ s.recoveryPoints.length ∧
        s'.recoveryPoints = s.recoveryPoints.drop j ++ [r]) := by
  simp only [createRecoveryPoint] at h
  split at h
  · cases h
  · next copy hc =>
    split at h
    · cases h
    · next saved hs =>
      cases h
      obtain ⟨h1, h2, h3, h4, h5, h6, ⟨j, h7, h7b⟩, _⟩ := saveRecoveryPoints_spec _ _ _ hs
      have hp : ({ (readClock (generateId "recovery" s).2).2 with
          recoveryPoints :=
            evictOldest (readClock (generateId "recovery" s).2).2.maxRecoveryPoints
              ((readClock (generateId "recovery" s).2).2.recoveryPoints ++
                [newRecoveryPoint name copy s]) } : Sys).recoveryPoints
          = (s.recoveryPoints ++ [newRecoveryPoint name copy s]).drop
              ((s.recoveryPoints ++ [newRecoveryPoint name copy s]).length
                - s.maxRecoveryPoints) := by
        simp only [readClock, generateId, drawRandom, newRecoveryPoint,
          evictOldest_eq_drop]
      rw [newRecoveryPoint] at hp
      rw [hp] at h7 h7b
      rw [List.drop_drop] at h7
      refine ⟨copy, hc, rfl, h2, ?_, ⟨_, h7⟩, h3, h4, h5, h6, h1, ?_⟩
      · rw [h7, List.length_drop]
        simp only [List.length_append, List.length_singleton]
        omega
      · intro hmax
        have hne : List.drop ((s.recoveryPoints ++ [newRecoveryPoint name copy s]).length
              - s.maxRecoveryPoints)
            (s.recoveryPoints ++ [newRecoveryPoint name copy s]) ≠ [] := by
          intro h0
          have := congrArg List.length h0
          simp only [List.length_drop, List.length_append, List.length_singleton,
            List.length_nil] at this
          omega
        have hj := h7b hne
        simp only [List.length_drop, List.length_append, List.length_singleton] at hj
        refine ⟨(s.recoveryPoints ++ [newRecoveryPoint name copy s]).length
          - s.maxRecoveryPoints + j, ?_, ?_⟩
        · simp only [List.length_append, List.length_singleton]
          omega
        · rw [h7]
          exact List.drop_append_of_le_length (by
            simp only [List.length_append, List.length_singleton]
            omega)

/-- With clonable data and a store that accepts the write, `createRecoveryPoint`
returns after one write. -/
theorem createRecoveryPoint_accepted (fuel : Nat) (name : String) (data copy : JSValue)
    (s : Sys) (hc : jsonClone data = some copy)
    (hw : s.writeResult s.writes = WriteResult.ok) :
    createRecoveryPoint (fuel + 1) name data s =
      .ok (newRecoveryPoint name copy s)
        { (readClock (generateId "recovery" s).2).2 with
          recoveryPoints := evictOldest s.maxRecoveryPoints
            (s.recoveryPoints ++ [newRecoveryPoint name copy s]),
          writes := s.writes + 1,
          storedRecoveryPoints :=
            some ((evictOldest s.maxRecoveryPoints
              (s.recoveryPoints ++ [newRecoveryPoint name copy s])).map
                RecoveryPoint.toJSON) } := by
  simp only [createRecoveryPoint, hc]
  rw [saveRecoveryPoints_accepted]
  · rfl
  · exact hw

/-- Capturing the current data only advances the clock. -/
theorem getCurrentData_frame (s : Sys) :
    (getCurrentData s).2.backups = s.backups ∧
    (getCurrentData s).2.recoveryPoints = s.recoveryPoints ∧
    (getCurrentData s).2.maxBackups = s.maxBackups ∧
    (getCurrentData s).2.maxRecoveryPoints = s.maxRecoveryPoints ∧
    (getCurrentData s).2.intelligence = s.intelligence ∧
    (getCurrentData s).2.restoredEvents = s.restoredEvents ∧
    (getCurrentData s).2.storedBackups = s.storedBackups ∧
    (getCurrentData s).2.storedRecoveryPoints = s.storedRecoveryPoints ∧
    (getCurrentData s).2.writeResult = s.writeResult ∧
    (getCurrentData s).2.writes = s.writes := by
  simp only [getCurrentData]
  split <;> exact ⟨rfl, rfl, rfl, rfl, rfl, rfl, rfl, rfl, rfl, rfl⟩

theorem getCurrentData_clonable (s : Sys) :
    jsonClone (getCurrentData s).1 = some (jsonNormalize (getCurrentData s).1) := by
  simp only [getCurrentData]
  split <;> rfl

/-- Applying data never runs out of depth, and changes neither list. -/
theorem applyRestoredData_ok (data : JSValue) (s s' : Sys) (u : Unit)
    (h : applyRestoredData data s = .ok u s') :
    s'.backups = s.backups ∧ s'.recoveryPoints = s.recoveryPoints ∧
    s'.storedBackups = s.storedBackups ∧
    s'.storedRecoveryPoints = s.storedRecoveryPoints ∧
    s'.maxBackups = s.maxBackups ∧ s'.maxRecoveryPoints = s.maxRecoveryPoints ∧
    s'.restoredEvents = s.restoredEvents ++ [data] ∧
    (s.intelligence = none → s'.intelligence = none) ∧
    (s.intelligence ≠ none →
      ∃ user app, data.getProp? "userData" = some user ∧
        jsonClone user = some (jsonNormalize user) ∧
        jsonClone (data.get "appState") = some app ∧
        s'.intelligence = some { userData := jsonNormalize user, appState := app }) := by
  unfold applyRestoredData at h
  split at h
  · next hi =>
    cases h
    exact ⟨rfl, rfl, rfl, rfl, rfl, rfl, rfl, fun _ => hi, fun hne => absurd hi hne⟩
  · next i hi =>
    split at h
    · cases h
    · next user hu =>
      split at h
      · cases h
      · next userCopy hc =>
        simp only at h
        split at h
        · cases h
        · next appCopy ha =>
          cases h
          refine ⟨rfl, rfl, rfl, rfl, rfl, rfl, rfl, ?_, ?_⟩
          · intro hn; rw [hn] at hi; cases hi
          · intro _
            have hcu : userCopy = jsonNormalize user := by
              cases user <;> simp_all [jsonClone]
            exact ⟨user, appCopy, hu, by rw [hc, hcu], ha, by rw [hcu]⟩

theorem applyRestoredData_ne_diverge (data : JSValue) (s : Sys) :
    applyRestoredData data s ≠ .diverge := by
  unfold applyRestoredData
  split
  · simp
  · split
    · simp
    · split
      · simp
      · simp only
        split <;> simp

/-! ## Restoring from a backup -/

theorem find?_setBackupStatus (backupId status : String) (l : List Backup) :
    (setBackupStatus backupId status l).find? (fun b => b.id == backupId) =
      (l.find? (fun b => b.id == backupId)).map (fun b => { b with status := status }) := by
  induction l with
  | nil => rfl
  | cons b rest ih =>
    unfold setBackupStatus
    by_cases h : (b.id == backupId) = true
    · simp [h, List.find?_cons]
    · simp only [h]
      simp [List.find?_cons, h, ih]

/-- A completed `restoreFromBackup` found a valid backup, created a recovery point
named `preRestore` from the current data, applied the backup's data and returned
it. -/
theorem restoreFromBackup_ok (fuel : Nat) (backupId : String) (s s' : Sys) (d : JSValue)
    (h : restoreFromBackup fuel backupId s = .ok d s') :
    ∃ b r s1, s.backups.find? (fun b => b.id == backupId) = some b ∧
      b.status = "valid" ∧ d = b.data ∧
      createRecoveryPoint fuel "preRestore" (getCurrentData s).1 (getCurrentData s).2
        = .ok r s1 ∧
      applyRestoredData b.data s1 = .ok () s' := by
  unfold restoreFromBackup at h
  split at h
  · cases h
  · next b hb =>
    split at h
    · cases h
    · next hv =>
      simp only at h
      split at h
      · cases h
      · cases h
      · next r s1 hr =>
        split at h
        · cases h
        · cases h
        · next u s2 ha =>
          cases h
          exact ⟨b, r, s1, hb, by simpa using hv, rfl, hr, ha⟩

/-- Data that `applyRestoredData` can apply in state `s`: either no application
object is installed, or the data holds both `userData` and `appState`. -/
theorem applyRestoredData_total (data : JSValue) (s : Sys)
    (h : s.intelligence = none ∨
      (data.get "userData" ≠ JSValue.undefined ∧ data.get "appState" ≠ JSValue.undefined)) :
    ∃ s', applyRestoredData data s = .ok () s' := by
  unfold applyRestoredData
  split
  · exact ⟨_, rfl⟩
  · next i hi =>
    rcases h with h | ⟨hu, ha⟩
    · rw [h] at hi; cases hi
    · have hg : data.getProp? "userData" = some (data.get "userData") := by
        cases data <;> simp_all [JSValue.getProp?, JSValue.get]
      rw [hg]
      simp only [jsonClone_eq_some _ hu, jsonClone_eq_some _ ha]
      exact ⟨_, rfl⟩

/-- A lookup failure of `restoreFromBackup` throws before anything is done. -/
theorem restoreFromBackup_lookup_failure (fuel : Nat) (backupId : String) (s : Sys)
    (h : s.backups.find? (fun b => b.id == backupId) = none ∨
      ∃ b, s.backups.find? (fun b => b.id == backupId) = some b ∧ b.status ≠ "valid") :
    ∃ e, restoreFromBackup fuel backupId s = .throw e s := by
  unfold restoreFromBackup
  rcases h with h | ⟨b, hb, hv⟩
  · rw [h]
    exact ⟨_, rfl⟩
  · rw [hb]
    simp only [bne_iff_ne, ne_eq, hv, not_false_eq_true, ↓reduceIte]
    exact ⟨_, rfl⟩

/-- For a valid backup whose data can be applied, `restoreFromBackup` does not
throw, and returns the backup's data when the store accepts the write. -/
theorem restoreFromBackup_valid (fuel : Nat) (backupId : String) (s : Sys) (b : Backup)
    (hb : s.backups.find? (fun b => b.id == backupId) = some b)
    (hv : b.status = "valid")
    (hd : s.intelligence = none ∨
      (b.data.get "userData" ≠ JSValue.undefined ∧
        b.data.get "appState" ≠ JSValue.undefined)) :
    (∀ e s', restoreFromBackup fuel backupId s ≠ .throw e s') ∧
    (s.writeResult s.writes = WriteResult.ok →
      ∃ s', restoreFromBackup (fuel + 1) backupId s = .ok b.data s') := by
  constructor
  · intro e s' h
    unfold restoreFromBackup at h
    rw [hb] at h
    simp only [hv, bne_self_eq_false, Bool.false_eq_true, ↓reduceIte] at h
    split at h
    · cases h
    · next e1 s1 hr =>
      simp only [createRecoveryPoint, getCurrentData_clonable] at hr
      split at hr <;> cases hr
    · next r s1 hr =>
      obtain ⟨_, _, _, _, _, _, _, hi, _, _, _, _⟩ := createRecoveryPoint_ok _ _ _ _ _ _ hr
      have hd1 : s1.intelligence = none ∨
          (b.data.get "userData" ≠ JSValue.undefined ∧
            b.data.get "appState" ≠ JSValue.undefined) := by
        rw [hi, (getCurrentData_frame s).2.2.2.2.1]
        exact hd
      obtain ⟨s2, h2⟩ := applyRestoredData_total b.data s1 hd1
      rw [h2] at h
      cases h
  · intro hw
    have hw1 : (getCurrentData s).2.writeResult (getCurrentData s).2.writes
        = WriteResult.ok := by
      rw [(getCurrentData_frame s).2.2.2.2.2.2.2.2.1, (getCurrentData_frame s).2.2.2.2.2.2.2.2.2]
      exact hw
    obtain ⟨r, s1, hr⟩ : ∃ r s1, createRecoveryPoint (fuel + 1) "preRestore"
        (getCurrentData s).1 (getCurrentData s).2 = .ok r s1 :=
      ⟨_, _, createRecoveryPoint_accepted fuel "preRestore" _ _ _
        (getCurrentData_clonable s) hw1⟩
    obtain ⟨_, _, _, _, _, _, _, hi, _, _, _, _⟩ := createRecoveryPoint_ok _ _ _ _ _ _ hr
    have hd1 : s1.intelligence = none ∨
        (b.data.get "userData" ≠ JSValue.undefined ∧
          b.data.get "appState" ≠ JSValue.undefined) := by
      rw [hi, (getCurrentData_frame s).2.2.2.2.1]
      exact hd
    obtain ⟨s2, h2⟩ := applyRestoredData_total b.data s1 hd1
    unfold restoreFromBackup
    rw [hb]
    simp only [hv, bne_self_eq_false, Bool.false_eq_true, ↓reduceIte, hr, h2]
    exact ⟨s2, rfl⟩

/-- Unless the store answers `QuotaExceededError`, `saveBackups` returns after one
write and leaves the in-memory list as it is. -/
theorem saveBackups_not_quota (fuel : Nat) (s : Sys)
    (h : s.writeResult s.writes ≠ WriteResult.quotaExceeded) :
    ∃ s', saveBackups (fuel + 1) s = some s' ∧ s'.backups = s.backups := by
  unfold saveBackups
  split
  · exact ⟨_, rfl, rfl⟩
  · next hq => exact absurd hq h
  · exact ⟨_, rfl, rfl⟩

theorem normalizeProps_cons_of_ne (k : String) (v : JSValue)
    (rest : List (String × JSValue)) (h : v ≠ JSValue.undefined) :
    normalizeProps ((k, v) :: rest) = (k, jsonNormalize v) :: normalizeProps rest := by
  cases v <;> simp_all [normalizeProps]

theorem truthy_ne_undefined (v : JSValue) (h : v.truthy = true) : v ≠ JSValue.undefined := by
  intro hv
  rw [hv] at h
  simp [JSValue.truthy] at h

/-- When the application object holds truthy `userData` and `appState`, the clone
of the captured current data holds their clones. -/
theorem getCurrentData_live (s : Sys) (i : Intelligence) (hi : s.intelligence = some i)
    (hu : i.userData.truthy = true) (ha : i.appState.truthy = true) :
    (jsonNormalize (getCurrentData s).1).get "userData" = jsonNormalize i.userData ∧
    (jsonNormalize (getCurrentData s).1).get "appState" = jsonNormalize i.appState := by
  simp only [getCurrentData, hi, hu, ha, ↓reduceIte, jsonNormalize]
  rw [normalizeProps_cons_of_ne _ _ _ (truthy_ne_undefined _ hu),
    normalizeProps_cons_of_ne _ _ _ (truthy_ne_undefined _ ha)]
  constructor
  · simp [JSValue.get, List.lookup]
  · have h1 : ("appState" == "userData") = false := by decide
    simp [JSValue.get, List.lookup, h1]

/-- Claim C4, as the code has it.  A successful `restoreFromBackup(id)` leaves the
backup list unchanged and first creates a recovery point named `preRestore`: with
`maxRecoveryPoints ≥ 1` the recovery-point list afterwards is a suffix of the old
list followed by exactly one new entry, whose name is `preRestore`, whose status
is `valid` and whose data is the clone of the current data captured before the
restore (the application's `userData` and `appState` when it holds them). -/
theorem restoreFromBackup_creates_recovery_point (fuel : Nat) (backupId : String)
    (s s' : Sys) (d : JSValue) (h : restoreFromBackup fuel backupId s = .ok d s') :
    s'.backups = s.backups ∧
    ∃ r : RecoveryPoint, r.name = "preRestore" ∧ r.status = "valid" ∧
      r.data = jsonNormalize (getCurrentData s).1 ∧
      (∀ i, s.intelligence = some i → i.userData.truthy = true →
        i.appState.truthy = true →
        r.data.get "userData" = jsonNormalize i.userData ∧
        r.data.get "appState" = jsonNormalize i.appState) ∧
      (∃ j, s'.recoveryPoints = (s.recoveryPoints ++ [r]).drop j) ∧
      (1 ≤ s.maxRecoveryPoints → ∃ j, j ≤ s.recoveryPoints.length ∧
        s'.recoveryPoints = s.recoveryPoints.drop j ++ [r]) := by
  obtain ⟨b, r, s1, _, _, _, hr, ha⟩ := restoreFromBackup_ok fuel backupId s s' d h
  obtain ⟨copy, hc, hrdef, hm, _, hsuf, hb, _, _, _, _, hlast⟩ :=
    createRecoveryPoint_ok _ _ _ _ _ _ hr
  obtain ⟨hab, har, _⟩ := applyRestoredData_ok _ _ _ _ ha
  have hf := getCurrentData_frame s
  have hcopy : copy = jsonNormalize (getCurrentData s).1 := by
    rw [getCurrentData_clonable] at hc
    exact (Option.some.inj hc).symm
  have hdata : r.data = jsonNormalize (getCurrentData s).1 := by
    rw [hrdef, ← hcopy]
    rfl
  refine ⟨by rw [hab, hb, hf.1], r, by rw [hrdef]; rfl, by rw [hrdef]; rfl, hdata, ?_, ?_, ?_⟩
  · intro i hi hu hap
    rw [hdata]
    exact getCurrentData_live s i hi hu hap
  · rw [har, ← hf.2.1]
    exact hsuf
  · intro hmax
    rw [har, ← hf.2.1]
    exact hlast (by rw [hf.2.2.2.1]; exact hmax)

/-- Witness for C4: restoring the only backup of a fresh system. -/
theorem restoreFromBackup_creates_recovery_point_witness :
    ∃ s', restoreFromBackup 1 "backup-1-0" (oneBackupSys sampleData)
        = .ok sampleData s' ∧
      s'.backups = (oneBackupSys sampleData).backups ∧
      ∃ r : RecoveryPoint, r.name = "preRestore" ∧ r.status = "valid" ∧
        r.data = jsonNormalize (getCurrentData (oneBackupSys sampleData)).1 ∧
        (∀ i, (oneBackupSys sampleData).intelligence = some i →
          i.userData.truthy = true → i.appState.truthy = true →
          r.data.get "userData" = jsonNormalize i.userData ∧
          r.data.get "appState" = jsonNormalize i.appState) ∧
        (∃ j, s'.recoveryPoints
          = ((oneBackupSys sampleData).recoveryPoints ++ [r]).drop j) ∧
        (1 ≤ (oneBackupSys sampleData).maxRecoveryPoints →
          ∃ j, j ≤ (oneBackupSys sampleData).recoveryPoints.length ∧
            s'.recoveryPoints = (oneBackupSys sampleData).recoveryPoints.drop j ++ [r]) :=
  ⟨_, rfl, restoreFromBackup_creates_recovery_point 1 "backup-1-0"
    (oneBackupSys sampleData) _ sampleData rfl⟩

/-- Counterexample to C4 as stated: after a successful `restoreFromBackup` the backup
list is the old one, with no new entry and no entry of type `preRestore`; the
pre-restore snapshot is in the recovery-point list. -/
theorem restoreFromBackup_adds_no_backup :
    ∃ s', restoreFromBackup 1 "backup-1-0" (oneBackupSys sampleData)
        = .ok sampleData s' ∧
      s'.backups = [manualBackup sampleData] ∧
      (oneBackupSys sampleData).backups = [manualBackup sampleData] ∧
      s'.backups.filter (fun b => b.type == "preRestore") = [] ∧
      s'.recoveryPoints.map (fun r => r.name) = ["preRestore"] :=
  ⟨_, rfl, rfl, rfl, by decide, rfl⟩

/-! ## The latest backup -/

/-- The reduce of `getLatestBackup`, with the part of the list already visited split
around the current accumulator: nothing before it is later, everything between
it and the current position is strictly earlier. -/
theorem foldl_laterBackup_split : ∀ (rest pre mid : List Backup) (acc : Backup),
    (∀ c ∈ pre, c.timestamp ≤ acc.timestamp) →
    (∀ c ∈ mid, c.timestamp < acc.timestamp) →
    ∃ pre1 post1, pre ++ acc :: (mid ++ rest) = pre1 ++ rest.foldl laterBackup acc :: post1 ∧
      (∀ c ∈ pre1, c.timestamp ≤ (rest.foldl laterBackup acc).timestamp) ∧
      (∀ c ∈ post1, c.timestamp < (rest.foldl laterBackup acc).timestamp)
  | [], pre, mid, acc, hpre, hmid => ⟨pre, mid, by simp, hpre, hmid⟩
  | cur :: rest, pre, mid, acc, hpre, hmid => by
    rw [List.foldl_cons]
    by_cases hgt : acc.timestamp > cur.timestamp
    · have hstep : laterBackup acc cur = acc := by simp [laterBackup, hgt]
      rw [hstep]
      obtain ⟨pre1, post1, h1, h2, h3⟩ := foldl_laterBackup_split rest pre (mid ++ [cur]) acc
        hpre (by
          intro c hc
          rcases List.mem_append.1 hc with hc | hc
          · exact hmid c hc
          · rw [List.mem_singleton.1 hc]; exact hgt)
      exact ⟨pre1, post1, by rw [← h1]; simp, h2, h3⟩
    · have hstep : laterBackup acc cur = cur := by simp [laterBackup, hgt]
      rw [hstep]
      obtain ⟨pre1, post1, h1, h2, h3⟩ :=
        foldl_laterBackup_split rest (pre ++ acc :: mid) [] cur
          (by
            intro c hc
            rcases List.mem_append.1 hc with hc | hc
            · have := hpre c hc; omega
            · rcases List.mem_cons.1 hc with hc | hc
              · rw [hc]; omega
              · have := hmid c hc; omega)
          (by simp)
      exact ⟨pre1, post1, by rw [← h1]; simp, h2, h3⟩

theorem backupMatches_iff (type : Option String) (b : Backup) :
    backupMatches type b = true ↔
      (b.status = "valid" ∧ ∀ t, type = some t → t ≠ "" → b.type = t) := by
  unfold backupMatches argFalsy
  cases type with
  | none => simp
  | some t =>
    by_cases ht : t = ""
    · simp [ht]
    · simp only [Bool.and_eq_true, beq_iff_eq, Bool.or_eq_true, ht, false_or,
        Option.some.injEq, ne_eq]
      constructor
      · rintro ⟨h1, h2⟩
        exact ⟨h1, fun t1 h3 _ => by rw [← h3]; exact h2⟩
      · rintro ⟨h1, h2⟩
        exact ⟨h1, h2 t rfl ht⟩

/-- Claim C6.  `getLatestBackup(type)` returns `null` exactly when no backup has status
`valid` and, when a type is given (a non-empty string: the code tests `!type`),
that type; otherwise it returns such a backup `b`, placed in the list so that no
such backup before it has a later timestamp and every such backup after it has a
strictly earlier one: `b` has the maximal timestamp and is the last one in list
order that has it. -/
theorem getLatestBackup_spec (type : Option String) (s : Sys) :
    (getLatestBackup type s = none ↔
      ∀ b ∈ s.backups,
        ¬ (b.status = "valid" ∧ ∀ t, type = some t → t ≠ "" → b.type = t)) ∧
    (∀ b, getLatestBackup type s = some b →
      (b.status = "valid" ∧ ∀ t, type = some t → t ≠ "" → b.type = t) ∧
      ∃ pre post, s.backups = pre ++ b :: post ∧
        (∀ c ∈ pre, (c.status = "valid" ∧ ∀ t, type = some t → t ≠ "" → c.type = t) →
          c.timestamp ≤ b.timestamp) ∧
        (∀ c ∈ post, (c.status = "valid" ∧ ∀ t, type = some t → t ≠ "" → c.type = t) →
          c.timestamp < b.timestamp)) := by
  unfold getLatestBackup
  constructor
  · cases hf : s.backups.filter (backupMatches type) with
    | nil =>
      simp only [true_iff]
      intro b hb hm
      exact (List.filter_eq_nil_iff.1 hf) b hb ((backupMatches_iff type b).2 hm)
    | cons first rest =>
      simp only [false_iff, reduceCtorEq]
      intro h
      have hmem : first ∈ s.backups.filter (backupMatches type) := by
        rw [hf]; exact List.mem_cons_self _ _
      rw [List.mem_filter] at hmem
      exact h first hmem.1 ((backupMatches_iff type first).1 hmem.2)
  · intro b hb
    cases hf : s.backups.filter (backupMatches type) with
    | nil => rw [hf] at hb; cases hb
    | cons first rest =>
      rw [hf] at hb
      have hb1 : rest.foldl laterBackup first = b := Option.some.inj hb
      obtain ⟨pre1, post1, h1, h2, h3⟩ :=
        foldl_laterBackup_split rest [] [] first (by simp) (by simp)
      rw [hb1] at h1 h2 h3
      simp only [List.nil_append] at h1
      rw [← hf] at h1
      obtain ⟨l1, l2, hl, hl1, hl2⟩ := List.filter_eq_append_iff.1 h1
      obtain ⟨m1, m2, hm, hm1, hm2, hm3⟩ := List.filter_eq_cons_iff.1 hl2
      refine ⟨(backupMatches_iff type b).1 hm2, l1 ++ m1, m2, ?_, ?_, ?_⟩
      · rw [hl, hm]; simp
      · intro c hc hcm
        rcases List.mem_append.1 hc with hc | hc
        · exact h2 c (by
            rw [← hl1, List.mem_filter]
            exact ⟨hc, (backupMatches_iff type c).2 hcm⟩)
        · exact absurd ((backupMatches_iff type c).2 hcm) (hm1 c hc)
      · intro c hc hcm
        exact h3 c (by
          rw [← hm3, List.mem_filter]
          exact ⟨hc, (backupMatches_iff type c).2 hcm⟩)

/-- Witness for C6: of two backups with the same, maximal timestamp the later one in
list order is returned. -/
theorem getLatestBackup_spec_witness :
    getLatestBackup none tieSys = some (stampedBackup "b" 5) ∧
    ((stampedBackup "b" 5).status = "valid" ∧
      ∀ t, (none : Option String) = some t → t ≠ "" → (stampedBackup "b" 5).type = t) ∧
    ∃ pre post, tieSys.backups = pre ++ stampedBackup "b" 5 :: post ∧
      (∀ c ∈ pre, (c.status = "valid" ∧
          ∀ t, (none : Option String) = some t → t ≠ "" → c.type = t) →
        c.timestamp ≤ (stampedBackup "b" 5).timestamp) ∧
      (∀ c ∈ post, (c.status = "valid" ∧
          ∀ t, (none : Option String) = some t → t ≠ "" → c.type = t) →
        c.timestamp < (stampedBackup "b" 5).timestamp) :=
  ⟨by decide, (getLatestBackup_spec none tieSys).2 (stampedBackup "b" 5) (by decide)⟩

/-! ## Round trip -/

theorem isJson_lookup : ∀ (props : List (String × JSValue)) (k : String) (v : JSValue),
    isJsonProps props = true → props.lookup k = some v → isJson v = true
  | [], _, _, _, h => by simp at h
  | (k1, v1) :: rest, k, v, hj, h => by
    simp only [isJsonProps, Bool.and_eq_true] at hj
    rw [List.lookup_cons] at h
    split at h
    · cases h; exact hj.1
    · exact isJson_lookup rest k v hj.2 h

theorem isJson_get (v : JSValue) (k : String) (hj : isJson v = true)
    (h : v.get k ≠ JSValue.undefined) : isJson (v.get k) = true := by
  cases v with
  | obj props =>
    simp only [JSValue.get] at h ⊢
    cases hl : props.lookup k with
    | none => rw [hl] at h; simp at h
    | some x =>
      simp only [Option.getD_some]
      exact isJson_lookup props k x (by simpa [isJson] using hj) hl
  | arrWith items props => simp [isJson] at hj
  | _ => simp [JSValue.get] at h

theorem foldl_laterBackup_mem (rest : List Backup) (first : Backup) :
    rest.foldl laterBackup first ∈ first :: rest := by
  obtain ⟨pre1, post1, h1, _, _⟩ :=
    foldl_laterBackup_split rest [] [] first (by simp) (by simp)
  simp only [List.nil_append] at h1
  rw [h1]
  simp

/-- A backup appended to a list in which nothing is later than it is the result of
the reduce. -/
theorem foldl_laterBackup_concat (l : List Backup) (first b : Backup)
    (h : ∀ c ∈ first :: l, c.timestamp ≤ b.timestamp) :
    (l ++ [b]).foldl laterBackup first = b := by
  rw [List.foldl_concat]
  have hle := h _ (foldl_laterBackup_mem l first)
  generalize l.foldl laterBackup first = acc at hle
  unfold laterBackup
  rw [if_neg (by omega)]

/-- The newest backup is the latest of its type when nothing in the list is later. -/
theorem getLatestBackup_concat (type : String) (l : List Backup) (b : Backup) (s : Sys)
    (hs : s.backups = l ++ [b]) (hv : b.status = "valid") (ht : b.type = type)
    (h : ∀ c ∈ l, c.timestamp ≤ b.timestamp) :
    getLatestBackup (some type) s = some b := by
  have hm : backupMatches (some type) b = true := by
    rw [backupMatches_iff]
    exact ⟨hv, fun t h1 _ => by rw [ht]; exact Option.some.inj h1⟩
  unfold getLatestBackup
  rw [hs, List.filter_append]
  have hb : List.filter (backupMatches (some type)) [b] = [b] := by
    simp [List.filter, hm]
  rw [hb]
  cases hf : l.filter (backupMatches (some type)) with
  | nil => simp
  | cons first rest =>
    simp only [List.cons_append]
    rw [foldl_laterBackup_concat]
    intro c hc
    exact h c (List.mem_of_mem_filter (by rw [hf]; exact hc))

/-- Looking up the id of the newest backup finds it when no older entry has its id. -/
theorem find?_concat_fresh (l : List Backup) (b : Backup)
    (h : ∀ c ∈ l, c.id ≠ b.id) :
    (l ++ [b]).find? (fun c => c.id == b.id) = some b := by
  rw [List.find?_append]
  have h1 : l.find? (fun c => c.id == b.id) = none := by
    rw [List.find?_eq_none]
    intro c hc
    simpa using h c hc
  rw [h1]
  simp

theorem getProp?_of_get_ne (data : JSValue) (k : String)
    (h : data.get k ≠ JSValue.undefined) : data.getProp? k = some (data.get k) := by
  cases data <;> simp_all [JSValue.getProp?, JSValue.get]

/-- Claim C5, with the hypotheses the code needs.  Let `data` be JSON-representable
and hold `userData` and `appState`; let the clock not go backwards (it is monotone
and no stored timestamp lies in the future), the store accept writes,
`maxBackups ≥ 1`, the generated id not be in use in the list, and the application
object be installed.  Then `createBackup('manual', data)` returns a backup `b`,
`getLatestBackup('manual')` is `b`, and `restoreFromBackup(b.id)` returns `data` and
leaves the application's `userData` and `appState` equal to `data.userData` and
`data.appState`. -/
theorem backup_restore_round_trip (fuel : Nat) (data : JSValue) (s : Sys)
    (i : Intelligence) (hj : isJson data = true)
    (hu : data.get "userData" ≠ JSValue.undefined)
    (ha : data.get "appState" ≠ JSValue.undefined)
    (hmono : Monotone s.clock)
    (hpast : ∀ c ∈ s.backups, c.timestamp ≤ s.clock s.clockReads)
    (hw : ∀ n, s.writeResult n = WriteResult.ok)
    (hmax : 1 ≤ s.maxBackups)
    (hfresh : ∀ c ∈ s.backups, c.id ≠ (generateId "backup" s).1)
    (hi : s.intelligence = some i) :
    ∃ b s1 s2, createBackup (fuel + 1) "manual" data s = .ok b s1 ∧
      getLatestBackup (some "manual") s1 = some b ∧
      restoreFromBackup (fuel + 1) b.id s1 = .ok data s2 ∧
      s2.intelligence
        = some { userData := data.get "userData", appState := data.get "appState" } := by
  obtain ⟨b, s1, hcb⟩ : ∃ b s1, createBackup (fuel + 1) "manual" data s = .ok b s1 :=
    ⟨_, _, createBackup_accepted fuel "manual" data data s
      (jsonClone_of_isJson data hj) (hw _)⟩
  obtain ⟨copy, hc, hbdef, _, _, _, _, hint, _, hlast⟩ :=
    createBackup_ok _ _ _ _ _ _ hcb
  obtain ⟨j, _, hs1⟩ := hlast hmax
  have hcopy : copy = data := by
    rw [jsonClone_of_isJson data hj] at hc
    exact (Option.some.inj hc).symm
  have hbdata : b.data = data := by rw [hbdef, hcopy]; rfl
  have hbid : b.id = (generateId "backup" s).1 := by rw [hbdef]; rfl
  have hbts : b.timestamp = s.clock (s.clockReads + 1) := by rw [hbdef]; rfl
  have hlatest : getLatestBackup (some "manual") s1 = some b := by
    refine getLatestBackup_concat "manual" _ b s1 hs1 (by rw [hbdef]; rfl)
      (by rw [hbdef]; rfl) ?_
    intro c hc1
    have h1 := hpast c (List.mem_of_mem_drop hc1)
    have h2 : s.clock s.clockReads ≤ s.clock (s.clockReads + 1) :=
      hmono (Nat.le_succ _)
    rw [hbts]
    omega
  have hfind : s1.backups.find? (fun c => c.id == b.id) = some b := by
    rw [hs1]
    exact find?_concat_fresh _ b (fun c hc1 => by
      rw [hbid]; exact hfresh c (List.mem_of_mem_drop hc1))
  have hw1 : s1.writeResult s1.writes = WriteResult.ok := by
    have hwr : s1.writeResult = s.writeResult := by
      have h0 := createBackup_accepted fuel "manual" data data s
        (jsonClone_of_isJson data hj) (hw _)
      rw [h0] at hcb
      injection hcb with _ hs
      rw [← hs]
      rfl
    rw [hwr]
    exact hw _
  obtain ⟨s2, hres⟩ := (restoreFromBackup_valid fuel b.id s1 b hfind (by rw [hbdef]; rfl)
    (Or.inr (by rw [hbdata]; exact ⟨hu, ha⟩))).2 hw1
  rw [hbdata] at hres
  refine ⟨b, s1, s2, hcb, hlatest, hres, ?_⟩
  obtain ⟨b1, r, s3, hb1, _, hd1, hr, happ⟩ := restoreFromBackup_ok _ _ _ _ _ hres
  have hb1b : b1 = b := by
    rw [hfind] at hb1
    exact (Option.some.inj hb1).symm
  rw [hb1b, hbdata] at happ
  obtain ⟨_, _, _, _, _, _, _, hint3, _⟩ := createRecoveryPoint_ok _ _ _ _ _ _ hr
  have hne : s3.intelligence ≠ none := by
    rw [hint3, (getCurrentData_frame s1).2.2.2.2.1, hint, hi]
    simp
  obtain ⟨_, _, _, _, _, _, _, _, hset⟩ := applyRestoredData_ok _ _ _ _ happ
  obtain ⟨user, app, hg, _, hca, hfin⟩ := hset hne
  rw [getProp?_of_get_ne data "userData" hu] at hg
  have huser : user = data.get "userData" := (Option.some.inj hg).symm
  rw [jsonClone_of_isJson _ (isJson_get data "appState" hj ha)] at hca
  have happv : app = data.get "appState" := (Option.some.inj hca).symm
  rw [hfin, huser, happv, jsonNormalize_of_isJson _ (isJson_get data "userData" hj hu)]

/-- Witness for C5: the round trip on a fresh system. -/
theorem backup_restore_round_trip_witness :
    isJson sampleData = true ∧ Monotone (freshSys WriteResult.ok).clock ∧
    1 ≤ (freshSys WriteResult.ok).maxBackups ∧
    ∃ b s1 s2, createBackup 1 "manual" sampleData (freshSys WriteResult.ok) = .ok b s1 ∧
      getLatestBackup (some "manual") s1 = some b ∧
      restoreFromBackup 1 b.id s1 = .ok sampleData s2 ∧
      s2.intelligence = some { userData := sampleData.get "userData",
                               appState := sampleData.get "appState" } :=
  ⟨by decide, monotone_const, by decide,
    backup_restore_round_trip 0 sampleData (freshSys WriteResult.ok)
      { userData := .obj [], appState := .obj [] } (by decide) (by decide) (by decide)
      monotone_const (fun c hc => by cases hc) (fun _ => rfl) (by decide)
      (fun c hc => by cases hc) rfl⟩

/-- Counterexample to C5 as stated, in three states with a constant clock, a store
that accepts every write and JSON-representable data holding `userData` and
`appState`.  (1) The generated id is already the id of an older backup:
`restoreFromBackup(b.id)` finds the older one and returns its data.  (2) The
application object is not installed: the restore succeeds and no application
state is set.  (3) `maxBackups` is 0: the backup is evicted at once and
`getLatestBackup('manual')` is `null`. -/
theorem backup_restore_round_trip_fails :
    (∃ b s1 s2, createBackup 1 "manual" sampleData collideSys = .ok b s1 ∧
      getLatestBackup (some "manual") s1 = some b ∧ b.data = sampleData ∧
      restoreFromBackup 1 b.id s1 = .ok otherData s2 ∧ otherData ≠ sampleData) ∧
    (∃ b s1 s2, createBackup 1 "manual" sampleData
        { freshSys WriteResult.ok with intelligence := none } = .ok b s1 ∧
      getLatestBackup (some "manual") s1 = some b ∧
      restoreFromBackup 1 b.id s1 = .ok sampleData s2 ∧ s2.intelligence = none) ∧
    (∃ b s1, createBackup 1 "manual" sampleData
        { freshSys WriteResult.ok with maxBackups := 0 } = .ok b s1 ∧
      getLatestBackup (some "manual") s1 = none) :=
  ⟨⟨_, _, _, rfl, by decide, rfl, rfl, by decide⟩,
   ⟨_, _, _, rfl, by decide, rfl, rfl⟩,
   ⟨_, _, rfl, rfl⟩⟩

/-! ## Validation -/

/-- The structural check passes exactly when the data holds a truthy `appState` and
a truthy `userData` in which the three fields are present. -/
theorem structurallyValid_iff (data : JSValue) :
    structurallyValid data = true ↔
      ((data.get "appState").truthy = true ∧ (data.get "userData").truthy = true ∧
        (data.get "userData").get "confidenceScore" ≠ JSValue.undefined ∧
        (data.get "userData").get "challengesCompleted" ≠ JSValue.undefined ∧
        (data.get "userData").get "streak" ≠ JSValue.undefined) := by
  unfold structurallyValid
  have hd : (data.get "userData").truthy = true → data.truthy = true := by
    cases data <;> simp [JSValue.get, JSValue.truthy]
  by_cases h1 : data.truthy = true
  · by_cases h2 : (data.get "userData").truthy = true
    · by_cases h3 : (data.get "appState").truthy = true
      · simp [h1, h2, h3, and_assoc]
      · simp [h1, h2, h3]
    · simp [h1, h2]
  · have h2 : ¬ (data.get "userData").truthy = true := fun h => h1 (hd h)
    simp [h1, h2]

theorem find?_map_toJSON (backupId : String) (l : List Backup) :
    (l.map Backup.toJSON).find? (fun b => b.id == backupId) =
      (l.find? (fun b => b.id == backupId)).map Backup.toJSON := by
  rw [List.find?_map]
  rfl

/-- For an existing backup that fails the structural check, on a store whose answer
is not `QuotaExceededError`, `validateBackup` returns false after one write, with the
status of the backup found set to `invalid`; an accepted write persists the list. -/
theorem validateBackup_marks_invalid (fuel : Nat) (backupId : String) (s : Sys)
    (b : Backup) (hb : s.backups.find? (fun b => b.id == backupId) = some b)
    (hsv : structurallyValid b.data = false)
    (hq : s.writeResult s.writes ≠ WriteResult.quotaExceeded) :
    ∃ s', validateBackup (fuel + 1) backupId s = .ok false s' ∧
      s'.backups = setBackupStatus backupId "invalid" s.backups ∧
      s'.recoveryPoints = s.recoveryPoints ∧
      (s.writeResult s.writes = WriteResult.ok →
        s'.storedBackups = some (s'.backups.map Backup.toJSON)) := by
  unfold validateBackup
  rw [hb]
  simp only [hsv, Bool.false_eq_true, ↓reduceIte]
  cases hw : s.writeResult s.writes with
  | quotaExceeded => exact absurd hw hq
  | otherError =>
    have hsave : saveBackups (fuel + 1)
        { s with backups := setBackupStatus backupId "invalid" s.backups }
        = some { s with backups := setBackupStatus backupId "invalid" s.backups,
                        writes := s.writes + 1 } := by
      simp [saveBackups, hw]
    simp only [hsave]
    exact ⟨_, rfl, rfl, rfl, fun h => by cases h⟩
  | ok =>
    have hsave := saveBackups_accepted fuel
      { s with backups := setBackupStatus backupId "invalid" s.backups } hw
    simp only [hsave]
    exact ⟨_, rfl, rfl, rfl, fun _ => rfl⟩

/-- A false result of `validateBackup` for an existing backup comes out of
`saveBackups`, run on the list in which the backup found is marked `invalid`. -/
theorem validateBackup_false_inv (fuel : Nat) (backupId : String) (s s' : Sys)
    (b : Backup) (hb : s.backups.find? (fun b => b.id == backupId) = some b)
    (h : validateBackup fuel backupId s = .ok false s') :
    saveBackups fuel { s with backups := setBackupStatus backupId "invalid" s.backups }
      = some s' := by
  unfold validateBackup at h
  rw [hb] at h
  simp only at h
  split at h
  · cases h
  · split at h
    · cases h
    · next saved hs =>
      cases h
      exact hs

/-- Claim C7, as the code has it.  `validateBackup(id)` returns true exactly when a
backup with that id exists and the data of the one found (the first with that
id) holds a truthy `appState` and a truthy `userData` whose `confidenceScore`,
`challengesCompleted` and `streak` are all present; the types of the three are not
checked, and a true result changes nothing.  Whenever it returns false for an
existing backup, the in-memory list is the old list with the status of that
backup set to `invalid`, or a tail of it; when the store accepts the write, the
backup is in the list with status `invalid` and the persisted list shows it as
`invalid` too.  For an existing backup that fails the check, on a store whose
answer is not `QuotaExceededError`, the call does return false. -/
theorem validateBackup_spec (fuel : Nat) (backupId : String) (s : Sys) :
    ((∃ s', validateBackup fuel backupId s = .ok true s') ↔
      ∃ b, s.backups.find? (fun b => b.id == backupId) = some b ∧
        (b.data.get "appState").truthy = true ∧ (b.data.get "userData").truthy = true ∧
        (b.data.get "userData").get "confidenceScore" ≠ JSValue.undefined ∧
        (b.data.get "userData").get "challengesCompleted" ≠ JSValue.undefined ∧
        (b.data.get "userData").get "streak" ≠ JSValue.undefined) ∧
    (∀ s', validateBackup fuel backupId s = .ok true s' → s' = s) ∧
    (∀ b s', s.backups.find? (fun b => b.id == backupId) = some b →
      validateBackup fuel backupId s = .ok false s' →
      (∃ j, s'.backups = (setBackupStatus backupId "invalid" s.backups).drop j) ∧
      (s.writeResult s.writes = WriteResult.ok →
        s'.backups.find? (fun b => b.id == backupId)
          = some { b with status := "invalid" } ∧
        ∃ l, s'.storedBackups = some l ∧
          (l.find? (fun b => b.id == backupId)).map (fun b => b.status)
            = some "invalid")) ∧
    (∀ b, s.backups.find? (fun b => b.id == backupId) = some b →
      ¬ ((b.data.get "appState").truthy = true ∧ (b.data.get "userData").truthy = true ∧
        (b.data.get "userData").get "confidenceScore" ≠ JSValue.undefined ∧
        (b.data.get "userData").get "challengesCompleted" ≠ JSValue.undefined ∧
        (b.data.get "userData").get "streak" ≠ JSValue.undefined) →
      s.writeResult s.writes ≠ WriteResult.quotaExceeded →
      ∃ s', validateBackup (fuel + 1) backupId s = .ok false s') := by
  refine ⟨⟨?_, ?_⟩, ?_, ?_, ?_⟩
  · rintro ⟨s', h⟩
    unfold validateBackup at h
    split at h
    · cases h
    · next b hb =>
      split at h
      · next hv => exact ⟨b, hb, (structurallyValid_iff b.data).1 hv⟩
      · split at h <;> cases h
  · rintro ⟨b, hb, hv⟩
    unfold validateBackup
    rw [hb]
    simp only [(structurallyValid_iff b.data).2 hv, ↓reduceIte]
    exact ⟨s, rfl⟩
  · intro s' h
    unfold validateBackup at h
    split at h
    · cases h
    · split at h
      · cases h; rfl
      · split at h <;> cases h
  · intro b s' hb h
    have hsave := validateBackup_false_inv fuel backupId s s' b hb h
    have hfind : (setBackupStatus backupId "invalid" s.backups).find?
        (fun b => b.id == backupId) = some { b with status := "invalid" } := by
      rw [find?_setBackupStatus, hb]
      rfl
    constructor
    · obtain ⟨_, _, _, _, _, _, ⟨j, hj, _⟩, _⟩ := saveBackups_spec _ _ _ hsave
      exact ⟨j, hj⟩
    · intro hw
      cases fuel with
      | zero => simp [saveBackups] at hsave
      | succ n =>
        rw [saveBackups_accepted n
          { s with backups := setBackupStatus backupId "invalid" s.backups } hw] at hsave
        cases hsave
        refine ⟨hfind, _, rfl, ?_⟩
        show Option.map (fun b => b.status)
          (((setBackupStatus backupId "invalid" s.backups).map Backup.toJSON).find?
            (fun b => b.id == backupId)) = some "invalid"
        rw [find?_map_toJSON, hfind]
        rfl
  · intro b hb hv hq
    have hsv : structurallyValid b.data = false := by
      cases hsv : structurallyValid b.data with
      | false => rfl
      | true => exact absurd ((structurallyValid_iff b.data).1 hsv) hv
    obtain ⟨s', h1, _⟩ := validateBackup_marks_invalid fuel backupId s b hb hsv hq
    exact ⟨s', h1⟩

/-- Witness for C7: a backup holding the empty object is marked invalid, in memory
and in the store. -/
theorem validateBackup_spec_witness :
    (oneBackupSys (.obj [])).backups.find? (fun b => b.id == "backup-1-0")
      = some (manualBackup (.obj [])) ∧
    (∃ s', validateBackup 1 "backup-1-0" (oneBackupSys (.obj [])) = .ok false s' ∧
      (∃ j, s'.backups
        = (setBackupStatus "backup-1-0" "invalid" (oneBackupSys (.obj [])).backups).drop j) ∧
      ((oneBackupSys (.obj [])).writeResult (oneBackupSys (.obj [])).writes
          = WriteResult.ok →
        s'.backups.find? (fun b => b.id == "backup-1-0")
          = some { manualBackup (.obj []) with status := "invalid" } ∧
        ∃ l, s'.storedBackups = some l ∧
          (l.find? (fun b => b.id == "backup-1-0")).map (fun b => b.status)
            = some "invalid")) ∧
    ∃ s', validateBackup 1 "backup-1-0" (oneBackupSys (.obj [])) = .ok false s' :=
  ⟨by decide,
    ⟨_, rfl, (validateBackup_spec 1 "backup-1-0" (oneBackupSys (.obj []))).2.2.1
      (manualBackup (.obj [])) _ (by decide) rfl⟩,
    (validateBackup_spec 0 "backup-1-0" (oneBackupSys (.obj []))).2.2.2
      (manualBackup (.obj [])) (by decide) (by decide) (by decide)⟩

/-- Counterexample to C7 as stated.  (1) A backup whose `confidenceScore` is the
string `high` passes: `validateBackup` returns true although the field is not
numeric.  (2) With a store that refuses the write, `validateBackup` returns false
for an existing backup and the persisted list still shows it as `valid`. -/
theorem validateBackup_not_numeric_not_persisted :
    (validateBackup 1 "backup-1-0" (oneBackupSys textScoreData)
        = .ok true (oneBackupSys textScoreData) ∧
      ((manualBackup textScoreData).data.get "userData").get "confidenceScore"
        = .str "high") ∧
    (∃ s', validateBackup 1 "backup-1-0" refusingSys = .ok false s' ∧
      s'.backups.map (fun b => b.status) = ["invalid"] ∧
      s'.storedBackups.map (fun l => l.map (fun b => (b.id, b.status)))
        = some [("backup-1-0", "valid")]) :=
  ⟨⟨rfl, rfl⟩, ⟨_, rfl, rfl, rfl⟩⟩

/-! ## Health check -/

theorem setBackupStatus_first (status : String) (b : Backup) (post : List Backup) :
    ∀ (pre : List Backup), (∀ c ∈ pre, c.id ≠ b.id) →
      setBackupStatus b.id status (pre ++ b :: post)
        = pre ++ { b with status := status } :: post
  | [], _ => by simp [setBackupStatus]
  | c :: pre, h => by
    have hc : (c.id == b.id) = false := by
      simpa using h c (List.mem_cons_self _ _)
    have ih := setBackupStatus_first status b post pre
      (fun d hd => h d (List.mem_cons_of_mem _ hd))
    rw [List.cons_append, setBackupStatus]
    simp only [hc, Bool.false_eq_true, ↓reduceIte]
    rw [ih]
    rfl

theorem find?_first (b : Backup) (post : List Backup) (pre : List Backup)
    (h : ∀ c ∈ pre, c.id ≠ b.id) :
    (pre ++ b :: post).find? (fun c => c.id == b.id) = some b := by
  rw [List.find?_append]
  have h1 : pre.find? (fun c => c.id == b.id) = none := by
    rw [List.find?_eq_none]
    intro c hc
    simpa using h c hc
  rw [h1]
  simp

/-- Valid and invalid entries partition a list. -/
theorem valid_add_invalid (l : List Backup) :
    (l.filter (fun b => b.status == "valid")).length +
      (l.filter (fun b => b.status != "valid")).length = l.length := by
  induction l with
  | nil => rfl
  | cons b rest ih =>
    by_cases h : b.status = "valid"
    · simp only [List.filter_cons, h, beq_self_eq_true, bne_self_eq_false, ↓reduceIte,
        Bool.false_eq_true, List.length_cons]
      omega
    · have h1 : (b.status == "valid") = false := by simpa using h
      have h2 : (b.status != "valid") = true := by simpa using h
      simp only [List.filter_cons, h1, h2, ↓reduceIte, Bool.false_eq_true, List.length_cons]
      omega

/-- Claim C8, as the code has it.  Let `b` be a backup of the list whose
`data.userData` lacks `confidenceScore`, let no earlier entry have its id, and let
the store not answer the write with `QuotaExceededError`.  Then `validateBackup(b.id)`
returns false and leaves the list unchanged but for the status of `b`, now
`invalid`; a following `performHealthCheck` counts `b` in `backups.invalid` and not
in `backups.valid`, and `backups.total = backups.valid + backups.invalid` is the
length of the list. -/
theorem validateBackup_missing_score_counted (fuel : Nat) (s : Sys)
    (pre post : List Backup) (b : Backup)
    (hs : s.backups = pre ++ b :: post) (hfirst : ∀ c ∈ pre, c.id ≠ b.id)
    (hlack : (b.data.get "userData").get "confidenceScore" = JSValue.undefined)
    (hq : s.writeResult s.writes ≠ WriteResult.quotaExceeded) :
    ∃ s', validateBackup (fuel + 1) b.id s = .ok false s' ∧
      s'.backups = pre ++ { b with status := "invalid" } :: post ∧
      (performHealthCheck s').1.backups.invalid
        = (pre.filter (fun c => c.status != "valid")).length + 1
          + (post.filter (fun c => c.status != "valid")).length ∧
      (performHealthCheck s').1.backups.valid
        = (pre.filter (fun c => c.status == "valid")).length
          + (post.filter (fun c => c.status == "valid")).length ∧
      (performHealthCheck s').1.backups.total
        = (performHealthCheck s').1.backups.valid
          + (performHealthCheck s').1.backups.invalid ∧
      (performHealthCheck s').1.backups.total = s'.backups.length := by
  have hb : s.backups.find? (fun c => c.id == b.id) = some b := by
    rw [hs]; exact find?_first b post pre hfirst
  have hsv : structurallyValid b.data = false := by
    cases hsv : structurallyValid b.data with
    | false => rfl
    | true => exact absurd hlack ((structurallyValid_iff b.data).1 hsv).2.2.1
  obtain ⟨s', h1, h2, _, _⟩ := validateBackup_marks_invalid fuel b.id s b hb hsv hq
  rw [hs, setBackupStatus_first "invalid" b post pre hfirst] at h2
  refine ⟨s', h1, h2, ?_, ?_, ?_, rfl⟩
  · show (s'.backups.filter (fun c => c.status != "valid")).length = _
    rw [h2, List.filter_append, List.length_append, List.filter_cons]
    have : (("invalid" : String) != "valid") = true := by decide
    simp only [this, ↓reduceIte, List.length_cons]
    omega
  · show (s'.backups.filter (fun c => c.status == "valid")).length = _
    rw [h2, List.filter_append, List.length_append, List.filter_cons]
    have : (("invalid" : String) == "valid") = false := by decide
    simp only [this, Bool.false_eq_true, ↓reduceIte]
  · show s'.backups.length = (s'.backups.filter (fun c => c.status == "valid")).length
      + (s'.backups.filter (fun c => c.status != "valid")).length
    exact (valid_add_invalid s'.backups).symm

/-- Witness for C8: the middle one of three backups lacks `confidenceScore`. -/
theorem validateBackup_missing_score_counted_witness :
    ∃ s', validateBackup 1 "backup-0-9"
        { freshSys WriteResult.ok with
          backups := [sampleBackup 1] ++
            { id := "backup-0-9", type := "auto", timestamp := 0, data := noScoreData,
              status := "valid" } :: [sampleBackup 2] } = .ok false s' ∧
      s'.backups = [sampleBackup 1] ++
        { id := "backup-0-9", type := "auto", timestamp := 0, data := noScoreData,
          status := "invalid" } :: [sampleBackup 2] ∧
      (performHealthCheck s').1.backups.invalid
        = ([sampleBackup 1].filter (fun c => c.status != "valid")).length + 1
          + ([sampleBackup 2].filter (fun c => c.status != "valid")).length ∧
      (performHealthCheck s').1.backups.valid
        = ([sampleBackup 1].filter (fun c => c.status == "valid")).length
          + ([sampleBackup 2].filter (fun c => c.status == "valid")).length ∧
      (performHealthCheck s').1.backups.total
        = (performHealthCheck s').1.backups.valid
          + (performHealthCheck s').1.backups.invalid ∧
      (performHealthCheck s').1.backups.total = s'.backups.length :=
  validateBackup_missing_score_counted 0
    { freshSys WriteResult.ok with
      backups := [sampleBackup 1] ++
        { id := "backup-0-9", type := "auto", timestamp := 0, data := noScoreData,
          status := "valid" } :: [sampleBackup 2] }
    [sampleBackup 1] [sampleBackup 2]
    { id := "backup-0-9", type := "auto", timestamp := 0, data := noScoreData,
      status := "valid" }
    rfl (by decide) (by decide) (by decide)

/-- Counterexample to C8 as stated.  (1) The store is full: the write of
`validateBackup` is answered with `QuotaExceededError`, the list is cut to its last
five entries and the backup just marked is gone, so the health check counts no
invalid backup.  (2) An earlier backup has the same id: `validateBackup` checks
that one, returns true, and the backup lacking `confidenceScore` stays `valid`. -/
theorem validateBackup_missing_score_not_counted :
    (((fullStoreSys.backups.head?).map (fun b => (b.id, (b.data.get "userData").get
        "confidenceScore"))) = some ("backup-0-9", JSValue.undefined) ∧
      ∃ s', validateBackup 2 "backup-0-9" fullStoreSys = .ok false s' ∧
        s'.backups.length = 5 ∧
        s'.backups.find? (fun b => b.id == "backup-0-9") = none ∧
        (performHealthCheck s').1.backups.invalid = 0) ∧
    (((twinSys.backups.getLast?).map (fun b => (b.id, (b.data.get "userData").get
        "confidenceScore"))) = some ("backup-5-5", JSValue.undefined) ∧
      validateBackup 1 "backup-5-5" twinSys = .ok true twinSys ∧
      (performHealthCheck twinSys).1.backups.invalid = 0) :=
  ⟨⟨by decide, _, rfl, rfl, by decide, by decide⟩, ⟨by decide, rfl, by decide⟩⟩

/-- Claim C9 fails on the code: with the store probe failing, three valid backups
and exactly one valid recovery point, `performHealthCheck` reports the storage as
unavailable and the overall status as `warning`; the branch for recovery points
keeps `critical` only and overwrites `degraded`. -/
theorem performHealthCheck_degraded_overwritten :
    (performHealthCheck probeFailSys).1.storageAvailable = false ∧
    (performHealthCheck probeFailSys).1.backups.valid = 3 ∧
    (performHealthCheck probeFailSys).1.recoveryPoints.valid = 1 ∧
    (performHealthCheck probeFailSys).1.overall = Overall.warning := by
  decide

/-- Claim C10.  `performHealthCheck` reports `healthy` exactly when the store probe
succeeds, at least three backups have status `valid` and at least two recovery
points have status `valid`. -/
theorem performHealthCheck_healthy_iff (s : Sys) :
    (performHealthCheck s).1.overall = Overall.healthy ↔
      (s.writeResult s.writes = WriteResult.ok ∧
        3 ≤ (s.backups.filter (fun b => b.status == "valid")).length ∧
        2 ≤ (s.recoveryPoints.filter (fun rp => rp.status == "valid")).length) := by
  simp only [performHealthCheck, combineOverall]
  generalize (s.backups.filter (fun b => b.status == "valid")).length = bv
  generalize (s.recoveryPoints.filter (fun rp => rp.status == "valid")).length = rv
  by_cases hw : s.writeResult s.writes = WriteResult.ok
  · simp only [hw, decide_True, ↓reduceIte, true_and]
    split_ifs <;> simp_all
  · simp only [hw, decide_False, Bool.false_eq_true, ↓reduceIte, false_and, iff_false]
    split_ifs <;> simp_all

/-! ## A full store -/

mutual
theorem isJson_jsonNormalize : ∀ (v : JSValue), v ≠ JSValue.undefined →
    isJson (jsonNormalize v) = true
  | .undefined, h => absurd rfl h
  | .null, _ => by simp [jsonNormalize, isJson]
  | .bool _, _ => by simp [jsonNormalize, isJson]
  | .num _, _ => by simp [jsonNormalize, isJson]
  | .str _, _ => by simp [jsonNormalize, isJson]
  | .arr items, _ => by
    simp only [jsonNormalize, isJson]
    exact isJsonItems_normalizeItems items
  | .obj props, _ => by
    simp only [jsonNormalize, isJson]
    exact isJsonProps_normalizeProps props
  | .arrWith items _, _ => by
    simp only [jsonNormalize, isJson]
    exact isJsonItems_normalizeItems items
theorem isJsonItems_normalizeItems : ∀ (l : List JSValue),
    isJsonItems (normalizeItems l) = true
  | [] => by simp [normalizeItems, isJsonItems]
  | v :: rest => by
    have hr := isJsonItems_normalizeItems rest
    by_cases hv : v = JSValue.undefined
    · subst hv
      simp [normalizeItems, isJsonItems, isJson, hr]
    · have h1 := isJson_jsonNormalize v hv
      have h2 : normalizeItems (v :: rest) = jsonNormalize v :: normalizeItems rest := by
        cases v <;> simp_all [normalizeItems]
      rw [h2]
      simp [isJsonItems, h1, hr]
theorem isJsonProps_normalizeProps : ∀ (l : List (String × JSValue)),
    isJsonProps (normalizeProps l) = true
  | [] => by simp [normalizeProps, isJsonProps]
  | (k, v) :: rest => by
    have hr := isJsonProps_normalizeProps rest
    by_cases hv : v = JSValue.undefined
    · subst hv
      simp [normalizeProps, hr]
    · have h1 := isJson_jsonNormalize v hv
      have h2 : normalizeProps ((k, v) :: rest)
          = (k, jsonNormalize v) :: normalizeProps rest := by
        cases v <;> simp_all [normalizeProps]
      rw [h2]
      simp [isJsonProps, h1, hr]
end

/-- A backup whose data is JSON-representable is stored as it is. -/
theorem toJSON_of_isJson (b : Backup) (h : isJson b.data = true) : b.toJSON = b := by
  unfold Backup.toJSON
  rw [jsonNormalize_of_isJson _ h]

theorem map_toJSON_of_isJson (l : List Backup) (h : ∀ b ∈ l, isJson b.data = true) :
    l.map Backup.toJSON = l := by
  induction l with
  | nil => rfl
  | cons b rest ih =>
    rw [List.map_cons, toJSON_of_isJson b (h b (List.mem_cons_self _ _)),
      ih (fun c hc => h c (List.mem_cons_of_mem _ hc))]

/-- One `QuotaExceededError` followed by an accepted write: `saveBackups` keeps
`sliceLast (maxBackups / 2)` of the list and persists it. -/
theorem saveBackups_quota_then_accepted (fuel : Nat) (s : Sys)
    (hq : s.writeResult s.writes = WriteResult.quotaExceeded)
    (hok : s.writeResult (s.writes + 1) = WriteResult.ok) :
    saveBackups (fuel + 2) s =
      some { s with writes := s.writes + 2,
                    backups := sliceLast (s.maxBackups / 2) s.backups,
                    storedBackups :=
                      some ((sliceLast (s.maxBackups / 2) s.backups).map Backup.toJSON) } := by
  rw [saveBackups]
  simp only [hq]
  rw [saveBackups_accepted]
  exact hok

/-- The last `k ≥ 1` entries of an evicted list are the last `k` entries of the
list, when `k` is at most the limit. -/
theorem sliceLast_evictOldest {α : Type} (k max : Nat) (l : List α) (hk : 1 ≤ k)
    (hkm : k ≤ max) :
    sliceLast k (evictOldest max l) = l.drop (l.length - k) := by
  unfold sliceLast
  rw [if_neg (by omega), evictOldest_eq_drop, List.drop_drop, List.length_drop]
  congr 1
  omega

/-- Claim C13, as the code has it.  When the write of `createBackup` is answered with
`QuotaExceededError` and the retried write is accepted, `createBackup` returns the
new backup after two writes; the in-memory list is `slice(-floor(maxBackups / 2))`
of the list it had built: with `maxBackups ≥ 2` its most recent
`floor(maxBackups / 2)` entries (all of them when there are no more than that),
with `maxBackups = 1` the new backup alone; with `maxBackups ≥ 1` the new backup is
its last entry; and the list persisted under `phoenixBackups` is the JSON form of
that list, equal to it when the data of the older backups is JSON-representable. -/
theorem createBackup_quota_then_accepted (fuel : Nat) (type : String) (data : JSValue)
    (s : Sys) (hd : data ≠ JSValue.undefined)
    (hq : s.writeResult s.writes = WriteResult.quotaExceeded)
    (hok : s.writeResult (s.writes + 1) = WriteResult.ok) :
    ∃ b s', createBackup (fuel + 2) type data s = .ok b s' ∧
      b = newBackup type (jsonNormalize data) s ∧
      s'.writes = s.writes + 2 ∧
      s'.backups = sliceLast (s.maxBackups / 2)
        (evictOldest s.maxBackups (s.backups ++ [b])) ∧
      (2 ≤ s.maxBackups →
        s'.backups = (s.backups ++ [b]).drop
          ((s.backups ++ [b]).length - s.maxBackups / 2)) ∧
      (s.maxBackups = 1 → s'.backups = [b]) ∧
      (1 ≤ s.maxBackups → s'.backups.getLast? = some b) ∧
      s'.storedBackups = some (s'.backups.map Backup.toJSON) ∧
      ((∀ c ∈ s.backups, isJson c.data = true) → s'.storedBackups = some s'.backups) := by
  have hcreate : createBackup (fuel + 2) type data s =
      .ok (newBackup type (jsonNormalize data) s)
        { (readClock (generateId "backup" s).2).2 with
          writes := s.writes + 2,
          backups := sliceLast (s.maxBackups / 2)
            (evictOldest s.maxBackups (s.backups ++ [newBackup type (jsonNormalize data) s])),
          storedBackups := some ((sliceLast (s.maxBackups / 2)
            (evictOldest s.maxBackups
              (s.backups ++ [newBackup type (jsonNormalize data) s]))).map
                Backup.toJSON) } := by
    simp only [createBackup, jsonClone_eq_some data hd]
    rw [saveBackups_quota_then_accepted]
    · rfl
    · exact hq
    · exact hok
  have hlast2 : 2 ≤ s.maxBackups →
      sliceLast (s.maxBackups / 2)
        (evictOldest s.maxBackups (s.backups ++ [newBackup type (jsonNormalize data) s]))
      = (s.backups ++ [newBackup type (jsonNormalize data) s]).drop
          ((s.backups ++ [newBackup type (jsonNormalize data) s]).length
            - s.maxBackups / 2) := by
    intro h2
    exact sliceLast_evictOldest _ _ _ (by omega) (by omega)
  have hone : s.maxBackups = 1 →
      sliceLast (s.maxBackups / 2)
        (evictOldest s.maxBackups (s.backups ++ [newBackup type (jsonNormalize data) s]))
      = [newBackup type (jsonNormalize data) s] := by
    intro h1
    rw [h1]
    simp only [sliceLast, Nat.reduceDiv, ↓reduceIte, evictOldest_eq_drop,
      List.length_append, List.length_singleton, Nat.add_sub_cancel]
    rw [List.drop_append_of_le_length (le_refl _)]
    simp
  refine ⟨_, _, hcreate, rfl, rfl, rfl, hlast2, hone, ?_, rfl, ?_⟩
  · intro hmax
    show (sliceLast (s.maxBackups / 2)
        (evictOldest s.maxBackups
          (s.backups ++ [newBackup type (jsonNormalize data) s]))).getLast? = _
    by_cases h2 : 2 ≤ s.maxBackups
    · rw [hlast2 h2, List.drop_append_of_le_length (by
        simp only [List.length_append, List.length_singleton]
        omega), List.getLast?_append]
      simp
    · rw [hone (by omega)]
      rfl
  · intro hjson
    show some ((sliceLast (s.maxBackups / 2)
        (evictOldest s.maxBackups
          (s.backups ++ [newBackup type (jsonNormalize data) s]))).map Backup.toJSON) = _
    rw [map_toJSON_of_isJson]
    intro c hc
    obtain ⟨j, hj, _⟩ := sliceLast_eq_drop (s.maxBackups / 2)
      (evictOldest s.maxBackups (s.backups ++ [newBackup type (jsonNormalize data) s]))
    rw [hj, evictOldest_eq_drop] at hc
    have hc1 := List.mem_of_mem_drop (List.mem_of_mem_drop hc)
    rcases List.mem_append.1 hc1 with hc2 | hc2
    · exact hjson c hc2
    · rw [List.mem_singleton.1 hc2]
      exact isJson_jsonNormalize data hd

/-- Witness for C13: an eleventh backup on a full list and a full store leaves the
five most recent entries. -/
theorem createBackup_quota_then_accepted_witness :
    sampleData ≠ JSValue.undefined ∧
    fullStoreSys.writeResult fullStoreSys.writes = WriteResult.quotaExceeded ∧
    fullStoreSys.writeResult (fullStoreSys.writes + 1) = WriteResult.ok ∧
    ∃ b s', createBackup 2 "manual" sampleData fullStoreSys = .ok b s' ∧
      b = newBackup "manual" (jsonNormalize sampleData) fullStoreSys ∧
      s'.writes = fullStoreSys.writes + 2 ∧
      s'.backups = sliceLast (fullStoreSys.maxBackups / 2)
        (evictOldest fullStoreSys.maxBackups (fullStoreSys.backups ++ [b])) ∧
      (2 ≤ fullStoreSys.maxBackups →
        s'.backups = (fullStoreSys.backups ++ [b]).drop
          ((fullStoreSys.backups ++ [b]).length - fullStoreSys.maxBackups / 2)) ∧
      (fullStoreSys.maxBackups = 1 → s'.backups = [b]) ∧
      (1 ≤ fullStoreSys.maxBackups → s'.backups.getLast? = some b) ∧
      s'.storedBackups = some (s'.backups.map Backup.toJSON) ∧
      ((∀ c ∈ fullStoreSys.backups, isJson c.data = true) →
        s'.storedBackups = some s'.backups) :=
  ⟨by decide, rfl, rfl,
    createBackup_quota_then_accepted 0 "manual" sampleData fullStoreSys (by decide) rfl rfl⟩

/-- Counterexample to C13 as stated: with two backups in the list and
`maxBackups = 10`, the write is answered with `QuotaExceededError` and the retry is
accepted; `slice(-5)` keeps all three entries, so the list is not cut to half of
its entries. -/
theorem createBackup_quota_keeps_short_list :
    quotaOnceSys.backups.length = 2 ∧ quotaOnceSys.maxBackups = 10 ∧
    ∃ b s', createBackup 2 "manual" sampleData quotaOnceSys = .ok b s' ∧
      s'.writes = 2 ∧ s'.backups = quotaOnceSys.backups ++ [b] ∧
      s'.backups.length = 3 :=
  ⟨rfl, rfl, _, _, rfl, rfl, rfl, rfl⟩

theorem saveBackups_all_quota (fuel : Nat) : ∀ (s : Sys),
    (∀ n, s.writeResult n = WriteResult.quotaExceeded) → saveBackups fuel s = none := by
  induction fuel with
  | zero => intro s _; rfl
  | succ n ih =>
    intro s h
    rw [saveBackups]
    simp only [h]
    exact ih _ h

theorem saveRecoveryPoints_all_quota (fuel : Nat) : ∀ (s : Sys),
    (∀ n, s.writeResult n = WriteResult.quotaExceeded) →
      saveRecoveryPoints fuel s = none := by
  induction fuel with
  | zero => intro s _; rfl
  | succ n ih =>
    intro s h
    rw [saveRecoveryPoints]
    simp only [h]
    exact ih _ h

/-- Claim C14 fails on the code.  On a store that answers every write with
`QuotaExceededError`, `saveBackups` calls itself after every failed write: whatever
depth of recursion is allowed, `createBackup` and `createRecoveryPoint` have not
returned.  On a store that answers the first two writes with `QuotaExceededError`,
`createBackup` returns after three write attempts. -/
theorem createBackup_retries_without_bound :
    (∀ fuel, createBackup fuel "manual" sampleData (freshSys WriteResult.quotaExceeded)
      = Res.diverge) ∧
    (∀ fuel, createRecoveryPoint fuel "userAction" sampleData
      (freshSys WriteResult.quotaExceeded) = Res.diverge) ∧
    (∃ b s', createBackup 3 "manual" sampleData quotaTwiceSys = .ok b s' ∧
      s'.writes = 3) := by
  refine ⟨fun fuel => ?_, fun fuel => ?_, _, _, rfl, rfl⟩
  · simp only [createBackup, jsonClone_eq_some sampleData (by decide)]
    rw [saveBackups_all_quota]
    intro n
    rfl
  · simp only [createRecoveryPoint, jsonClone_eq_some sampleData (by decide)]
    rw [saveRecoveryPoints_all_quota]
    intro n
    rfl

/-! ## Invalidation -/

/-- Claim C17, for a store that accepts the write.  An id that matches no backup
leaves the whole state unchanged.  Otherwise `invalidateBackup(id)` sets the status
of the backup found (the first with that id) to `invalid`: the entries before and
after it, hence the order and the length of the list, the recovery-point list,
the application state, the dispatched events and the stored recovery points are
unchanged, and the list persisted under `phoenixBackups` is the JSON form of the
new list. -/
theorem invalidateBackup_frame (fuel : Nat) (backupId : String) (s : Sys) :
    ((∀ b ∈ s.backups, b.id ≠ backupId) → invalidateBackup fuel backupId s = .ok () s) ∧
    (∀ b, s.backups.find? (fun b => b.id == backupId) = some b →
      s.writeResult s.writes = WriteResult.ok →
      ∃ pre post s', s.backups = pre ++ b :: post ∧ (∀ c ∈ pre, c.id ≠ backupId) ∧
        b.id = backupId ∧
        invalidateBackup (fuel + 1) backupId s = .ok () s' ∧
        s'.backups = pre ++ { b with status := "invalid" } :: post ∧
        s'.recoveryPoints = s.recoveryPoints ∧ s'.intelligence = s.intelligence ∧
        s'.restoredEvents = s.restoredEvents ∧
        s'.storedRecoveryPoints = s.storedRecoveryPoints ∧
        s'.maxBackups = s.maxBackups ∧ s'.maxRecoveryPoints = s.maxRecoveryPoints ∧
        s'.storedBackups = some (s'.backups.map Backup.toJSON)) := by
  constructor
  · intro h
    have hnone : s.backups.find? (fun b => b.id == backupId) = none := by
      rw [List.find?_eq_none]
      intro b hb
      simpa using h b hb
    unfold invalidateBackup
    rw [hnone]
  · intro b hb hw
    obtain ⟨hid, pre, post, hs, hpre⟩ := List.find?_eq_some.1 hb
    have hid1 : b.id = backupId := by simpa using hid
    have hpre1 : ∀ c ∈ pre, c.id ≠ b.id := by
      intro c hc
      rw [hid1]
      simpa using hpre c hc
    have hset : setBackupStatus backupId "invalid" s.backups
        = pre ++ { b with status := "invalid" } :: post := by
      rw [hs, ← hid1]
      exact setBackupStatus_first "invalid" b post pre hpre1
    refine ⟨pre, post,
      { s with backups := setBackupStatus backupId "invalid" s.backups,
               writes := s.writes + 1,
               storedBackups :=
                 some ((setBackupStatus backupId "invalid" s.backups).map Backup.toJSON) },
      hs, by rw [← hid1]; exact hpre1, hid1, ?_, hset, rfl, rfl, rfl, rfl, rfl, rfl, ?_⟩
    · unfold invalidateBackup
      rw [hb]
      simp only
      rw [saveBackups_accepted fuel
        { s with backups := setBackupStatus backupId "invalid" s.backups } hw]
    · show some ((setBackupStatus backupId "invalid" s.backups).map Backup.toJSON) = _
      rw [hset]

/-- Witness for C17: the only backup of a fresh system is invalidated. -/
theorem invalidateBackup_frame_witness :
    (oneBackupSys sampleData).backups.find? (fun b => b.id == "backup-1-0")
      = some (manualBackup sampleData) ∧
    (oneBackupSys sampleData).writeResult (oneBackupSys sampleData).writes
      = WriteResult.ok ∧
    ∃ pre post s', (oneBackupSys sampleData).backups = pre ++ manualBackup sampleData :: post ∧
      (∀ c ∈ pre, c.id ≠ "backup-1-0") ∧ (manualBackup sampleData).id = "backup-1-0" ∧
      invalidateBackup 1 "backup-1-0" (oneBackupSys sampleData) = .ok () s' ∧
      s'.backups = pre ++ { manualBackup sampleData with status := "invalid" } :: post ∧
      s'.recoveryPoints = (oneBackupSys sampleData).recoveryPoints ∧
      s'.intelligence = (oneBackupSys sampleData).intelligence ∧
      s'.restoredEvents = (oneBackupSys sampleData).restoredEvents ∧
      s'.storedRecoveryPoints = (oneBackupSys sampleData).storedRecoveryPoints ∧
      s'.maxBackups = (oneBackupSys sampleData).maxBackups ∧
      s'.maxRecoveryPoints = (oneBackupSys sampleData).maxRecoveryPoints ∧
      s'.storedBackups = some (s'.backups.map Backup.toJSON) :=
  ⟨by decide, rfl,
    (invalidateBackup_frame 0 "backup-1-0" (oneBackupSys sampleData)).2
      (manualBackup sampleData) (by decide) rfl⟩

/-- Counterexample to C17 as stated.  (1) The store is full: the write of
`invalidateBackup` is answered with `QuotaExceededError` and the list of ten
backups is cut to its last five.  (2) The store refuses the write: the backup is
`invalid` in memory and still `valid` in the persisted list. -/
theorem invalidateBackup_changes_length_or_not_persisted :
    (fullStoreSys.backups.length = 10 ∧
      ∃ s', invalidateBackup 2 "backup-0-9" fullStoreSys = .ok () s' ∧
        s'.backups.length = 5) ∧
    (∃ s', invalidateBackup 1 "backup-1-0" refusingSys = .ok () s' ∧
      s'.backups.map (fun b => (b.id, b.status)) = [("backup-1-0", "invalid")] ∧
      s'.storedBackups.map (fun l => l.map (fun b => (b.id, b.status)))
        = some [("backup-1-0", "valid")]) :=
  ⟨⟨rfl, _, rfl, rfl⟩, ⟨_, rfl, rfl, rfl⟩⟩

/-! ## Restoring from a recovery point -/

/-- A completed `createBackup` leaves the dispatched events and the stored recovery
points as they were. -/
theorem createBackup_frame (fuel : Nat) (type : String) (data : JSValue) (s s' : Sys)
    (b : Backup) (h : createBackup fuel type data s = .ok b s') :
    s'.restoredEvents = s.restoredEvents ∧
    s'.storedRecoveryPoints = s.storedRecoveryPoints ∧
    s'.maxRecoveryPoints = s.maxRecoveryPoints := by
  simp only [createBackup] at h
  split at h
  · cases h
  · split at h
    · cases h
    · next saved hs =>
      cases h
      obtain ⟨_, h2, _, _, h5, h6, _⟩ := saveBackups_spec _ _ _ hs
      exact ⟨h5, h6, h2⟩

theorem newBackup_fields (type : String) (copy : JSValue) (s : Sys) :
    (newBackup type copy s).type = type ∧ (newBackup type copy s).status = "valid" ∧
    (newBackup type copy s).data = copy :=
  ⟨rfl, rfl, rfl⟩

/-- A completed `restoreFromRecoveryPoint` found a valid recovery point, created a
backup of type `preRestore` from the current data, applied the point's data and
returned it. -/
theorem restoreFromRecoveryPoint_ok (fuel : Nat) (pointId : String) (s s' : Sys)
    (d : JSValue) (h : restoreFromRecoveryPoint fuel pointId s = .ok d s') :
    ∃ r b s1, s.recoveryPoints.find? (fun rp => rp.id == pointId) = some r ∧
      r.status = "valid" ∧ d = r.data ∧
      createBackup fuel "preRestore" (getCurrentData s).1 (getCurrentData s).2
        = .ok b s1 ∧
      applyRestoredData r.data s1 = .ok () s' := by
  unfold restoreFromRecoveryPoint at h
  split at h
  · cases h
  · next r hr =>
    split at h
    · cases h
    · next hv =>
      simp only at h
      split at h
      · cases h
      · cases h
      · next b s1 hb =>
        split at h
        · cases h
        · cases h
        · next u s2 ha =>
          cases h
          exact ⟨r, b, s1, hr, by simpa using hv, rfl, hb, ha⟩

/-- Claim C16, with the hypotheses the code needs.  A completed
`restoreFromRecoveryPoint(id)` found a valid recovery point, returns its data,
leaves the recovery-point list unchanged, dispatches the data and, when the
application object is installed, sets its `userData` and `appState` to clones of
the point's; the backup list afterwards is a suffix of the old list followed by
exactly one new backup (with `maxBackups ≥ 1`), of type `preRestore`, holding the
clone of the current data captured before the restore: its `userData` and
`appState` are the clones of the live ones of the application object when these
are truthy.  The call completes when the point found is valid, its data holds
`userData` and `appState` (or no application object is installed) and the store
accepts the write. -/
theorem restoreFromRecoveryPoint_spec (fuel : Nat) (pointId : String) (s : Sys) :
    (∀ d s', restoreFromRecoveryPoint fuel pointId s = .ok d s' →
      ∃ (r : RecoveryPoint) (b : Backup),
        s.recoveryPoints.find? (fun rp => rp.id == pointId) = some r ∧
        r.status = "valid" ∧ d = r.data ∧
        s'.recoveryPoints = s.recoveryPoints ∧
        b.type = "preRestore" ∧ b.status = "valid" ∧
        b.data = jsonNormalize (getCurrentData s).1 ∧
        (∀ i, s.intelligence = some i → i.userData.truthy = true →
          i.appState.truthy = true →
          b.data.get "userData" = jsonNormalize i.userData ∧
          b.data.get "appState" = jsonNormalize i.appState) ∧
        (∃ j, s'.backups = (s.backups ++ [b]).drop j) ∧
        (1 ≤ s.maxBackups → ∃ j, j ≤ s.backups.length ∧
          s'.backups = s.backups.drop j ++ [b]) ∧
        s'.restoredEvents = s.restoredEvents ++ [r.data] ∧
        (s.intelligence = none → s'.intelligence = none) ∧
        (s.intelligence ≠ none →
          s'.intelligence = some { userData := jsonNormalize (r.data.get "userData"),
                                   appState := jsonNormalize (r.data.get "appState") })) ∧
    (∀ r, s.recoveryPoints.find? (fun rp => rp.id == pointId) = some r →
      r.status = "valid" →
      (s.intelligence = none ∨
        (r.data.get "userData" ≠ JSValue.undefined ∧
          r.data.get "appState" ≠ JSValue.undefined)) →
      s.writeResult s.writes = WriteResult.ok →
      ∃ s', restoreFromRecoveryPoint (fuel + 1) pointId s = .ok r.data s') := by
  have hf := getCurrentData_frame s
  constructor
  · intro d s' h
    obtain ⟨r, b, s1, hr, hv, hd, hb, ha⟩ := restoreFromRecoveryPoint_ok fuel pointId s s' d h
    obtain ⟨copy, hc, hbdef, _, _, hsuf, hrp, hint, _, hlast⟩ :=
      createBackup_ok _ _ _ _ _ _ hb
    obtain ⟨hab, har, _, _, _, _, hev, hnone, hsome⟩ := applyRestoredData_ok _ _ _ _ ha
    have hcopy : copy = jsonNormalize (getCurrentData s).1 := by
      rw [getCurrentData_clonable] at hc
      exact (Option.some.inj hc).symm
    have hev1 : s1.restoredEvents = s.restoredEvents := by
      rw [(createBackup_frame _ _ _ _ _ _ hb).1]
      exact hf.2.2.2.2.2.1
    have hbt := (newBackup_fields "preRestore" copy (getCurrentData s).2).1
    have hbs := (newBackup_fields "preRestore" copy (getCurrentData s).2).2.1
    have hbd := (newBackup_fields "preRestore" copy (getCurrentData s).2).2.2
    rw [← hbdef] at hbt hbs hbd
    have hrps : s'.recoveryPoints = s.recoveryPoints := by rw [har, hrp, hf.2.1]
    have hevs : s'.restoredEvents = s.restoredEvents ++ [r.data] := by rw [hev, hev1]
    refine ⟨r, b, hr, hv, hd, hrps, hbt, hbs, by rw [hbd, hcopy], ?_, ?_, ?_, hevs, ?_, ?_⟩
    · intro i hi hu ha
      rw [hbd, hcopy]
      exact getCurrentData_live s i hi hu ha
    · rw [hab, ← hf.1]; exact hsuf
    · intro hmax
      rw [hab, ← hf.1]
      exact hlast (by rw [hf.2.2.1]; exact hmax)
    · intro hn
      exact hnone (by rw [hint, hf.2.2.2.2.1]; exact hn)
    · intro hn
      obtain ⟨user, app, hg, _, hca, hfin⟩ := hsome (by rw [hint, hf.2.2.2.2.1]; exact hn)
      have huser : user = r.data.get "userData" := by
        cases hdata : r.data <;> simp_all [JSValue.getProp?, JSValue.get]
      have happ : app = jsonNormalize (r.data.get "appState") := by
        cases hx : r.data.get "appState" <;> simp_all [jsonClone]
      rw [hfin, huser, happ]
  · intro r hr hv hd hw
    have hw1 : (getCurrentData s).2.writeResult (getCurrentData s).2.writes
        = WriteResult.ok := by
      rw [hf.2.2.2.2.2.2.2.2.1, hf.2.2.2.2.2.2.2.2.2]
      exact hw
    obtain ⟨b, s1, hb⟩ : ∃ b s1, createBackup (fuel + 1) "preRestore"
        (getCurrentData s).1 (getCurrentData s).2 = .ok b s1 :=
      ⟨_, _, createBackup_accepted fuel "preRestore" _ _ _
        (getCurrentData_clonable s) hw1⟩
    obtain ⟨_, _, _, _, _, _, _, hi, _⟩ := createBackup_ok _ _ _ _ _ _ hb
    have hd1 : s1.intelligence = none ∨
        (r.data.get "userData" ≠ JSValue.undefined ∧
          r.data.get "appState" ≠ JSValue.undefined) := by
      rw [hi, hf.2.2.2.2.1]
      exact hd
    obtain ⟨s2, h2⟩ := applyRestoredData_total r.data s1 hd1
    unfold restoreFromRecoveryPoint
    rw [hr]
    simp only [hv, bne_self_eq_false, Bool.false_eq_true, ↓reduceIte, hb, h2]
    exact ⟨s2, rfl⟩

/-- Witness for C16: restoring the only recovery point of a system whose live `streak`
is 3 and whose live view is `quiz`.  The call returns the data of the point, and
the `preRestore` backup it leaves holds the live `userData` and `appState`. -/
theorem restoreFromRecoveryPoint_spec_witness :
    ∃ s', restoreFromRecoveryPoint 1 "recovery-1-0" (livePointSys sampleData)
        = .ok sampleData s' ∧
      ∃ (r : RecoveryPoint) (b : Backup),
        (livePointSys sampleData).recoveryPoints.find? (fun rp => rp.id == "recovery-1-0")
          = some r ∧
        r.status = "valid" ∧ sampleData = r.data ∧
        s'.recoveryPoints = (livePointSys sampleData).recoveryPoints ∧
        b.type = "preRestore" ∧ b.status = "valid" ∧
        b.data = jsonNormalize (getCurrentData (livePointSys sampleData)).1 ∧
        (∀ i, (livePointSys sampleData).intelligence = some i → i.userData.truthy = true →
          i.appState.truthy = true →
          b.data.get "userData" = jsonNormalize i.userData ∧
          b.data.get "appState" = jsonNormalize i.appState) ∧
        (∃ j, s'.backups = ((livePointSys sampleData).backups ++ [b]).drop j) ∧
        (1 ≤ (livePointSys sampleData).maxBackups →
          ∃ j, j ≤ (livePointSys sampleData).backups.length ∧
            s'.backups = (livePointSys sampleData).backups.drop j ++ [b]) ∧
        s'.restoredEvents = (livePointSys sampleData).restoredEvents ++ [r.data] ∧
        ((livePointSys sampleData).intelligence = none → s'.intelligence = none) ∧
        ((livePointSys sampleData).intelligence ≠ none →
          s'.intelligence = some { userData := jsonNormalize (r.data.get "userData"),
                                   appState := jsonNormalize (r.data.get "appState") }) :=
  ⟨_, rfl, (restoreFromRecoveryPoint_spec 1 "recovery-1-0" (livePointSys sampleData)).1
    sampleData _ rfl⟩

/-- The run of the witness for C16, read off the state: the backup list afterwards
holds one backup, of type `preRestore`, whose `userData` and `appState` are the
live ones from before the restore, and the live ones afterwards are those of the
recovery point. -/
theorem restoreFromRecoveryPoint_keeps_live_data :
    ∃ s', restoreFromRecoveryPoint 1 "recovery-1-0" (livePointSys sampleData)
        = .ok sampleData s' ∧
      s'.backups.map (fun b => b.type) = ["preRestore"] ∧
      s'.backups.map (fun b => b.data.get "userData") = [.obj [("streak", .num 3)]] ∧
      s'.backups.map (fun b => b.data.get "appState")
        = [.obj [("currentView", .str "quiz")]] ∧
      s'.intelligence = some { userData := sampleData.get "userData",
                               appState := sampleData.get "appState" } ∧
      s'.recoveryPoints = (livePointSys sampleData).recoveryPoints :=
  ⟨_, rfl, rfl, rfl, rfl, rfl, rfl⟩

/-- Counterexample to C16 as stated.  (1) A valid recovery point whose data holds
`userData` but no `appState`: `restoreFromRecoveryPoint` throws and returns no data,
after the `preRestore` backup was created and `userData` was applied.  (2) With
`maxBackups = 0` the restore succeeds and the backup list is empty afterwards. -/
theorem restoreFromRecoveryPoint_throws_or_keeps_no_backup :
    (∃ s', restoreFromRecoveryPoint 1 "recovery-1-0"
        (onePointSys (.obj [("userData", .obj [("streak", .num 9)])]))
        = .throw JSError.syntaxError s' ∧
      s'.backups.map (fun b => b.type) = ["preRestore"] ∧
      s'.intelligence
        = some { userData := .obj [("streak", .num 9)], appState := .obj [] }) ∧
    (∃ s', restoreFromRecoveryPoint 1 "recovery-1-0"
        { onePointSys sampleData with maxBackups := 0 } = .ok sampleData s' ∧
      s'.backups = []) :=
  ⟨⟨_, rfl, rfl, rfl⟩, ⟨_, rfl, rfl⟩⟩

/-! ## Automatic backup -/

theorem getProp?_eq_some (v w : JSValue) (k : String) (h : v.getProp? k = some w) :
    w = v.get k := by
  cases v <;> simp_all [JSValue.getProp?]

theorem readPath_eq_some (v x : JSValue) (k1 k2 : String) (h : readPath v k1 k2 = some x) :
    x = (v.get k1).get k2 := by
  unfold readPath at h
  cases h1 : v.getProp? k1 with
  | none => rw [h1] at h; cases h
  | some w =>
    rw [h1] at h
    rw [getProp?_eq_some v w k1 h1] at h
    exact getProp?_eq_some _ _ _ h

/-- A comparison of `hasDataChanged` that does not throw compares the two values
read. -/
theorem pathDiffers_eq_some (current last : JSValue) (k1 k2 : String) (d : Bool)
    (h : pathDiffers current last k1 k2 = some d) :
    d = strictNe ((current.get k1).get k2) ((last.get k1).get k2) := by
  unfold pathDiffers at h
  cases h1 : readPath current k1 k2 with
  | none => rw [h1] at h; cases h
  | some a =>
    cases h2 : readPath last k1 k2 with
    | none => rw [h1, h2] at h; cases h
    | some b =>
      rw [h1, h2] at h
      rw [← readPath_eq_some _ _ _ _ h1, ← readPath_eq_some _ _ _ _ h2]
      exact (Option.some.inj h).symm

theorem achievementsDiffer_eq_some (current last : JSValue) (d : Bool)
    (h : achievementsDiffer current last = some d) :
    ∃ a b, length? ((current.get "userData").get "achievements") = some a ∧
      length? ((last.get "userData").get "achievements") = some b ∧ d = strictNe a b := by
  unfold achievementsDiffer at h
  cases h1 : readPath current "userData" "achievements" with
  | none => rw [h1] at h; cases h
  | some x =>
    cases h2 : readPath last "userData" "achievements" with
    | none =>
      rw [h1, h2] at h
      cases h3 : length? x <;> simp [h3] at h
    | some y =>
      rw [h1, h2] at h
      rw [← readPath_eq_some _ _ _ _ h1, ← readPath_eq_some _ _ _ _ h2]
      cases h3 : length? x with
      | none => simp [h3] at h
      | some a =>
        cases h4 : length? y with
        | none => simp [h3, h4] at h
        | some b =>
          simp only [h3, h4, Option.some_bind, Option.some.injEq] at h
          exact ⟨a, b, rfl, rfl, h.symm⟩

/-- When `hasDataChanged` does not throw on a non-empty list, its result is true
exactly when one of its five comparisons with the last backup differs. -/
theorem hasDataChanged_iff (current : JSValue) (s : Sys) (last : Backup) (r : Bool)
    (hl : s.backups.getLast? = some last) (h : hasDataChanged current s = some r) :
    r = true ↔
      (strictNe ((current.get "userData").get "confidenceScore")
          ((last.data.get "userData").get "confidenceScore") = true ∨
        strictNe ((current.get "userData").get "challengesCompleted")
          ((last.data.get "userData").get "challengesCompleted") = true ∨
        strictNe ((current.get "userData").get "streak")
          ((last.data.get "userData").get "streak") = true ∨
        (∃ a b, length? ((current.get "userData").get "achievements") = some a ∧
          length? ((last.data.get "userData").get "achievements") = some b ∧
          strictNe a b = true) ∨
        strictNe ((current.get "appState").get "currentView")
          ((last.data.get "appState").get "currentView") = true) := by
  unfold hasDataChanged at h
  rw [hl] at h
  simp only at h
  cases h1 : pathDiffers current last.data "userData" "confidenceScore" with
  | none => rw [h1] at h; cases h
  | some d1 =>
    rw [h1] at h
    have e1 := pathDiffers_eq_some _ _ _ _ _ h1
    cases d1 with
    | true =>
      simp only [Option.some_bind, ↓reduceIte, Option.some.injEq] at h
      rw [← h]
      simp [← e1]
    | false =>
      simp only [Option.some_bind, Bool.false_eq_true, ↓reduceIte] at h
      cases h2 : pathDiffers current last.data "userData" "challengesCompleted" with
      | none => rw [h2] at h; cases h
      | some d2 =>
        rw [h2] at h
        have e2 := pathDiffers_eq_some _ _ _ _ _ h2
        cases d2 with
        | true =>
          simp only [Option.some_bind, ↓reduceIte, Option.some.injEq] at h
          rw [← h]
          simp [← e2]
        | false =>
          simp only [Option.some_bind, Bool.false_eq_true, ↓reduceIte] at h
          cases h3 : pathDiffers current last.data "userData" "streak" with
          | none => rw [h3] at h; cases h
          | some d3 =>
            rw [h3] at h
            have e3 := pathDiffers_eq_some _ _ _ _ _ h3
            cases d3 with
            | true =>
              simp only [Option.some_bind, ↓reduceIte, Option.some.injEq] at h
              rw [← h]
              simp [← e3]
            | false =>
              simp only [Option.some_bind, Bool.false_eq_true, ↓reduceIte] at h
              cases h4 : achievementsDiffer current last.data with
              | none => rw [h4] at h; cases h
              | some d4 =>
                rw [h4] at h
                obtain ⟨a, b, ha, hb, e4⟩ := achievementsDiffer_eq_some _ _ _ h4
                cases d4 with
                | true =>
                  simp only [Option.some_bind, ↓reduceIte, Option.some.injEq] at h
                  rw [← h]
                  simp only [true_iff]
                  exact Or.inr (Or.inr (Or.inr (Or.inl ⟨a, b, ha, hb, e4.symm⟩)))
                | false =>
                  simp only [Option.some_bind, Bool.false_eq_true, ↓reduceIte] at h
                  cases h5 : pathDiffers current last.data "appState" "currentView" with
                  | none => rw [h5] at h; cases h
                  | some d5 =>
                    rw [h5] at h
                    have e5 := pathDiffers_eq_some _ _ _ _ _ h5
                    have hr : r = d5 := by
                      cases d5 <;> simp at h <;> exact h
                    rw [hr, e5]
                    constructor
                    · intro h6
                      exact Or.inr (Or.inr (Or.inr (Or.inr h6)))
                    · rintro (h6 | h6 | h6 | ⟨a1, b1, ha1, hb1, h6⟩ | h6)
                      · rw [← e1] at h6; cases h6
                      · rw [← e2] at h6; cases h6
                      · rw [← e3] at h6; cases h6
                      · rw [ha] at ha1
                        rw [hb] at hb1
                        cases ha1
                        cases hb1
                        rw [← e4] at h6
                        cases h6
                      · exact h6

/-- When `hasDataChanged` answers true and the store accepts the write,
`createAutoBackup` is `createBackup('auto', getCurrentData())`. -/
theorem createAutoBackup_creates (fuel : Nat) (s : Sys)
    (hch : hasDataChanged (getCurrentData s).1 (getCurrentData s).2 = some true)
    (hw : s.writeResult s.writes = WriteResult.ok) :
    ∃ b s', createAutoBackup (fuel + 1) s = .ok () s' ∧
      createBackup (fuel + 1) "auto" (getCurrentData s).1 (getCurrentData s).2
        = .ok b s' := by
  have hf := getCurrentData_frame s
  have hw1 : (getCurrentData s).2.writeResult (getCurrentData s).2.writes
      = WriteResult.ok := by
    rw [hf.2.2.2.2.2.2.2.2.1, hf.2.2.2.2.2.2.2.2.2]
    exact hw
  obtain ⟨b, s1, hb⟩ : ∃ b s1, createBackup (fuel + 1) "auto"
      (getCurrentData s).1 (getCurrentData s).2 = .ok b s1 :=
    ⟨_, _, createBackup_accepted fuel "auto" _ _ _ (getCurrentData_clonable s) hw1⟩
  refine ⟨b, s1, ?_, hb⟩
  unfold createAutoBackup
  simp only [hch, hb]

/-- What the backup made by `createAutoBackup` looks like. -/
theorem createBackup_auto_shape (fuel : Nat) (s s' : Sys) (b : Backup)
    (hb : createBackup fuel "auto" (getCurrentData s).1 (getCurrentData s).2 = .ok b s') :
    b.type = "auto" ∧ b.status = "valid" ∧ b.data = jsonNormalize (getCurrentData s).1 ∧
    (1 ≤ s.maxBackups → ∃ j, j ≤ s.backups.length ∧
      s'.backups = s.backups.drop j ++ [b]) := by
  have hf := getCurrentData_frame s
  obtain ⟨copy, hc, hbdef, _, _, _, _, _, _, hlast⟩ := createBackup_ok _ _ _ _ _ _ hb
  have hcopy : copy = jsonNormalize (getCurrentData s).1 := by
    rw [getCurrentData_clonable] at hc
    exact (Option.some.inj hc).symm
  have hbt := (newBackup_fields "auto" copy (getCurrentData s).2).1
  have hbs := (newBackup_fields "auto" copy (getCurrentData s).2).2.1
  have hbd := (newBackup_fields "auto" copy (getCurrentData s).2).2.2
  rw [← hbdef] at hbt hbs hbd
  refine ⟨hbt, hbs, by rw [hbd, hcopy], fun hmax => ?_⟩
  rw [← hf.1]
  exact hlast (by rw [hf.2.2.1]; exact hmax)

/-! ## Statuses are never set back to valid -/

theorem forall₂_same {α : Type} (invalidate : α → α) (l : List α) :
    List.Forall₂ (fun old new => new = old ∨ new = invalidate old) l l := by
  induction l with
  | nil => exact List.Forall₂.nil
  | cons a rest ih => exact List.Forall₂.cons (Or.inl rfl) ih

theorem Evolves.of_eq {α : Type} (invalidate : α → α) (fresh l l' : List α)
    (h : l' = l) : Evolves invalidate fresh l l' :=
  ⟨l, 0, forall₂_same invalidate l, Or.inl (by rw [h]; rfl)⟩

theorem Evolves.of_append {α : Type} (invalidate : α → α) (fresh l l' : List α)
    (j : Nat) (h : l' = (l ++ fresh).drop j) : Evolves invalidate fresh l l' :=
  ⟨l, j, forall₂_same invalidate l, Or.inr h⟩

theorem forall₂_setBackupStatus (backupId : String) (l : List Backup) :
    List.Forall₂ (fun old new => new = old ∨ new = { old with status := "invalid" }) l
      (setBackupStatus backupId "invalid" l) := by
  induction l with
  | nil => exact List.Forall₂.nil
  | cons b rest ih =>
    unfold setBackupStatus
    split
    · exact List.Forall₂.cons (Or.inr rfl) (forall₂_same _ rest)
    · exact List.Forall₂.cons (Or.inl rfl) ih

theorem forall₂_setPointStatus (pointId : String) (l : List RecoveryPoint) :
    List.Forall₂ (fun old new => new = old ∨ new = { old with status := "invalid" }) l
      (setPointStatus pointId "invalid" l) := by
  induction l with
  | nil => exact List.Forall₂.nil
  | cons b rest ih =>
    unfold setPointStatus
    split
    · exact List.Forall₂.cons (Or.inr rfl) (forall₂_same _ rest)
    · exact List.Forall₂.cons (Or.inl rfl) ih

theorem jsonClone_some_eq (data copy : JSValue) (h : jsonClone data = some copy) :
    copy = jsonNormalize data := by
  cases data <;> simp_all [jsonClone]

/-- The lists after `createBackup`, returned or thrown. -/
theorem createBackup_state (fuel : Nat) (type : String) (data : JSValue) (s s' : Sys)
    (h : (createBackup fuel type data s).state? = some s') :
    s'.recoveryPoints = s.recoveryPoints ∧
    (s'.backups = s.backups ∨
      ∃ j, s'.backups = (s.backups ++ [newBackup type (jsonNormalize data) s]).drop j) := by
  cases hr : createBackup fuel type data s with
  | diverge => rw [hr] at h; cases h
  | throw e s1 =>
    rw [hr] at h
    cases h
    simp only [createBackup] at hr
    split at hr
    · cases hr
      exact ⟨rfl, Or.inl rfl⟩
    · split at hr <;> cases hr
  | ok b s1 =>
    rw [hr] at h
    cases h
    obtain ⟨copy, hc, hb, _, _, hsuf, hrp, _⟩ := createBackup_ok _ _ _ _ _ _ hr
    rw [jsonClone_some_eq _ _ hc] at hb
    rw [hb] at hsuf
    exact ⟨hrp, Or.inr hsuf⟩

/-- The lists after `createRecoveryPoint`, returned or thrown. -/
theorem createRecoveryPoint_state (fuel : Nat) (name : String) (data : JSValue)
    (s s' : Sys) (h : (createRecoveryPoint fuel name data s).state? = some s') :
    s'.backups = s.backups ∧
    (s'.recoveryPoints = s.recoveryPoints ∨
      ∃ j, s'.recoveryPoints
        = (s.recoveryPoints ++ [newRecoveryPoint name (jsonNormalize data) s]).drop j) := by
  cases hr : createRecoveryPoint fuel name data s with
  | diverge => rw [hr] at h; cases h
  | throw e s1 =>
    rw [hr] at h
    cases h
    simp only [createRecoveryPoint] at hr
    split at hr
    · cases hr
      exact ⟨rfl, Or.inl rfl⟩
    · split at hr <;> cases hr
  | ok b s1 =>
    rw [hr] at h
    cases h
    obtain ⟨copy, hc, hb, _, _, hsuf, hbk, _⟩ := createRecoveryPoint_ok _ _ _ _ _ _ hr
    rw [jsonClone_some_eq _ _ hc] at hb
    rw [hb] at hsuf
    exact ⟨hbk, Or.inr hsuf⟩

/-- Applying data, completed or thrown, leaves both lists as they were. -/
theorem applyRestoredData_state (data : JSValue) (s s' : Sys)
    (h : (applyRestoredData data s).state? = some s') :
    s'.backups = s.backups ∧ s'.recoveryPoints = s.recoveryPoints := by
  unfold applyRestoredData at h
  split at h
  · cases h; exact ⟨rfl, rfl⟩
  · split at h
    · cases h; exact ⟨rfl, rfl⟩
    · split at h
      · cases h; exact ⟨rfl, rfl⟩
      · simp only at h
        split at h <;> (cases h; exact ⟨rfl, rfl⟩)

/-- The lists after `validateBackup` or `invalidateBackup`: untouched, or the list
with the backup found marked `invalid`, minus entries dropped from the front. -/
theorem markBackup_state (fuel : Nat) (backupId : String) (s s' : Sys)
    (h : saveBackups fuel { s with backups := setBackupStatus backupId "invalid" s.backups }
      = some s') :
    s'.recoveryPoints = s.recoveryPoints ∧
    ∃ j, s'.backups = (setBackupStatus backupId "invalid" s.backups).drop j := by
  obtain ⟨_, _, h3, _, _, _, ⟨j, hj, _⟩, _⟩ := saveBackups_spec _ _ _ h
  exact ⟨h3, j, hj⟩

theorem markPoint_state (fuel : Nat) (pointId : String) (s s' : Sys)
    (h : saveRecoveryPoints fuel
      { s with recoveryPoints := setPointStatus pointId "invalid" s.recoveryPoints }
      = some s') :
    s'.backups = s.backups ∧
    ∃ j, s'.recoveryPoints = (setPointStatus pointId "invalid" s.recoveryPoints).drop j := by
  obtain ⟨_, _, h3, _, _, _, ⟨j, hj, _⟩, _⟩ := saveRecoveryPoints_spec _ _ _ h
  exact ⟨h3, j, hj⟩

theorem validateBackup_state (fuel : Nat) (backupId : String) (s s' : Sys)
    (h : (validateBackup fuel backupId s).state? = some s') :
    s'.recoveryPoints = s.recoveryPoints ∧
    (s'.backups = s.backups ∨
      ∃ j, s'.backups = (setBackupStatus backupId "invalid" s.backups).drop j) := by
  unfold validateBackup at h
  split at h
  · cases h; exact ⟨rfl, Or.inl rfl⟩
  · split at h
    · cases h; exact ⟨rfl, Or.inl rfl⟩
    · split at h
      · cases h
      · next saved hs =>
        cases h
        obtain ⟨h1, h2⟩ := markBackup_state _ _ _ _ hs
        exact ⟨h1, Or.inr h2⟩

theorem invalidateBackup_state (fuel : Nat) (backupId : String) (s s' : Sys)
    (h : (invalidateBackup fuel backupId s).state? = some s') :
    s'.recoveryPoints = s.recoveryPoints ∧
    (s'.backups = s.backups ∨
      ∃ j, s'.backups = (setBackupStatus backupId "invalid" s.backups).drop j) := by
  unfold invalidateBackup at h
  split at h
  · cases h; exact ⟨rfl, Or.inl rfl⟩
  · split at h
    · cases h
    · next saved hs =>
      cases h
      obtain ⟨h1, h2⟩ := markBackup_state _ _ _ _ hs
      exact ⟨h1, Or.inr h2⟩

theorem validateRecoveryPoint_state (fuel : Nat) (pointId : String) (s s' : Sys)
    (h : (validateRecoveryPoint fuel pointId s).state? = some s') :
    s'.backups = s.backups ∧
    (s'.recoveryPoints = s.recoveryPoints ∨
      ∃ j, s'.recoveryPoints
        = (setPointStatus pointId "invalid" s.recoveryPoints).drop j) := by
  unfold validateRecoveryPoint at h
  split at h
  · cases h; exact ⟨rfl, Or.inl rfl⟩
  · split at h
    · cases h; exact ⟨rfl, Or.inl rfl⟩
    · split at h
      · cases h
      · next saved hs =>
        cases h
        obtain ⟨h1, h2⟩ := markPoint_state _ _ _ _ hs
        exact ⟨h1, Or.inr h2⟩

theorem invalidateRecoveryPoint_state (fuel : Nat) (pointId : String) (s s' : Sys)
    (h : (invalidateRecoveryPoint fuel pointId s).state? = some s') :
    s'.backups = s.backups ∧
    (s'.recoveryPoints = s.recoveryPoints ∨
      ∃ j, s'.recoveryPoints
        = (setPointStatus pointId "invalid" s.recoveryPoints).drop j) := by
  unfold invalidateRecoveryPoint at h
  split at h
  · cases h; exact ⟨rfl, Or.inl rfl⟩
  · split at h
    · cases h
    · next saved hs =>
      cases h
      obtain ⟨h1, h2⟩ := markPoint_state _ _ _ _ hs
      exact ⟨h1, Or.inr h2⟩

theorem createAutoBackup_state (fuel : Nat) (s s' : Sys)
    (h : (createAutoBackup fuel s).state? = some s') :
    s'.recoveryPoints = s.recoveryPoints ∧
    (s'.backups = s.backups ∨
      ∃ j, s'.backups = (s.backups ++
        [newBackup "auto" (jsonNormalize (getCurrentData s).1) (getCurrentData s).2]).drop j) := by
  have hf := getCurrentData_frame s
  unfold createAutoBackup at h
  simp only at h
  split at h
  · cases h; exact ⟨hf.2.1, Or.inl hf.1⟩
  · cases h; exact ⟨hf.2.1, Or.inl hf.1⟩
  · cases hc : createBackup fuel "auto" (getCurrentData s).1 (getCurrentData s).2 with
    | diverge => rw [hc] at h; cases h
    | throw e s1 =>
      obtain ⟨h1, h2⟩ := createBackup_state fuel "auto" _ _ s1 (by rw [hc]; rfl)
      rw [hf.1] at h2
      rw [hc] at h
      simp only [Res.state?, Option.some.injEq] at h
      rw [← h]
      exact ⟨by rw [h1, hf.2.1], h2⟩
    | ok b s1 =>
      obtain ⟨h1, h2⟩ := createBackup_state fuel "auto" _ _ s1 (by rw [hc]; rfl)
      rw [hf.1] at h2
      rw [hc] at h
      simp only [Res.state?, Option.some.injEq] at h
      rw [← h]
      exact ⟨by rw [h1, hf.2.1], h2⟩

theorem restoreFromBackup_state (fuel : Nat) (backupId : String) (s s' : Sys)
    (h : (restoreFromBackup fuel backupId s).state? = some s') :
    s'.backups = s.backups ∧
    (s'.recoveryPoints = s.recoveryPoints ∨
      ∃ j, s'.recoveryPoints = (s.recoveryPoints ++
        [newRecoveryPoint "preRestore" (jsonNormalize (getCurrentData s).1)
          (getCurrentData s).2]).drop j) := by
  have hf := getCurrentData_frame s
  unfold restoreFromBackup at h
  split at h
  · cases h; exact ⟨rfl, Or.inl rfl⟩
  · next b hb =>
    split at h
    · cases h; exact ⟨rfl, Or.inl rfl⟩
    · simp only at h
      cases hc : createRecoveryPoint fuel "preRestore" (getCurrentData s).1
          (getCurrentData s).2 with
      | diverge => rw [hc] at h; cases h
      | throw e s1 =>
        obtain ⟨h1, h2⟩ := createRecoveryPoint_state fuel "preRestore" _ _ s1
          (by rw [hc]; rfl)
        rw [hf.2.1] at h2
        rw [hc] at h
        simp only [Res.state?, Option.some.injEq] at h
        rw [← h]
        exact ⟨by rw [h1, hf.1], h2⟩
      | ok r s1 =>
        rw [hc] at h
        simp only at h
        obtain ⟨h1, h2⟩ := createRecoveryPoint_state fuel "preRestore" _ _ s1
          (by rw [hc]; rfl)
        rw [hf.2.1] at h2
        have ha : (applyRestoredData b.data s1).state? = some s' := by
          cases hx : applyRestoredData b.data s1 with
          | diverge => rw [hx] at h; cases h
          | throw e s2 => rw [hx] at h; exact h
          | ok u s2 => rw [hx] at h; exact h
        obtain ⟨h3, h4⟩ := applyRestoredData_state _ _ _ ha
        rw [h3, h4]
        exact ⟨by rw [h1, hf.1], h2⟩

theorem restoreFromRecoveryPoint_state (fuel : Nat) (pointId : String) (s s' : Sys)
    (h : (restoreFromRecoveryPoint fuel pointId s).state? = some s') :
    s'.recoveryPoints = s.recoveryPoints ∧
    (s'.backups = s.backups ∨
      ∃ j, s'.backups = (s.backups ++
        [newBackup "preRestore" (jsonNormalize (getCurrentData s).1)
          (getCurrentData s).2]).drop j) := by
  have hf := getCurrentData_frame s
  unfold restoreFromRecoveryPoint at h
  split at h
  · cases h; exact ⟨rfl, Or.inl rfl⟩
  · next r hr =>
    split at h
    · cases h; exact ⟨rfl, Or.inl rfl⟩
    · simp only at h
      cases hc : createBackup fuel "preRestore" (getCurrentData s).1
          (getCurrentData s).2 with
      | diverge => rw [hc] at h; cases h
      | throw e s1 =>
        obtain ⟨h1, h2⟩ := createBackup_state fuel "preRestore" _ _ s1 (by rw [hc]; rfl)
        rw [hf.1] at h2
        rw [hc] at h
        simp only [Res.state?, Option.some.injEq] at h
        rw [← h]
        exact ⟨by rw [h1, hf.2.1], h2⟩
      | ok b s1 =>
        rw [hc] at h
        simp only at h
        obtain ⟨h1, h2⟩ := createBackup_state fuel "preRestore" _ _ s1 (by rw [hc]; rfl)
        rw [hf.1] at h2
        have ha : (applyRestoredData r.data s1).state? = some s' := by
          cases hx : applyRestoredData r.data s1 with
          | diverge => rw [hx] at h; cases h
          | throw e s2 => rw [hx] at h; exact h
          | ok u s2 => rw [hx] at h; exact h
        obtain ⟨h3, h4⟩ := applyRestoredData_state _ _ _ ha
        rw [h3, h4]
        exact ⟨by rw [h1, hf.2.1], h2⟩

/-- Once `after` has evolved from `before`, an entry of `after` with status `valid`
is an entry of `before` or one of the fresh entries. -/
theorem Evolves.valid_mem_backups (fresh before after : List Backup)
    (h : Evolves (fun b : Backup => { b with status := "invalid" }) fresh before after)
    (b : Backup) (hb : b ∈ after) (hv : b.status = "valid") : b ∈ before ∨ b ∈ fresh := by
  obtain ⟨marked, j, hm, hafter⟩ := h
  have hmem : b ∈ marked ++ fresh := by
    rcases hafter with h1 | h1
    · rw [h1] at hb
      exact List.mem_append_left _ (List.mem_of_mem_drop hb)
    · rw [h1] at hb
      exact List.mem_of_mem_drop hb
  rcases List.mem_append.1 hmem with h1 | h1
  · left
    clear hafter hmem hb
    induction hm with
    | nil => cases h1
    | cons hab _ ih =>
      rcases List.mem_cons.1 h1 with h2 | h2
      · rcases hab with h3 | h3
        · rw [h2, h3]; exact List.mem_cons_self _ _
        · rw [h2, h3] at hv
          have hne : ("invalid" : String) ≠ "valid" := by decide
          exact absurd hv hne
      · exact List.mem_cons_of_mem _ (ih h2)
  · exact Or.inr h1

theorem Evolves.valid_mem_points (fresh before after : List RecoveryPoint)
    (h : Evolves (fun r : RecoveryPoint => { r with status := "invalid" }) fresh before after)
    (r : RecoveryPoint) (hr : r ∈ after) (hv : r.status = "valid") :
    r ∈ before ∨ r ∈ fresh := by
  obtain ⟨marked, j, hm, hafter⟩ := h
  have hmem : r ∈ marked ++ fresh := by
    rcases hafter with h1 | h1
    · rw [h1] at hr
      exact List.mem_append_left _ (List.mem_of_mem_drop hr)
    · rw [h1] at hr
      exact List.mem_of_mem_drop hr
  rcases List.mem_append.1 hmem with h1 | h1
  · left
    clear hafter hmem hr
    induction hm with
    | nil => cases h1
    | cons hab _ ih =>
      rcases List.mem_cons.1 h1 with h2 | h2
      · rcases hab with h3 | h3
        · rw [h2, h3]; exact List.mem_cons_self _ _
        · rw [h2, h3] at hv
          have hne : ("invalid" : String) ≠ "valid" := by decide
          exact absurd hv hne
      · exact List.mem_cons_of_mem _ (ih h2)
  · exact Or.inr h1

theorem Evolves.of_append_or_eq {α : Type} (invalidate : α → α) (fresh l l' : List α)
    (h : l' = l ∨ ∃ j, l' = (l ++ fresh).drop j) : Evolves invalidate fresh l l' := by
  rcases h with h | ⟨j, h⟩
  · exact Evolves.of_eq invalidate fresh l l' h
  · exact Evolves.of_append invalidate fresh l l' j h

theorem Evolves.of_marked {α : Type} (invalidate : α → α) (fresh l marked l' : List α)
    (hm : List.Forall₂ (fun old new => new = old ∨ new = invalidate old) l marked)
    (h : l' = l ∨ ∃ j, l' = marked.drop j) : Evolves invalidate fresh l l' := by
  rcases h with h | ⟨j, h⟩
  · exact Evolves.of_eq invalidate fresh l l' h
  · exact ⟨marked, j, hm, Or.inl h⟩

/-- The two lists after any call other than `repairSystem` have evolved from the
lists before it. -/
theorem Call.run_evolves (fuel : Nat) (call : Call) (s s' : Sys)
    (h : call.run fuel s = some s') :
    Evolves (fun b : Backup => { b with status := "invalid" }) (call.freshBackups s)
      s.backups s'.backups ∧
    Evolves (fun r : RecoveryPoint => { r with status := "invalid" }) (call.freshPoints s)
      s.recoveryPoints s'.recoveryPoints := by
  cases call with
  | createBackup type data =>
    obtain ⟨h1, h2⟩ := createBackup_state fuel type data s s' h
    exact ⟨Evolves.of_append_or_eq _ _ _ _ h2, Evolves.of_eq _ _ _ _ h1⟩
  | createRecoveryPoint name data =>
    obtain ⟨h1, h2⟩ := createRecoveryPoint_state fuel name data s s' h
    exact ⟨Evolves.of_eq _ _ _ _ h1, Evolves.of_append_or_eq _ _ _ _ h2⟩
  | createAutoBackup =>
    obtain ⟨h1, h2⟩ := createAutoBackup_state fuel s s' h
    exact ⟨Evolves.of_append_or_eq _ _ _ _ h2, Evolves.of_eq _ _ _ _ h1⟩
  | validateBackup backupId =>
    obtain ⟨h1, h2⟩ := validateBackup_state fuel backupId s s' h
    exact ⟨Evolves.of_marked _ _ _ _ _ (forall₂_setBackupStatus backupId s.backups) h2,
      Evolves.of_eq _ _ _ _ h1⟩
  | validateRecoveryPoint pointId =>
    obtain ⟨h1, h2⟩ := validateRecoveryPoint_state fuel pointId s s' h
    exact ⟨Evolves.of_eq _ _ _ _ h1,
      Evolves.of_marked _ _ _ _ _ (forall₂_setPointStatus pointId s.recoveryPoints) h2⟩
  | invalidateBackup backupId =>
    obtain ⟨h1, h2⟩ := invalidateBackup_state fuel backupId s s' h
    exact ⟨Evolves.of_marked _ _ _ _ _ (forall₂_setBackupStatus backupId s.backups) h2,
      Evolves.of_eq _ _ _ _ h1⟩
  | invalidateRecoveryPoint pointId =>
    obtain ⟨h1, h2⟩ := invalidateRecoveryPoint_state fuel pointId s s' h
    exact ⟨Evolves.of_eq _ _ _ _ h1,
      Evolves.of_marked _ _ _ _ _ (forall₂_setPointStatus pointId s.recoveryPoints) h2⟩
  | getLatestBackup type =>
    cases h
    exact ⟨Evolves.of_eq _ _ _ _ rfl, Evolves.of_eq _ _ _ _ rfl⟩
  | getLatestRecoveryPoint name =>
    cases h
    exact ⟨Evolves.of_eq _ _ _ _ rfl, Evolves.of_eq _ _ _ _ rfl⟩
  | restoreFromBackup backupId =>
    obtain ⟨h1, h2⟩ := restoreFromBackup_state fuel backupId s s' h
    exact ⟨Evolves.of_eq _ _ _ _ h1, Evolves.of_append_or_eq _ _ _ _ h2⟩
  | restoreFromRecoveryPoint pointId =>
    obtain ⟨h1, h2⟩ := restoreFromRecoveryPoint_state fuel pointId s s' h
    exact ⟨Evolves.of_append_or_eq _ _ _ _ h2, Evolves.of_eq _ _ _ _ h1⟩
  | performHealthCheck =>
    cases h
    exact ⟨Evolves.of_eq _ _ _ _ rfl, Evolves.of_eq _ _ _ _ rfl⟩

/-- Claim C18.  Whatever call of `createBackup`, `createRecoveryPoint`,
`createAutoBackup`, `validateBackup`, `validateRecoveryPoint`, `invalidateBackup`,
`invalidateRecoveryPoint`, `getLatestBackup`, `getLatestRecoveryPoint`,
`restoreFromBackup`, `restoreFromRecoveryPoint` or `performHealthCheck` ends (by
returning or by throwing), each list afterwards is the list before in which some
statuses were set to `invalid`, followed at most by the snapshot the call has
just built, minus entries dropped from the front.  No status is set to `valid`:
every entry with status `valid` afterwards is an unchanged entry of the list
before or the snapshot just built.  In particular `validateBackup` returning true
leaves the state, and an invalidated backup, as it was. -/
theorem status_never_set_back_to_valid (fuel : Nat) (call : Call) (s s' : Sys)
    (h : call.run fuel s = some s') :
    Evolves (fun b : Backup => { b with status := "invalid" }) (call.freshBackups s)
      s.backups s'.backups ∧
    Evolves (fun r : RecoveryPoint => { r with status := "invalid" }) (call.freshPoints s)
      s.recoveryPoints s'.recoveryPoints ∧
    (∀ b ∈ s'.backups, b.status = "valid" → b ∈ s.backups ∨ b ∈ call.freshBackups s) ∧
    (∀ r ∈ s'.recoveryPoints, r.status = "valid" →
      r ∈ s.recoveryPoints ∨ r ∈ call.freshPoints s) ∧
    (∀ backupId s1, validateBackup fuel backupId s = .ok true s1 → s1 = s) := by
  obtain ⟨h1, h2⟩ := Call.run_evolves fuel call s s' h
  refine ⟨h1, h2, fun b hb hv => Evolves.valid_mem_backups _ _ _ h1 b hb hv,
    fun r hr hv => Evolves.valid_mem_points _ _ _ h2 r hr hv, ?_⟩
  intro backupId s1 hv
  unfold validateBackup at hv
  split at hv
  · cases hv
  · split at hv
    · cases hv; rfl
    · split at hv <;> cases hv

/-- Witness for C18: `validateBackup` returns true for a structurally sound backup
that was invalidated, and leaves it invalid. -/
theorem status_never_set_back_to_valid_witness :
    validateBackup 1 "backup-1-0" invalidatedSys = .ok true invalidatedSys ∧
    (Call.validateBackup "backup-1-0").run 1 invalidatedSys = some invalidatedSys ∧
    invalidatedSys.backups.map (fun b => b.status) = ["invalid"] ∧
    Evolves (fun b : Backup => { b with status := "invalid" })
      ((Call.validateBackup "backup-1-0").freshBackups invalidatedSys)
      invalidatedSys.backups invalidatedSys.backups ∧
    Evolves (fun r : RecoveryPoint => { r with status := "invalid" })
      ((Call.validateBackup "backup-1-0").freshPoints invalidatedSys)
      invalidatedSys.recoveryPoints invalidatedSys.recoveryPoints ∧
    (∀ b ∈ invalidatedSys.backups, b.status = "valid" →
      b ∈ invalidatedSys.backups ∨
        b ∈ (Call.validateBackup "backup-1-0").freshBackups invalidatedSys) ∧
    (∀ r ∈ invalidatedSys.recoveryPoints, r.status = "valid" →
      r ∈ invalidatedSys.recoveryPoints ∨
        r ∈ (Call.validateBackup "backup-1-0").freshPoints invalidatedSys) ∧
    (∀ backupId s1, validateBackup 1 backupId invalidatedSys = .ok true s1 →
      s1 = invalidatedSys) :=
  ⟨rfl, rfl, rfl,
    status_never_set_back_to_valid 1 (Call.validateBackup "backup-1-0") invalidatedSys
      invalidatedSys rfl⟩

/-! ## Repair -/

/-- Claim C11 fails on the code.  Two backups, both with status `invalid`, both
structurally invalid and older than 24 hours, an accepting store and one valid
recovery point: `repairSystem` removes the first backup with `splice` inside
`forEach`, which then skips the second; that one stays in the list, no `initial`
backup is created, the health check is `critical` and `overallSuccess` is false. -/
theorem repairSystem_skips_after_removal :
    staleSys.backups.map (fun b => (b.id, b.status, decide (100000000 - b.timestamp
        < 24 * 60 * 60 * 1000)))
      = [("backup-1-0", "invalid", false), ("backup-2-0", "invalid", false)] ∧
    ∃ r s', repairSystem 1 staleSys = .ok r s' ∧
      s'.backups = [brokenBackup "backup-2-0" 0] ∧
      s'.backups.filter (fun b => b.type == "initial") = [] ∧
      r.backupsRemoved = 1 ∧ r.backupsRepaired = 0 ∧ r.storageRepaired = true ∧
      (performHealthCheck s').1.overall = Overall.critical ∧
      r.overallSuccess = false :=
  ⟨by decide, _, _, rfl, rfl, rfl, rfl, rfl, rfl, rfl, rfl⟩

/-- Claim C12 fails on the code.  An invalid backup older than 24 hours is followed
by an invalid one taken a second ago, both holding the empty object:
`repairSystem` removes the first, and the `forEach` then skips the second, which
stays `invalid` with neither `userData` nor `appState`. -/
theorem repairSystem_skips_recent_invalid :
    mixedSys.backups = [brokenBackup "backup-1-0" 0, brokenBackup "backup-2-0" 99999000] ∧
    decide ((100000000 : Int) - 99999000 < 24 * 60 * 60 * 1000) = true ∧
    ∃ r s', repairSystem 1 mixedSys = .ok r s' ∧
      s'.backups = [brokenBackup "backup-2-0" 99999000] ∧
      (brokenBackup "backup-2-0" 99999000).status = "invalid" ∧
      (brokenBackup "backup-2-0" 99999000).data.get "userData" = JSValue.undefined ∧
      r.backupsRemoved = 1 ∧ r.backupsRepaired = 0 :=
  ⟨rfl, by decide, _, _, rfl, rfl, rfl, rfl, rfl, rfl⟩

/-! ## Emergency path -/

/-- The default data can always be applied. -/
theorem applyRestoredData_defaultData (s st : Sys) :
    ∃ s', applyRestoredData (defaultData s).1 st = .ok () s' := by
  apply applyRestoredData_total
  right
  constructor
  · simp [defaultData, getDefaultUserData, JSValue.get, List.lookup]
  · have h1 : ("appState" == "userData") = false := by decide
    simp [defaultData, getDefaultAppState, JSValue.get, List.lookup, h1]

/-- Claim C19, for data that can be applied (the application object is not installed,
or the data holds `userData` and `appState`).  `recoverFromEmergency` returns source
`sessionStorage` with the data of the session snapshot whenever a parseable
snapshot is stored under `phoenixEmergencyBackup`; when the session store yields
no snapshot, source `localStorage` with the data of `getLatestBackup()` whenever it
returns a backup; when it returns none, source `default` with the default data.
In each case `recovered` is true and the state afterwards is the state in which
`applyRestoredData` has applied the returned data. -/
theorem recoverFromEmergency_order (s : Sys) :
    (∀ v d, s.sessionEmergency = SessionEntry.text (some v) → v.getProp? "data" = some d →
      (s.intelligence = none ∨
        (d.get "userData" ≠ JSValue.undefined ∧ d.get "appState" ≠ JSValue.undefined)) →
      ∃ s', recoverFromEmergency s
          = .ok { recovered := true, source := some "sessionStorage", data := d } s' ∧
        applyRestoredData d s = .ok () s') ∧
    (∀ latest, (∀ v, s.sessionEmergency ≠ SessionEntry.text (some v)) →
      getLatestBackup none s = some latest →
      (s.intelligence = none ∨
        (latest.data.get "userData" ≠ JSValue.undefined ∧
          latest.data.get "appState" ≠ JSValue.undefined)) →
      ∃ s', recoverFromEmergency s
          = .ok { recovered := true, source := some "localStorage", data := latest.data } s' ∧
        applyRestoredData latest.data s = .ok () s') ∧
    ((∀ v, s.sessionEmergency ≠ SessionEntry.text (some v)) →
      getLatestBackup none s = none →
      ∃ s', recoverFromEmergency s
          = .ok { recovered := true, source := some "default", data := (defaultData s).1 } s' ∧
        applyRestoredData (defaultData s).1 (defaultData s).2 = .ok () s') := by
  have hskip : (∀ v, s.sessionEmergency ≠ SessionEntry.text (some v)) →
      recoverFromEmergency s = recoverFromLatest s := by
    intro h
    unfold recoverFromEmergency
    split
    · next v hv => exact absurd hv (h v)
    · rfl
  refine ⟨?_, ?_, ?_⟩
  · intro v d hv hd happ
    obtain ⟨s', hs'⟩ := applyRestoredData_total d s happ
    refine ⟨s', ?_, hs'⟩
    unfold recoverFromEmergency
    simp only [hv, hd, hs']
  · intro latest hnone hl happ
    obtain ⟨s', hs'⟩ := applyRestoredData_total latest.data s happ
    refine ⟨s', ?_, hs'⟩
    rw [hskip hnone]
    unfold recoverFromLatest
    simp only [hl, hs']
  · intro hnone hl
    obtain ⟨s', hs'⟩ := applyRestoredData_defaultData s (defaultData s).2
    refine ⟨s', ?_, hs'⟩
    rw [hskip hnone]
    unfold recoverFromLatest
    simp only [hl]
    unfold recoverFromDefault
    simp only [hs']

/-- Witness for C19: a session snapshot wins over a valid backup. -/
theorem recoverFromEmergency_order_witness :
    ({ oneBackupSys otherData with sessionEmergency := sessionSnapshot sampleData }
      : Sys).sessionEmergency = sessionSnapshot sampleData ∧
    ∃ s', recoverFromEmergency
        { oneBackupSys otherData with sessionEmergency := sessionSnapshot sampleData }
        = .ok { recovered := true, source := some "sessionStorage", data := sampleData } s' ∧
      applyRestoredData sampleData
        { oneBackupSys otherData with sessionEmergency := sessionSnapshot sampleData }
        = .ok () s' :=
  ⟨rfl,
    (recoverFromEmergency_order
      { oneBackupSys otherData with sessionEmergency := sessionSnapshot sampleData }).1
      (.obj [("id", .str "emergency-1-0"), ("timestamp", .str "T1"), ("data", sampleData)])
      sampleData rfl (by decide) (Or.inr ⟨by decide, by decide⟩)⟩

/-- Counterexample to C19 as stated, with the application object installed.  (1) A
parseable snapshot is stored in the session store, but its data has no
`appState`: applying it throws, the exception is caught, and the result has
source `localStorage`.  (2) The session store is empty and a valid backup exists,
but its data is the empty object: the result has source `default`. -/
theorem recoverFromEmergency_skips_unusable_source :
    (∃ s', recoverFromEmergency
        { oneBackupSys otherData with
          sessionEmergency := sessionSnapshot (.obj [("userData", .obj [])]) }
        = .ok { recovered := true, source := some "localStorage", data := otherData } s') ∧
    (getLatestBackup none (oneBackupSys (.obj [])) = some (manualBackup (.obj [])) ∧
      ∃ r s', recoverFromEmergency (oneBackupSys (.obj [])) = .ok r s' ∧
        r.source = some "default") :=
  ⟨⟨_, rfl⟩, by decide, _, _, rfl, rfl⟩

/-- Whenever `createEmergencyBackup` returns, it returns the backup made by
`createBackup` and the session store is as it was. -/
theorem createEmergencyBackup_returns_backup (fuel : Nat) (s s' : Sys)
    (r : EmergencySnapshot) (h : createEmergencyBackup fuel s = .ok r s') :
    s'.sessionEmergency = s.sessionEmergency ∧ ∃ b, r = EmergencySnapshot.backup b := by
  unfold createEmergencyBackup at h
  simp only at h
  cases hc : createBackup fuel "emergency" (getCurrentData s).1 (getCurrentData s).2 with
  | diverge => rw [hc] at h; cases h
  | throw e s1 =>
    simp only [createBackup, getCurrentData_clonable] at hc
    split at hc <;> cases hc
  | ok b s1 =>
    rw [hc] at h
    cases h
    refine ⟨?_, b, rfl⟩
    simp only [createBackup, getCurrentData_clonable] at hc
    split at hc
    · cases hc
    · next saved hs =>
      cases hc
      have hsess : ∀ (n : Nat) (a a' : Sys), saveBackups n a = some a' →
          a'.sessionEmergency = a.sessionEmergency := by
        intro n
        induction n with
        | zero => intro a a' ha; simp [saveBackups] at ha
        | succ m ih =>
          intro a a' ha
          unfold saveBackups at ha
          split at ha
          · cases ha; rfl
          · have hrec := ih _ _ ha
            exact hrec
          · cases ha; rfl
      rw [hsess _ _ _ hs]
      simp only [getCurrentData, readClock, generateId, drawRandom]
      split <;> rfl

/-- Claim C20 fails on the code.  On a store that refuses the write, and on a store
that answers it with `QuotaExceededError` once, `createEmergencyBackup` returns the
backup of type `emergency` built by `createBackup`, which `saveBackups` has not
let throw: the session store stays empty, and in the first case nothing is
persisted at all.  The result is not flagged `persistent: false`. -/
theorem createEmergencyBackup_never_falls_back :
    (∃ b s', createEmergencyBackup 1 (freshSys WriteResult.otherError)
        = .ok (EmergencySnapshot.backup b) s' ∧
      b.type = "emergency" ∧ s'.backups = [b] ∧ s'.storedBackups = none ∧
      s'.sessionEmergency = SessionEntry.absent ∧ s'.sessionWrites = 0) ∧
    (∃ b s', createEmergencyBackup 2 quotaOnceSys = .ok (EmergencySnapshot.backup b) s' ∧
      b.type = "emergency" ∧ s'.sessionEmergency = SessionEntry.absent ∧
      s'.sessionWrites = 0) :=
  ⟨⟨_, _, rfl, rfl, rfl, rfl, rfl, rfl⟩, ⟨_, _, rfl, rfl, rfl, rfl⟩⟩

/-! ## Health check: the critical status -/

/-- Claim C27.  `performHealthCheck` reports `critical` exactly when no backup has
status `valid`, or no recovery point has status `valid`, or the store probe fails
while fewer than three backups have status `valid`. -/
theorem performHealthCheck_critical_iff (s : Sys) :
    (performHealthCheck s).1.overall = Overall.critical ↔
      ((∀ b ∈ s.backups, b.status ≠ "valid") ∨
        (∀ r ∈ s.recoveryPoints, r.status ≠ "valid") ∨
        (s.writeResult s.writes ≠ WriteResult.ok ∧
          (s.backups.filter (fun b => b.status == "valid")).length < 3)) := by
  have hb : (∀ b ∈ s.backups, b.status ≠ "valid") ↔
      (s.backups.filter (fun b => b.status == "valid")).length = 0 := by
    rw [List.length_eq_zero, List.filter_eq_nil_iff]
    simp
  have hr : (∀ r ∈ s.recoveryPoints, r.status ≠ "valid") ↔
      (s.recoveryPoints.filter (fun rp => rp.status == "valid")).length = 0 := by
    rw [List.length_eq_zero, List.filter_eq_nil_iff]
    simp
  rw [hb, hr]
  simp only [performHealthCheck, combineOverall]
  generalize (s.backups.filter (fun b => b.status == "valid")).length = bv
  generalize (s.recoveryPoints.filter (fun rp => rp.status == "valid")).length = rv
  by_cases hw : s.writeResult s.writes = WriteResult.ok
  · simp only [hw, decide_True, ↓reduceIte]
    split_ifs <;> simp_all
  · simp only [hw, decide_False, Bool.false_eq_true, ↓reduceIte]
    split_ifs <;> simp_all

/-! ## Identifiers -/

/-- Claim C24 fails on the code.  With two clock readings that agree and two random
draws that agree, two successive `createBackup` calls give both backups the id
`backup-100-7`, and two successive `createRecoveryPoint` calls give both points
the id `recovery-100-7`; each list then holds two entries with one id. -/
theorem generateId_repeats :
    (∃ b1 s1 b2 s2, createBackup 1 "manual" sampleData (freshSys WriteResult.ok) = .ok b1 s1 ∧
      createBackup 1 "auto" otherData s1 = .ok b2 s2 ∧
      b1.id = "backup-100-7" ∧ b2.id = "backup-100-7" ∧ b1.data ≠ b2.data ∧
      s2.backups = [b1, b2]) ∧
    (∃ r1 s1 r2 s2,
      createRecoveryPoint 1 "userAction" sampleData (freshSys WriteResult.ok) = .ok r1 s1 ∧
      createRecoveryPoint 1 "hourly" otherData s1 = .ok r2 s2 ∧
      r1.id = "recovery-100-7" ∧ r2.id = "recovery-100-7" ∧ r1.data ≠ r2.data ∧
      s2.recoveryPoints = [r1, r2]) :=
  ⟨⟨_, _, _, _, rfl, rfl, by decide, by decide, by decide, rfl⟩,
    ⟨_, _, _, _, rfl, rfl, by decide, by decide, by decide, rfl⟩⟩

/-! ## Emergency recovery always answers -/

theorem recoverFromDefault_ok (s : Sys) :
    ∃ s', recoverFromDefault s
      = .ok { recovered := true, source := some "default", data := (defaultData s).1 } s' := by
  obtain ⟨s', hs'⟩ := applyRestoredData_defaultData s (defaultData s).2
  refine ⟨s', ?_⟩
  unfold recoverFromDefault
  simp only [hs']

theorem applyRestoredData_installed (data : JSValue) (s s' : Sys) (u : Unit)
    (hi : s.intelligence ≠ none) (h : applyRestoredData data s = .ok u s') :
    data ≠ JSValue.null ∧ data ≠ JSValue.undefined ∧ s'.intelligence ≠ none := by
  unfold applyRestoredData at h
  split at h
  · next hn => exact absurd hn hi
  · split at h
    · cases h
    · next user hu =>
      split at h
      · cases h
      · split at h
        · cases h
        · cases h
          refine ⟨?_, ?_, by simp⟩
          · intro hd
            rw [hd] at hu
            simp [JSValue.getProp?] at hu
          · intro hd
            rw [hd] at hu
            simp [JSValue.getProp?] at hu

theorem applyRestoredData_throw_installed (data : JSValue) (s s' : Sys) (e : JSError)
    (h : applyRestoredData data s = .throw e s') :
    s.intelligence ≠ none ∧ s'.intelligence ≠ none ∧ s'.backups = s.backups := by
  unfold applyRestoredData at h
  split at h
  · cases h
  · next i hi =>
    have hne : s.intelligence ≠ none := by rw [hi]; simp
    split at h
    · cases h; exact ⟨hne, hne, rfl⟩
    · split at h
      · cases h; exact ⟨hne, hne, rfl⟩
      · split at h
        · cases h; exact ⟨hne, by simp, rfl⟩
        · cases h

theorem recoverFromLatest_ok (s : Sys) :
    ∃ r s', recoverFromLatest s = .ok r s' ∧ r.recovered = true ∧
      (r.source = some "localStorage" ∨ r.source = some "default") ∧
      ((r.data = JSValue.null ∨ r.data = JSValue.undefined) →
        s.intelligence = none ∧ r.source = some "localStorage") := by
  unfold recoverFromLatest
  split
  · obtain ⟨s', hs'⟩ := recoverFromDefault_ok s
    refine ⟨_, s', hs', rfl, Or.inr rfl, ?_⟩
    intro hd
    simp [defaultData] at hd
  · next latest hl =>
    cases ha : applyRestoredData latest.data s with
    | diverge => exact absurd ha (applyRestoredData_ne_diverge _ _)
    | throw e s1 =>
      obtain ⟨s', hs'⟩ := recoverFromDefault_ok s1
      refine ⟨_, s', hs', rfl, Or.inr rfl, ?_⟩
      intro hd
      simp [defaultData] at hd
    | ok u s1 =>
      refine ⟨_, s1, rfl, rfl, Or.inl rfl, ?_⟩
      intro hd
      refine ⟨?_, rfl⟩
      by_contra hi
      obtain ⟨h1, h2, _⟩ := applyRestoredData_installed _ _ _ _ hi ha
      rcases hd with hd | hd
      · exact h1 hd
      · exact h2 hd

/-- Claim C29, as the code has it.  `recoverFromEmergency` returns for every state, with
`recovered` true and one of the sources `sessionStorage`, `localStorage`, `default`.
The data returned is neither `null` nor `undefined` when the application object
is installed; it is `null` or `undefined` only when the application object is not
installed and the source, the session snapshot or the latest backup, holds such
data. -/
theorem recoverFromEmergency_always_recovers (s : Sys) :
    ∃ r s', recoverFromEmergency s = .ok r s' ∧ r.recovered = true ∧
      (r.source = some "sessionStorage" ∨ r.source = some "localStorage" ∨
        r.source = some "default") ∧
      (s.intelligence ≠ none → r.data ≠ JSValue.null ∧ r.data ≠ JSValue.undefined) ∧
      ((r.data = JSValue.null ∨ r.data = JSValue.undefined) →
        s.intelligence = none ∧
          (r.source = some "sessionStorage" ∨ r.source = some "localStorage")) := by
  have key : ∃ r s', recoverFromEmergency s = .ok r s' ∧ r.recovered = true ∧
      (r.source = some "sessionStorage" ∨ r.source = some "localStorage" ∨
        r.source = some "default") ∧
      ((r.data = JSValue.null ∨ r.data = JSValue.undefined) →
        s.intelligence = none ∧
          (r.source = some "sessionStorage" ∨ r.source = some "localStorage")) := by
    have hlatest : ∀ s1 : Sys, (s1.intelligence = none → s.intelligence = none) →
        ∃ r s', recoverFromLatest s1 = .ok r s' ∧ r.recovered = true ∧
          (r.source = some "sessionStorage" ∨ r.source = some "localStorage" ∨
            r.source = some "default") ∧
          ((r.data = JSValue.null ∨ r.data = JSValue.undefined) →
            s.intelligence = none ∧
              (r.source = some "sessionStorage" ∨ r.source = some "localStorage")) := by
      intro s1 h1
      obtain ⟨r, s', hr, hrec, hsrc, hdata⟩ := recoverFromLatest_ok s1
      refine ⟨r, s', hr, hrec, Or.inr hsrc, ?_⟩
      intro hd
      obtain ⟨hi, hs⟩ := hdata hd
      exact ⟨h1 hi, Or.inr hs⟩
    unfold recoverFromEmergency
    split
    · next v hv =>
      split
      · exact hlatest s (fun h => h)
      · next d hd =>
        cases ha : applyRestoredData d s with
        | diverge => exact absurd ha (applyRestoredData_ne_diverge _ _)
        | throw e s1 =>
          obtain ⟨_, h2, _⟩ := applyRestoredData_throw_installed _ _ _ _ ha
          exact hlatest s1 (fun h => absurd h h2)
        | ok u s1 =>
          refine ⟨_, s1, rfl, rfl, Or.inl rfl, ?_⟩
          intro hdn
          refine ⟨?_, Or.inl rfl⟩
          by_contra hi
          obtain ⟨h1, h2, _⟩ := applyRestoredData_installed _ _ _ _ hi ha
          rcases hdn with hdn | hdn
          · exact h1 hdn
          · exact h2 hdn
    · exact hlatest s (fun h => h)
  obtain ⟨r, s', hr, hrec, hsrc, hdata⟩ := key
  refine ⟨r, s', hr, hrec, hsrc, ?_, hdata⟩
  intro hi
  constructor
  · intro hd
    exact hi (hdata (Or.inl hd)).1
  · intro hd
    exact hi (hdata (Or.inr hd)).1

/-- Witness for C29: the application object is installed, the session snapshot and
the latest backup both hold data that cannot be applied, and the result has the
source `default` with data that is not `null`. -/
theorem recoverFromEmergency_always_recovers_witness :
    unusableSourcesSys.intelligence ≠ none ∧
    (∃ r s', recoverFromEmergency unusableSourcesSys = .ok r s' ∧
      r.source = some "default") ∧
    ∃ r s', recoverFromEmergency unusableSourcesSys = .ok r s' ∧ r.recovered = true ∧
      (r.source = some "sessionStorage" ∨ r.source = some "localStorage" ∨
        r.source = some "default") ∧
      (unusableSourcesSys.intelligence ≠ none →
        r.data ≠ JSValue.null ∧ r.data ≠ JSValue.undefined) ∧
      ((r.data = JSValue.null ∨ r.data = JSValue.undefined) →
        unusableSourcesSys.intelligence = none ∧
          (r.source = some "sessionStorage" ∨ r.source = some "localStorage")) :=
  ⟨by decide, ⟨_, _, rfl, rfl⟩, recoverFromEmergency_always_recovers unusableSourcesSys⟩

/-- Counterexample to C29 as stated: the application object is not installed and the
session store holds the snapshot `{"data": null}`; `recoverFromEmergency` returns
`recovered` true, source `sessionStorage` and the data `null`. -/
theorem recoverFromEmergency_returns_null_data :
    nullSnapshotSys.intelligence = none ∧
    nullSnapshotSys.sessionEmergency = SessionEntry.text (some (.obj [("data", .null)])) ∧
    ∃ s', recoverFromEmergency nullSnapshotSys
        = .ok { recovered := true, source := some "sessionStorage", data := .null } s' :=
  ⟨rfl, rfl, _, rfl⟩

/-! ## Two recovery points in a row -/

/-- The state after a `createRecoveryPoint` whose write is accepted, field by
field. -/
theorem createRecoveryPoint_accepted_fields (fuel : Nat) (name : String)
    (data : JSValue) (s : Sys) (hd : data ≠ JSValue.undefined)
    (hw : s.writeResult s.writes = WriteResult.ok) :
    ∃ s1, createRecoveryPoint (fuel + 1) name data s
        = .ok (newRecoveryPoint name (jsonNormalize data) s) s1 ∧
      s1.recoveryPoints = evictOldest s.maxRecoveryPoints
        (s.recoveryPoints ++ [newRecoveryPoint name (jsonNormalize data) s]) ∧
      s1.storedRecoveryPoints = some (s1.recoveryPoints.map RecoveryPoint.toJSON) ∧
      s1.writes = s.writes + 1 ∧ s1.writeResult = s.writeResult ∧
      s1.maxRecoveryPoints = s.maxRecoveryPoints ∧ s1.maxBackups = s.maxBackups ∧
      s1.backups = s.backups ∧ s1.storedBackups = s.storedBackups ∧
      s1.intelligence = s.intelligence :=
  ⟨_, createRecoveryPoint_accepted fuel name data _ s (jsonClone_eq_some data hd) hw,
    rfl, rfl, rfl, rfl, rfl, rfl, rfl, rfl, rfl⟩

/-- The state after a `createBackup` whose write is accepted, field by field. -/
theorem createBackup_accepted_fields (fuel : Nat) (type : String)
    (data : JSValue) (s : Sys) (hd : data ≠ JSValue.undefined)
    (hw : s.writeResult s.writes = WriteResult.ok) :
    ∃ s1, createBackup (fuel + 1) type data s
        = .ok (newBackup type (jsonNormalize data) s) s1 ∧
      s1.backups = evictOldest s.maxBackups
        (s.backups ++ [newBackup type (jsonNormalize data) s]) ∧
      s1.storedBackups = some (s1.backups.map Backup.toJSON) ∧
      s1.writes = s.writes + 1 ∧ s1.writeResult = s.writeResult ∧
      s1.maxRecoveryPoints = s.maxRecoveryPoints ∧ s1.maxBackups = s.maxBackups ∧
      s1.recoveryPoints = s.recoveryPoints ∧
      s1.storedRecoveryPoints = s.storedRecoveryPoints ∧
      s1.intelligence = s.intelligence :=
  ⟨_, createBackup_accepted fuel type data _ s (jsonClone_eq_some data hd) hw,
    rfl, rfl, rfl, rfl, rfl, rfl, rfl, rfl, rfl⟩

/-- Two pushes, each followed by the eviction loop, on a list limited to at least
two entries: both new entries are kept, after a tail of the old list. -/
theorem evictOldest_twice {α : Type} (max : Nat) (l : List α) (a b : α) (hmax : 2 ≤ max) :
    evictOldest max (evictOldest max (l ++ [a]) ++ [b])
      = l.drop (l.length + 2 - max) ++ [a, b] := by
  have h1 : evictOldest max (l ++ [a]) = l.drop (l.length + 1 - max) ++ [a] := by
    rw [evictOldest_eq_drop, List.length_append, List.length_singleton,
      List.drop_append_of_le_length (by omega)]
  rw [h1, evictOldest_eq_drop]
  have h2 : l.drop (l.length + 1 - max) ++ [a] ++ [b]
      = l.drop (l.length + 1 - max) ++ [a, b] := by simp
  rw [h2, List.drop_append_of_le_length (by simp; omega), List.drop_drop]
  congr 2
  simp
  omega

/-- Claim C22.  With `maxRecoveryPoints ≥ 2` and a store that accepts the two writes,
two successive `createRecoveryPoint` calls that return leave the old list, cut at
the front to the limit, followed by the two points in call order; the length is
at most `maxRecoveryPoints` and the backup list is unchanged.  The calls do
return whenever their data is not `undefined`. -/
theorem createRecoveryPoint_twice (fuel1 fuel2 : Nat) (name1 name2 : String)
    (data1 data2 : JSValue) (s : Sys) (hmax : 2 ≤ s.maxRecoveryPoints)
    (hw1 : s.writeResult s.writes = WriteResult.ok)
    (hw2 : s.writeResult (s.writes + 1) = WriteResult.ok) :
    (∀ r1 s1 r2 s2, createRecoveryPoint fuel1 name1 data1 s = .ok r1 s1 →
      createRecoveryPoint fuel2 name2 data2 s1 = .ok r2 s2 →
      s2.recoveryPoints.length ≤ s.maxRecoveryPoints ∧
      s2.recoveryPoints
        = s.recoveryPoints.drop (s.recoveryPoints.length + 2 - s.maxRecoveryPoints)
          ++ [r1, r2] ∧
      s2.backups = s.backups ∧
      r1.name = name1 ∧ r2.name = name2 ∧ r1.status = "valid" ∧ r2.status = "valid" ∧
      r1.data = jsonNormalize data1 ∧ r2.data = jsonNormalize data2) ∧
    (data1 ≠ JSValue.undefined → data2 ≠ JSValue.undefined →
      ∃ r1 s1 r2 s2, createRecoveryPoint (fuel1 + 1) name1 data1 s = .ok r1 s1 ∧
        createRecoveryPoint (fuel2 + 1) name2 data2 s1 = .ok r2 s2) := by
  have hstep : ∀ (fuel : Nat) (name : String) (data : JSValue) (t t' : Sys)
      (r : RecoveryPoint), t.writeResult t.writes = WriteResult.ok →
      createRecoveryPoint fuel name data t = .ok r t' →
      r = newRecoveryPoint name (jsonNormalize data) t ∧
      t'.recoveryPoints = evictOldest t.maxRecoveryPoints (t.recoveryPoints ++ [r]) ∧
      t'.writes = t.writes + 1 ∧ t'.writeResult = t.writeResult ∧
      t'.maxRecoveryPoints = t.maxRecoveryPoints ∧ t'.backups = t.backups := by
    intro fuel name data t t' r hw h
    obtain ⟨copy, hc, _⟩ := createRecoveryPoint_ok fuel name data t t' r h
    have hd : data ≠ JSValue.undefined := by
      intro hd
      rw [hd] at hc
      simp [jsonClone] at hc
    cases fuel with
    | zero =>
      simp only [createRecoveryPoint, hc, saveRecoveryPoints] at h
      cases h
    | succ n =>
      obtain ⟨t1, ht1, hl, _, hwr, hwf, hm, _, hb, _, _⟩ :=
        createRecoveryPoint_accepted_fields n name data t hd hw
      rw [ht1] at h
      cases h
      exact ⟨rfl, hl, hwr, hwf, hm, hb⟩
  constructor
  · intro r1 s1 r2 s2 h1 h2
    obtain ⟨hr1, hl1, hwr1, hwf1, hm1, hb1⟩ := hstep _ _ _ _ _ _ hw1 h1
    have hw2' : s1.writeResult s1.writes = WriteResult.ok := by
      rw [hwf1, hwr1]
      exact hw2
    obtain ⟨hr2, hl2, _, _, _, hb2⟩ := hstep _ _ _ _ _ _ hw2' h2
    have hlist : s2.recoveryPoints
        = s.recoveryPoints.drop (s.recoveryPoints.length + 2 - s.maxRecoveryPoints)
          ++ [r1, r2] := by
      rw [hl2, hl1, hm1]
      exact evictOldest_twice _ _ _ _ hmax
    refine ⟨?_, hlist, by rw [hb2, hb1], ?_, ?_, ?_, ?_, ?_, ?_⟩
    · rw [hlist]
      simp
      omega
    · rw [hr1]; rfl
    · rw [hr2]; rfl
    · rw [hr1]; rfl
    · rw [hr2]; rfl
    · rw [hr1]; rfl
    · rw [hr2]; rfl
  · intro hd1 hd2
    obtain ⟨s1, hs1, _, _, hwr1, hwf1, _⟩ :=
      createRecoveryPoint_accepted_fields fuel1 name1 data1 s hd1 hw1
    have hw2' : s1.writeResult s1.writes = WriteResult.ok := by
      rw [hwf1, hwr1]
      exact hw2
    obtain ⟨s2, hs2, _⟩ := createRecoveryPoint_accepted_fields fuel2 name2 data2 s1 hd2 hw2'
    exact ⟨_, s1, _, s2, hs1, hs2⟩

/-- Witness for C22: two recovery points on a list that already holds five. -/
theorem createRecoveryPoint_twice_witness :
    (∃ r1 s1 r2 s2,
      createRecoveryPoint 1 "userAction" sampleData fivePointsSys = .ok r1 s1 ∧
      createRecoveryPoint 1 "hourly" otherData s1 = .ok r2 s2 ∧
      s2.recoveryPoints = [samplePoint 2, samplePoint 3, samplePoint 4, r1, r2]) ∧
    (∀ r1 s1 r2 s2,
      createRecoveryPoint 1 "userAction" sampleData fivePointsSys = .ok r1 s1 →
      createRecoveryPoint 1 "hourly" otherData s1 = .ok r2 s2 →
      s2.recoveryPoints.length ≤ fivePointsSys.maxRecoveryPoints ∧
      s2.recoveryPoints
        = fivePointsSys.recoveryPoints.drop
            (fivePointsSys.recoveryPoints.length + 2 - fivePointsSys.maxRecoveryPoints)
          ++ [r1, r2] ∧
      s2.backups = fivePointsSys.backups ∧
      r1.name = "userAction" ∧ r2.name = "hourly" ∧ r1.status = "valid" ∧
      r2.status = "valid" ∧
      r1.data = jsonNormalize sampleData ∧ r2.data = jsonNormalize otherData) :=
  ⟨⟨_, _, _, _, rfl, rfl, rfl⟩,
    (createRecoveryPoint_twice 1 1 "userAction" "hourly" sampleData otherData fivePointsSys
      (by decide) rfl rfl).1⟩

/-! ## Loading what was saved -/

theorem jsonNormalize_idem (v : JSValue) : jsonNormalize (jsonNormalize v) = jsonNormalize v := by
  by_cases h : v = JSValue.undefined
  · subst h
    rfl
  · exact jsonNormalize_of_isJson _ (isJson_jsonNormalize v h)

theorem toJSON_newBackup (type : String) (data : JSValue) (s : Sys) :
    (newBackup type (jsonNormalize data) s).toJSON = newBackup type (jsonNormalize data) s := by
  simp only [Backup.toJSON, newBackup, jsonNormalize_idem]

/-- Claim C23, for a list whose entries are as `JSON.parse` builds them.  When the store
accepts the write, the data is not `undefined` and every backup already in the
list is equal to its own JSON round trip, `createBackup` returns, the value
persisted under `phoenixBackups` is the in-memory list, `loadBackups` right after
leaves the state as it is, and every backup of the new list is again equal to
its JSON round trip. -/
theorem loadBackups_after_createBackup (fuel : Nat) (type : String) (data : JSValue)
    (s : Sys) (hd : data ≠ JSValue.undefined)
    (hw : s.writeResult s.writes = WriteResult.ok)
    (hinv : ∀ c ∈ s.backups, c.toJSON = c) :
    ∃ b s', createBackup (fuel + 1) type data s = .ok b s' ∧
      s'.storedBackups = some s'.backups ∧
      loadBackups s' = s' ∧
      (∀ c ∈ s'.backups, c.toJSON = c) := by
  obtain ⟨s1, hs1, hl, hst, _⟩ := createBackup_accepted_fields fuel type data s hd hw
  have hinv1 : ∀ c ∈ s1.backups, c.toJSON = c := by
    intro c hc
    rw [hl, evictOldest_eq_drop] at hc
    have hc1 := List.mem_of_mem_drop hc
    rw [List.mem_append, List.mem_singleton] at hc1
    rcases hc1 with hc1 | hc1
    · exact hinv c hc1
    · rw [hc1]
      exact toJSON_newBackup type data s
  have hmap : s1.backups.map Backup.toJSON = s1.backups := by
    conv_rhs => rw [← List.map_id s1.backups]
    apply List.map_congr_left
    intro c hc
    simpa using hinv1 c hc
  have hstored : s1.storedBackups = some s1.backups := by rw [hst, hmap]
  refine ⟨_, s1, hs1, hstored, ?_, hinv1⟩
  unfold loadBackups
  rw [hstored]
  cases s1
  simp only at hstored
  simp [hstored]

/-- Witness for C23: a third backup on a list of two. -/
theorem loadBackups_after_createBackup_witness :
    ∃ b s', createBackup 1 "manual" otherData pairSys = .ok b s' ∧
      s'.storedBackups = some s'.backups ∧
      loadBackups s' = s' ∧
      (∀ c ∈ s'.backups, c.toJSON = c) :=
  loadBackups_after_createBackup 0 "manual" otherData pairSys (by decide) rfl (by decide)

/-- Counterexample to C23 as stated: the only backup of the list holds an object with
a property whose value is `undefined`.  `JSON.stringify` leaves that property
out, so after `createBackup` with an accepting store and JSON-representable data,
`loadBackups` replaces the entry by one that holds the empty object. -/
theorem loadBackups_changes_unrepresentable_entry :
    isJson sampleData = true ∧
    ∃ b s', createBackup 1 "manual" sampleData (oneBackupSys (.obj [("note", .undefined)]))
        = .ok b s' ∧
      s'.backups = [manualBackup (.obj [("note", .undefined)]), b] ∧
      (loadBackups s').backups = [manualBackup (.obj []), b] ∧
      (loadBackups s').backups ≠ s'.backups :=
  ⟨by decide, _, _, rfl, rfl, rfl, by decide⟩

/-! ## Start-up -/

/-- `saveBackups` leaves the answers of the store as they are. -/
theorem saveBackups_env (fuel : Nat) : ∀ (s s' : Sys), saveBackups fuel s = some s' →
    s'.writeResult = s.writeResult := by
  induction fuel with
  | zero => intro s s' h; simp [saveBackups] at h
  | succ n ih =>
    intro s s' h
    unfold saveBackups at h
    split at h
    · cases h; rfl
    · have hrec := ih _ _ h
      exact hrec
    · cases h; rfl

/-- `saveRecoveryPoints` leaves the answers of the store as they are. -/
theorem saveRecoveryPoints_env (fuel : Nat) :
    ∀ (s s' : Sys), saveRecoveryPoints fuel s = some s' →
    s'.writeResult = s.writeResult := by
  induction fuel with
  | zero => intro s s' h; simp [saveRecoveryPoints] at h
  | succ n ih =>
    intro s s' h
    unfold saveRecoveryPoints at h
    split at h
    · cases h; rfl
    · have hrec := ih _ _ h
      exact hrec
    · cases h; rfl

/-- When some write from the next one on is not answered with `QuotaExceededError`,
`saveBackups` ends, with the same state at every depth that is enough. -/
theorem saveBackups_ends : ∀ (k : Nat) (s : Sys),
    s.writeResult (s.writes + k) ≠ WriteResult.quotaExceeded →
    ∃ s', ∀ fuel, saveBackups (k + 1 + fuel) s = some s' := by
  intro k
  induction k with
  | zero =>
    intro s h
    rw [Nat.add_zero] at h
    cases hw : s.writeResult s.writes with
    | quotaExceeded => exact absurd hw h
    | ok =>
      refine ⟨{ s with writes := s.writes + 1, storedBackups := some (s.backups.map Backup.toJSON) }, fun fuel => ?_⟩
      rw [show 0 + 1 + fuel = fuel + 1 by omega]
      simp only [saveBackups, hw]
    | otherError =>
      refine ⟨{ s with writes := s.writes + 1 }, fun fuel => ?_⟩
      rw [show 0 + 1 + fuel = fuel + 1 by omega]
      simp only [saveBackups, hw]
  | succ n ih =>
    intro s h
    cases hw : s.writeResult s.writes with
    | quotaExceeded =>
      obtain ⟨s', hs'⟩ := ih
        { s with writes := s.writes + 1,
                 backups := sliceLast (s.maxBackups / 2) s.backups }
        (by
          show s.writeResult (s.writes + 1 + n) ≠ WriteResult.quotaExceeded
          rw [show s.writes + 1 + n = s.writes + (n + 1) by omega]
          exact h)
      refine ⟨s', fun fuel => ?_⟩
      rw [show n + 1 + 1 + fuel = (n + 1 + fuel) + 1 by omega]
      simp only [saveBackups, hw]
      exact hs' fuel
    | ok =>
      refine ⟨{ s with writes := s.writes + 1, storedBackups := some (s.backups.map Backup.toJSON) }, fun fuel => ?_⟩
      rw [show n + 1 + 1 + fuel = (n + 1 + fuel) + 1 by omega]
      simp only [saveBackups, hw]
    | otherError =>
      refine ⟨{ s with writes := s.writes + 1 }, fun fuel => ?_⟩
      rw [show n + 1 + 1 + fuel = (n + 1 + fuel) + 1 by omega]
      simp only [saveBackups, hw]

/-- The recovery-point counterpart of `saveBackups_ends`. -/
theorem saveRecoveryPoints_ends : ∀ (k : Nat) (s : Sys),
    s.writeResult (s.writes + k) ≠ WriteResult.quotaExceeded →
    ∃ s', ∀ fuel, saveRecoveryPoints (k + 1 + fuel) s = some s' := by
  intro k
  induction k with
  | zero =>
    intro s h
    rw [Nat.add_zero] at h
    cases hw : s.writeResult s.writes with
    | quotaExceeded => exact absurd hw h
    | ok =>
      refine ⟨{ s with writes := s.writes + 1, storedRecoveryPoints := some (s.recoveryPoints.map RecoveryPoint.toJSON) }, fun fuel => ?_⟩
      rw [show 0 + 1 + fuel = fuel + 1 by omega]
      simp only [saveRecoveryPoints, hw]
    | otherError =>
      refine ⟨{ s with writes := s.writes + 1 }, fun fuel => ?_⟩
      rw [show 0 + 1 + fuel = fuel + 1 by omega]
      simp only [saveRecoveryPoints, hw]
  | succ n ih =>
    intro s h
    cases hw : s.writeResult s.writes with
    | quotaExceeded =>
      obtain ⟨s', hs'⟩ := ih
        { s with writes := s.writes + 1,
                 recoveryPoints := sliceLast (s.maxRecoveryPoints / 2) s.recoveryPoints }
        (by
          show s.writeResult (s.writes + 1 + n) ≠ WriteResult.quotaExceeded
          rw [show s.writes + 1 + n = s.writes + (n + 1) by omega]
          exact h)
      refine ⟨s', fun fuel => ?_⟩
      rw [show n + 1 + 1 + fuel = (n + 1 + fuel) + 1 by omega]
      simp only [saveRecoveryPoints, hw]
      exact hs' fuel
    | ok =>
      refine ⟨{ s with writes := s.writes + 1, storedRecoveryPoints := some (s.recoveryPoints.map RecoveryPoint.toJSON) }, fun fuel => ?_⟩
      rw [show n + 1 + 1 + fuel = (n + 1 + fuel) + 1 by omega]
      simp only [saveRecoveryPoints, hw]
    | otherError =>
      refine ⟨{ s with writes := s.writes + 1 }, fun fuel => ?_⟩
      rw [show n + 1 + 1 + fuel = (n + 1 + fuel) + 1 by omega]
      simp only [saveRecoveryPoints, hw]

/-- With data that can be cloned and a store that does not answer every write with
`QuotaExceededError`, `createBackup` returns the backup it has built. -/
theorem createBackup_ends (type : String) (data : JSValue) (s : Sys) (k : Nat)
    (hd : data ≠ JSValue.undefined)
    (hk : s.writeResult (s.writes + k) ≠ WriteResult.quotaExceeded) :
    ∃ s', (∀ fuel, createBackup (k + 1 + fuel) type data s
        = .ok (newBackup type (jsonNormalize data) s) s') ∧
      s'.writeResult = s.writeResult := by
  obtain ⟨s', hs'⟩ := saveBackups_ends k
    { (readClock (generateId "backup" s).2).2 with
      backups := evictOldest s.maxBackups
        (s.backups ++ [newBackup type (jsonNormalize data) s]) } hk
  refine ⟨s', fun fuel => ?_, ?_⟩
  · simp only [createBackup, jsonClone_eq_some data hd]
    have h := hs' fuel
    simp only [newBackup] at h
    simp only [readClock, generateId, drawRandom] at h ⊢
    rw [h]
    rfl
  · have henv := saveBackups_env _ _ _ (hs' 0)
    exact henv

/-- The recovery-point counterpart of `createBackup_ends`. -/
theorem createRecoveryPoint_ends (name : String) (data : JSValue) (s : Sys) (k : Nat)
    (hd : data ≠ JSValue.undefined)
    (hk : s.writeResult (s.writes + k) ≠ WriteResult.quotaExceeded) :
    ∃ s', (∀ fuel, createRecoveryPoint (k + 1 + fuel) name data s
        = .ok (newRecoveryPoint name (jsonNormalize data) s) s') ∧
      s'.writeResult = s.writeResult := by
  obtain ⟨s', hs'⟩ := saveRecoveryPoints_ends k
    { (readClock (generateId "recovery" s).2).2 with
      recoveryPoints := evictOldest s.maxRecoveryPoints
        (s.recoveryPoints ++ [newRecoveryPoint name (jsonNormalize data) s]) } hk
  refine ⟨s', fun fuel => ?_, ?_⟩
  · simp only [createRecoveryPoint, jsonClone_eq_some data hd]
    have h := hs' fuel
    simp only [newRecoveryPoint] at h
    simp only [readClock, generateId, drawRandom] at h ⊢
    rw [h]
    rfl
  · have henv := saveRecoveryPoints_env _ _ _ (hs' 0)
    exact henv

/-- The default data is an object that passes the structural check, also after a
JSON round trip; building it only reads the clock. -/
theorem defaultData_spec (t : Sys) :
    (defaultData t).1 ≠ JSValue.undefined ∧
    structurallyValid (jsonNormalize (defaultData t).1) = true ∧
    (defaultData t).2.writeResult = t.writeResult ∧ (defaultData t).2.writes = t.writes ∧
    (defaultData t).2.backups = t.backups ∧
    (defaultData t).2.recoveryPoints = t.recoveryPoints ∧
    (defaultData t).2.maxBackups = t.maxBackups ∧
    (defaultData t).2.maxRecoveryPoints = t.maxRecoveryPoints := by
  refine ⟨by simp [defaultData], ?_, rfl, rfl, rfl, rfl, rfl, rfl⟩
  have hj : isJson (defaultData t).1 = true := by
    simp [defaultData, getDefaultUserData, getDefaultAppState, isJson, isJsonProps,
      isJsonItems]
  rw [jsonNormalize_of_isJson _ hj, structurallyValid_iff]
  have h1 : ("appState" == "userData") = false := by decide
  have h2 : ("challengesCompleted" == "confidenceScore") = false := by decide
  have h3 : ("streak" == "confidenceScore") = false := by decide
  have h4 : ("streak" == "challengesCompleted") = false := by decide
  simp [defaultData, getDefaultUserData, getDefaultAppState, JSValue.get, List.lookup,
    JSValue.truthy, h1, h2, h3, h4]

/-- The first `if` of `init`, on a store that does not answer every write with
`QuotaExceededError`: it ends, a list that is not empty is left alone, and an
empty list receives the initial backup. -/
theorem ensureInitialBackup_ends (s : Sys)
    (hstore : ∃ k, s.writeResult (s.writes + k) ≠ WriteResult.quotaExceeded) :
    ∃ k s1, (∀ fuel, ensureInitialBackup (k + 1 + fuel) s = .ok () s1) ∧
      s1.writeResult = s.writeResult ∧ s1.recoveryPoints = s.recoveryPoints ∧
      s1.maxRecoveryPoints = s.maxRecoveryPoints ∧
      (s.backups ≠ [] → s1 = s) ∧
      (s.backups = [] → 1 ≤ s.maxBackups →
        s1.backups = [newBackup "initial" (jsonNormalize (defaultData s).1)
          (defaultData s).2]) := by
  obtain ⟨hd, _, hwr, hwn, hbk, hrp, hmb, hmr⟩ := defaultData_spec s
  by_cases he : s.backups = []
  · obtain ⟨k, hk⟩ := hstore
    have hk' : (defaultData s).2.writeResult ((defaultData s).2.writes + k)
        ≠ WriteResult.quotaExceeded := by
      rw [hwr, hwn]
      exact hk
    obtain ⟨s1, h1, henv⟩ := createBackup_ends "initial" (defaultData s).1
      (defaultData s).2 k hd hk'
    obtain ⟨_, _, _, _, _, _, hrp1, _, _, hlast⟩ := createBackup_ok _ _ _ _ _ _ (h1 0)
    obtain ⟨_, _, hmr1⟩ := createBackup_frame _ _ _ _ _ _ (h1 0)
    refine ⟨k, s1, fun fuel => ?_, by rw [henv, hwr], by rw [hrp1, hrp],
      by rw [hmr1, hmr], fun hne => absurd he hne, fun _ hmax => ?_⟩
    · simp only [ensureInitialBackup, he, List.length_nil, ↓reduceIte, createInitialBackup]
      rw [h1 fuel]
    · obtain ⟨j, _, hj⟩ := hlast (by rw [hmb]; exact hmax)
      rw [hj, hbk, he]
      simp
  · refine ⟨0, s, fun fuel => ?_, rfl, rfl, rfl, fun _ => rfl, fun h => absurd h he⟩
    have hlen : s.backups.length ≠ 0 := by
      intro h0
      exact he (List.length_eq_zero.1 h0)
    simp only [ensureInitialBackup, hlen, ↓reduceIte]

/-- The second `if` of `init`, the same as the first on the other list. -/
theorem ensureInitialRecoveryPoint_ends (s : Sys)
    (hstore : ∃ k, s.writeResult (s.writes + k) ≠ WriteResult.quotaExceeded) :
    ∃ k s1, (∀ fuel, ensureInitialRecoveryPoint (k + 1 + fuel) s = .ok () s1) ∧
      s1.writeResult = s.writeResult ∧ s1.backups = s.backups ∧
      (s.recoveryPoints ≠ [] → s1 = s) ∧
      (s.recoveryPoints = [] → 1 ≤ s.maxRecoveryPoints →
        s1.recoveryPoints = [newRecoveryPoint "initialization"
          (jsonNormalize (defaultData s).1) (defaultData s).2]) := by
  obtain ⟨hd, _, hwr, hwn, hbk, hrp, hmb, hmr⟩ := defaultData_spec s
  by_cases he : s.recoveryPoints = []
  · obtain ⟨k, hk⟩ := hstore
    have hk' : (defaultData s).2.writeResult ((defaultData s).2.writes + k)
        ≠ WriteResult.quotaExceeded := by
      rw [hwr, hwn]
      exact hk
    obtain ⟨s1, h1, henv⟩ := createRecoveryPoint_ends "initialization" (defaultData s).1
      (defaultData s).2 k hd hk'
    obtain ⟨_, _, _, _, _, _, hbk1, _, _, _, _, hlast⟩ :=
      createRecoveryPoint_ok _ _ _ _ _ _ (h1 0)
    refine ⟨k, s1, fun fuel => ?_, by rw [henv, hwr], by rw [hbk1, hbk],
      fun hne => absurd he hne, fun _ hmax => ?_⟩
    · simp only [ensureInitialRecoveryPoint, he, List.length_nil, ↓reduceIte,
        createInitialRecoveryPoint]
      rw [h1 fuel]
    · obtain ⟨j, _, hj⟩ := hlast (by rw [hmr]; exact hmax)
      rw [hj, hrp, he]
      simp
  · refine ⟨0, s, fun fuel => ?_, rfl, rfl, fun _ => rfl, fun h => absurd h he⟩
    have hlen : s.recoveryPoints.length ≠ 0 := by
      intro h0
      exact he (List.length_eq_zero.1 h0)
    simp only [ensureInitialRecoveryPoint, hlen, ↓reduceIte]

/-- What `loadBackups` and `loadRecoveryPoints` make of the object literal. -/
theorem load_objectLiteral (env : Sys) :
    (loadRecoveryPoints (loadBackups (objectLiteral env))).writeResult = env.writeResult ∧
    (loadRecoveryPoints (loadBackups (objectLiteral env))).maxBackups = 10 ∧
    (loadRecoveryPoints (loadBackups (objectLiteral env))).maxRecoveryPoints = 5 ∧
    (env.storedBackups = none →
      (loadRecoveryPoints (loadBackups (objectLiteral env))).backups = []) ∧
    (∀ stored, env.storedBackups = some stored →
      (loadRecoveryPoints (loadBackups (objectLiteral env))).backups = stored) ∧
    (env.storedRecoveryPoints = none →
      (loadRecoveryPoints (loadBackups (objectLiteral env))).recoveryPoints = []) ∧
    (∀ stored, env.storedRecoveryPoints = some stored →
      (loadRecoveryPoints (loadBackups (objectLiteral env))).recoveryPoints = stored) := by
  simp only [loadBackups, loadRecoveryPoints, objectLiteral]
  cases env.storedBackups <;> cases env.storedRecoveryPoints <;> simp

/-- On a store that does not answer every write from some write on with
`QuotaExceededError`, `init` returns.  A kind with nothing stored gets exactly one
snapshot, the initial one, with status `valid` and default data that passes the
structural check, so that `validateBackup` or `validateRecoveryPoint` returns true
for it; a kind for which a non-empty list is stored keeps that list and gets no
snapshot. -/
theorem init_spec (env : Sys)
    (hstore : ∀ m, ∃ k, env.writeResult (m + k) ≠ WriteResult.quotaExceeded) :
    ∃ f0 s', (∀ fuel, init (f0 + fuel) (objectLiteral env) = .ok () s') ∧
      (env.storedBackups = none →
        ∃ b t, s'.backups = [b] ∧ b.type = "initial" ∧ b.status = "valid" ∧
          b.data = jsonNormalize (defaultData t).1 ∧
          structurallyValid b.data = true ∧
          (∀ fuel, validateBackup fuel b.id s' = .ok true s')) ∧
      (env.storedRecoveryPoints = none →
        ∃ r t, s'.recoveryPoints = [r] ∧ r.name = "initialization" ∧ r.status = "valid" ∧
          r.data = jsonNormalize (defaultData t).1 ∧
          structurallyValid r.data = true ∧
          (∀ fuel, validateRecoveryPoint fuel r.id s' = .ok true s')) ∧
      (∀ x l, env.storedBackups = some (x :: l) → s'.backups = x :: l) ∧
      (∀ x l, env.storedRecoveryPoints = some (x :: l) → s'.recoveryPoints = x :: l) := by
  obtain ⟨hLw, hLmb, hLmr, hLb0, hLb1, hLr0, hLr1⟩ := load_objectLiteral env
  obtain ⟨L, hL⟩ : ∃ L, L = loadRecoveryPoints (loadBackups (objectLiteral env)) := ⟨_, rfl⟩
  rw [← hL] at hLw hLmb hLmr hLb0 hLb1 hLr0 hLr1
  have hinit : ∀ fuel, init fuel (objectLiteral env) =
      match ensureInitialBackup fuel L with
      | .diverge => .diverge
      | .throw e s1 => .throw e s1
      | .ok _ s1 => ensureInitialRecoveryPoint fuel s1 := by
    intro fuel
    rw [hL]
    rfl
  have hst1 : ∃ k, L.writeResult (L.writes + k) ≠ WriteResult.quotaExceeded := by
    rw [hLw]
    exact hstore L.writes
  obtain ⟨k1, s1, h1, hw1, hrp1, hmr1, hsame1, hnew1⟩ := ensureInitialBackup_ends L hst1
  have hst2 : ∃ k, s1.writeResult (s1.writes + k) ≠ WriteResult.quotaExceeded := by
    rw [hw1, hLw]
    exact hstore s1.writes
  obtain ⟨k2, s2, h2, _, hbk2, hsame2, hnew2⟩ := ensureInitialRecoveryPoint_ends s1 hst2
  refine ⟨k1 + k2 + 2, s2, fun fuel => ?_, ?_, ?_, ?_, ?_⟩
  · rw [hinit, show k1 + k2 + 2 + fuel = k1 + 1 + (k2 + 1 + fuel) by omega, h1]
    simp only
    rw [show k1 + 1 + (k2 + 1 + fuel) = k2 + 1 + (k1 + 1 + fuel) by omega]
    exact h2 _
  · intro hnone
    have hb : s2.backups = [newBackup "initial" (jsonNormalize (defaultData L).1)
        (defaultData L).2] := by
      rw [hbk2]
      exact hnew1 (hLb0 hnone) (by rw [hLmb]; decide)
    have hv := (defaultData_spec L).2.1
    refine ⟨_, L, hb, rfl, rfl, rfl, hv, fun fuel => ?_⟩
    simp only [validateBackup, hb, List.find?_cons, beq_self_eq_true]
    have hv' : structurallyValid (newBackup "initial" (jsonNormalize (defaultData L).1)
        (defaultData L).2).data = true := hv
    simp only [hv', ↓reduceIte]
  · intro hnone
    have hr : s2.recoveryPoints = [newRecoveryPoint "initialization"
        (jsonNormalize (defaultData s1).1) (defaultData s1).2] := by
      apply hnew2
      · rw [hrp1]
        exact hLr0 hnone
      · rw [hmr1, hLmr]
        decide
    have hv := (defaultData_spec s1).2.1
    refine ⟨_, s1, hr, rfl, rfl, rfl, hv, fun fuel => ?_⟩
    simp only [validateRecoveryPoint, hr, List.find?_cons, beq_self_eq_true]
    have hv' : structurallyValid (newRecoveryPoint "initialization"
        (jsonNormalize (defaultData s1).1) (defaultData s1).2).data = true := hv
    simp only [hv', ↓reduceIte]
  · intro x l hx
    have hb : L.backups = x :: l := hLb1 _ hx
    rw [hbk2, hsame1 (by rw [hb]; simp), hb]
  · intro x l hx
    have hr : s1.recoveryPoints = x :: l := by
      rw [hrp1]
      exact hLr1 _ hx
    rw [hsame2 (by rw [hr]; simp), hr]

/-- Claim C21 fails on the code when the store is full.  On first run with a store
that answers every write with `QuotaExceededError`, `saveBackups` calls itself
without end under `createInitialBackup`: whatever depth is allowed, `init` has not
returned, and no recovery point is created.  With a store that accepts the
writes `init` does create one `initial` backup and one `initialization` recovery
point. -/
theorem init_never_returns_on_full_store :
    (freshSys WriteResult.quotaExceeded).storedBackups = none ∧
    (freshSys WriteResult.quotaExceeded).storedRecoveryPoints = none ∧
    (∀ fuel, init fuel (objectLiteral (freshSys WriteResult.quotaExceeded)) = Res.diverge) ∧
    (∃ s', init 1 (objectLiteral (freshSys WriteResult.ok)) = .ok () s' ∧
      s'.backups.map (fun b => (b.type, b.status)) = [("initial", "valid")] ∧
      s'.recoveryPoints.map (fun r => (r.name, r.status)) = [("initialization", "valid")]) := by
  refine ⟨rfl, rfl, fun fuel => ?_, _, rfl, rfl, rfl⟩
  have hd := (defaultData_spec (objectLiteral (freshSys WriteResult.quotaExceeded))).1
  have hsave : createBackup fuel "initial"
      (defaultData (objectLiteral (freshSys WriteResult.quotaExceeded))).1
      (defaultData (objectLiteral (freshSys WriteResult.quotaExceeded))).2 = Res.diverge := by
    simp only [createBackup, jsonClone_eq_some _ hd]
    rw [saveBackups_all_quota]
    intro n
    rfl
  have hensure : ensureInitialBackup fuel (objectLiteral (freshSys WriteResult.quotaExceeded))
      = Res.diverge := by
    simp only [ensureInitialBackup, createInitialBackup]
    rw [hsave]
    rfl
  show (match ensureInitialBackup fuel (objectLiteral (freshSys WriteResult.quotaExceeded)) with
    | .diverge => Res.diverge
    | .throw e s1 => .throw e s1
    | .ok _ s1 => ensureInitialRecoveryPoint fuel s1) = Res.diverge
  rw [hensure]

/-! ## An automatic backup right after a backup -/

theorem strictNe_self (x : JSValue) (h : isPrimitive x = true) : strictNe x x = false := by
  cases x <;> simp_all [strictNe, isPrimitive]

theorem getProp?_of_ne (v : JSValue) (k : String) (h1 : v ≠ JSValue.undefined)
    (h2 : v ≠ JSValue.null) : v.getProp? k = some (v.get k) := by
  cases v <;> simp_all [JSValue.getProp?]

/-- The comparison of `hasDataChanged` answers false when the current data and the
last backup hold the same `userData` and the same `appState`, the four compared
properties are primitives and `achievements` has a primitive length. -/
theorem hasDataChanged_same (c : JSValue) (t : Sys) (b : Backup) (u a : JSValue)
    (hl : t.backups.getLast? = some b)
    (hc1 : c ≠ JSValue.undefined) (hc2 : c ≠ JSValue.null)
    (hb1 : b.data ≠ JSValue.undefined) (hb2 : b.data ≠ JSValue.null)
    (hcu : c.get "userData" = u) (hca : c.get "appState" = a)
    (hbu : b.data.get "userData" = u) (hba : b.data.get "appState" = a)
    (hu : u ≠ JSValue.undefined ∧ u ≠ JSValue.null)
    (ha : a ≠ JSValue.undefined ∧ a ≠ JSValue.null)
    (h1 : isPrimitive (u.get "confidenceScore") = true)
    (h2 : isPrimitive (u.get "challengesCompleted") = true)
    (h3 : isPrimitive (u.get "streak") = true)
    (h4 : ∃ n, length? (u.get "achievements") = some n ∧ isPrimitive n = true)
    (h5 : isPrimitive (a.get "currentView") = true) :
    hasDataChanged c t = some false := by
  obtain ⟨n, hn, hnp⟩ := h4
  have ru : ∀ k, readPath c "userData" k = some (u.get k) := by
    intro k
    simp only [readPath, getProp?_of_ne c "userData" hc1 hc2, hcu, Option.some_bind,
      getProp?_of_ne u k hu.1 hu.2]
  have ra : ∀ k, readPath c "appState" k = some (a.get k) := by
    intro k
    simp only [readPath, getProp?_of_ne c "appState" hc1 hc2, hca, Option.some_bind,
      getProp?_of_ne a k ha.1 ha.2]
  have bu : ∀ k, readPath b.data "userData" k = some (u.get k) := by
    intro k
    simp only [readPath, getProp?_of_ne b.data "userData" hb1 hb2, hbu, Option.some_bind,
      getProp?_of_ne u k hu.1 hu.2]
  have ba : ∀ k, readPath b.data "appState" k = some (a.get k) := by
    intro k
    simp only [readPath, getProp?_of_ne b.data "appState" hb1 hb2, hba, Option.some_bind,
      getProp?_of_ne a k ha.1 ha.2]
  simp only [hasDataChanged, hl, pathDiffers, achievementsDiffer, ru, ra, bu, ba,
    Option.some_bind, hn, strictNe_self _ h1, strictNe_self _ h2, strictNe_self _ h3,
    strictNe_self _ hnp, strictNe_self _ h5, Bool.false_eq_true, ↓reduceIte]

/-- Claim C30, for data whose compared properties can be compared.  Let `d` be
JSON-representable, with `userData` and `appState` (neither absent nor `null`),
with `confidenceScore`, `challengesCompleted`, `streak` and `currentView` primitive
or absent, and with `achievements` having a primitive `length`.  With
`maxBackups ≥ 1` and a store that accepts the write, `createBackup(type, d)`
returns a backup that holds `d` and is the last of the list, `hasDataChanged(d)`
is false right after, and `createAutoBackup` in any state with that backup list
whose current `userData` and `appState` are those of `d` returns without adding a
backup. -/
theorem createAutoBackup_idempotent (fuel : Nat) (type : String) (d : JSValue) (s : Sys)
    (hjson : isJson d = true) (hmax : 1 ≤ s.maxBackups)
    (hw : s.writeResult s.writes = WriteResult.ok)
    (hu : d.get "userData" ≠ JSValue.undefined ∧ d.get "userData" ≠ JSValue.null)
    (ha : d.get "appState" ≠ JSValue.undefined ∧ d.get "appState" ≠ JSValue.null)
    (h1 : isPrimitive ((d.get "userData").get "confidenceScore") = true)
    (h2 : isPrimitive ((d.get "userData").get "challengesCompleted") = true)
    (h3 : isPrimitive ((d.get "userData").get "streak") = true)
    (h4 : ∃ n, length? ((d.get "userData").get "achievements") = some n ∧
      isPrimitive n = true)
    (h5 : isPrimitive ((d.get "appState").get "currentView") = true) :
    ∃ b s', createBackup (fuel + 1) type d s = .ok b s' ∧
      s'.backups.getLast? = some b ∧ b.data = d ∧
      hasDataChanged d s' = some false ∧
      (∀ t : Sys, t.backups = s'.backups →
        (getCurrentData t).1.get "userData" = d.get "userData" →
        (getCurrentData t).1.get "appState" = d.get "appState" →
        createAutoBackup fuel t = .ok () (getCurrentData t).2 ∧
          (getCurrentData t).2.backups = s'.backups) := by
  have hd : d ≠ JSValue.undefined := by
    intro h
    rw [h] at hjson
    simp [isJson] at hjson
  have hd2 : d ≠ JSValue.null := by
    intro h
    rw [h] at hu
    exact hu.1 rfl
  obtain ⟨s1, hs1, hl, _⟩ := createBackup_accepted_fields fuel type d s hd hw
  have hnorm : jsonNormalize d = d := jsonNormalize_of_isJson d hjson
  have hdata : (newBackup type (jsonNormalize d) s).data = d := hnorm
  have hlast : s1.backups.getLast? = some (newBackup type (jsonNormalize d) s) := by
    rw [hl, evictOldest_eq_drop, List.length_append, List.length_singleton,
      List.drop_append_of_le_length (by omega)]
    simp
  have hsame : ∀ (c : JSValue) (t : Sys), t.backups = s1.backups →
      c ≠ JSValue.undefined → c ≠ JSValue.null →
      c.get "userData" = d.get "userData" → c.get "appState" = d.get "appState" →
      hasDataChanged c t = some false := by
    intro c t ht hc1 hc2 hcu hca
    exact hasDataChanged_same c t _ _ _ (by rw [ht]; exact hlast) hc1 hc2
      (by rw [hdata]; exact hd) (by rw [hdata]; exact hd2) hcu hca
      (by rw [hdata]) (by rw [hdata]) hu ha h1 h2 h3 h4 h5
  refine ⟨_, s1, hs1, hlast, hdata, hsame d s1 rfl hd hd2 rfl rfl, ?_⟩
  intro t ht hcu hca
  have hf := getCurrentData_frame t
  have hch : hasDataChanged (getCurrentData t).1 (getCurrentData t).2 = some false := by
    apply hsame _ _ (by rw [hf.1, ht]) _ _ hcu hca
    · simp [getCurrentData]
    · simp [getCurrentData]
  refine ⟨?_, by rw [hf.1, ht]⟩
  simp only [createAutoBackup, hch]

/-- Witness for C30: a profile with numbers, an array of achievements and a view. -/
theorem createAutoBackup_idempotent_witness :
    ∃ b s', createBackup 1 "manual" (profileData []) (freshSys WriteResult.ok) = .ok b s' ∧
      s'.backups.getLast? = some b ∧ b.data = profileData [] ∧
      hasDataChanged (profileData []) s' = some false ∧
      (∀ t : Sys, t.backups = s'.backups →
        (getCurrentData t).1.get "userData" = (profileData []).get "userData" →
        (getCurrentData t).1.get "appState" = (profileData []).get "appState" →
        createAutoBackup 0 t = .ok () (getCurrentData t).2 ∧
          (getCurrentData t).2.backups = s'.backups) :=
  createAutoBackup_idempotent 0 "manual" (profileData []) (freshSys WriteResult.ok)
    (by decide) (by decide) rfl ⟨by decide, by decide⟩ ⟨by decide, by decide⟩
    (by decide) (by decide) (by decide) ⟨.num 0, by decide, by decide⟩ (by decide)

/-- Counterexample to C30 as stated.  (1) `sampleData` is JSON-representable and has
`userData` and `appState`, but no `achievements`: right after
`createBackup('manual', sampleData)`, `hasDataChanged(sampleData)` throws a
`TypeError` on `achievements.length`.  (2) In `objectScoreData` the
`confidenceScore` is an object: the clone held by the backup is another object,
`!==` is true, and `hasDataChanged` answers true. -/
theorem hasDataChanged_after_createBackup_not_false :
    (isJson sampleData = true ∧
      ∃ b s', createBackup 1 "manual" sampleData (freshSys WriteResult.ok) = .ok b s' ∧
        s'.backups = [b] ∧ b.data = sampleData ∧
        hasDataChanged sampleData s' = none) ∧
    (isJson objectScoreData = true ∧
      ∃ b s', createBackup 1 "manual" objectScoreData (freshSys WriteResult.ok) = .ok b s' ∧
        s'.backups = [b] ∧ b.data = objectScoreData ∧
        hasDataChanged objectScoreData s' = some true) :=
  ⟨⟨by decide, _, _, rfl, rfl, rfl, rfl⟩, ⟨by decide, _, _, rfl, rfl, rfl, rfl⟩⟩

/-- With the application state equal to the data just backed up, `createAutoBackup`
leaves the list of one backup as it is. -/
theorem createAutoBackup_after_createBackup_adds_nothing :
    ∃ b s' s'', createBackup 1 "manual" (profileData []) (freshSys WriteResult.ok) = .ok b s' ∧
      createAutoBackup 1
        { s' with intelligence := some { userData := profileUser [],
                                         appState := .obj [("currentView", .str "home")] } }
        = .ok () s'' ∧
      s''.backups = [b] :=
  ⟨_, _, _, rfl, rfl, rfl⟩

/-! ## The resurrection protocol of `phoenix-core.js` -/

theorem length_setBackupStatus (backupId status : String) :
    ∀ (l : List Backup), (setBackupStatus backupId status l).length = l.length
  | [] => rfl
  | b :: rest => by
    unfold setBackupStatus
    split
    · rfl
    · simp [length_setBackupStatus backupId status rest]

theorem length_setPointStatus (pointId status : String) :
    ∀ (l : List RecoveryPoint), (setPointStatus pointId status l).length = l.length
  | [] => rfl
  | r :: rest => by
    unfold setPointStatus
    split
    · rfl
    · simp [length_setPointStatus pointId status rest]

/-- A push followed by `if (length > max) shift()` on a list within the limit: the
new entry is last, and the entry at index 0 is removed exactly when the list was
full. -/
theorem Core.shiftIfOver_push {α : Type} (max : Nat) (l : List α) (x : α)
    (h : l.length ≤ max) :
    Core.shiftIfOver max (l ++ [x]) = (if l.length < max then l ++ [x] else l.drop 1 ++ [x]) ∧
    (Core.shiftIfOver max (l ++ [x])).length ≤ max ∨ max = 0 := by
  by_cases hm : max = 0
  · exact Or.inr hm
  · left
    unfold Core.shiftIfOver
    by_cases hlt : l.length < max
    · have h1 : ¬ (l ++ [x]).length > max := by
        simp
        omega
      simp only [h1, hlt, ↓reduceIte]
      simp
      omega
    · have h1 : (l ++ [x]).length > max := by
        simp
        omega
      have hne : l ≠ [] := by
        intro h0
        rw [h0] at hlt
        simp at hlt
        exact hm hlt
      simp only [h1, hlt, ↓reduceIte]
      cases l with
      | nil => exact absurd rfl hne
      | cons y ys =>
        simp at h ⊢
        omega

/-- Every call keeps both lists within their limits. -/
theorem Core.Call.run_bounded (c : Core.Call) (p : Core.Protocol)
    (h : p.backups.length ≤ 10 ∧ p.recoveryPoints.length ≤ 5) :
    (c.run p).backups.length ≤ 10 ∧ (c.run p).recoveryPoints.length ≤ 5 := by
  cases c with
  | createBackup data type =>
    simp only [Core.Call.run, Core.createBackup]
    split
    · exact h
    · refine ⟨?_, h.2⟩
      have hp := Core.shiftIfOver_push 10 p.backups
        { id := (Core.generateBackupId p).1,
          timestamp := (Core.readClock (Core.generateBackupId p).2).1,
          type := if argFalsy type then "full" else type.getD "full",
          data := by assumption, status := "valid" } h.1
      rcases hp with hp | hp
      · exact hp.2
      · omega
  | createRecoveryPoint name data =>
    simp only [Core.Call.run, Core.createRecoveryPoint]
    split
    · exact h
    · refine ⟨h.1, ?_⟩
      have hp := Core.shiftIfOver_push 5 p.recoveryPoints
        { id := (Core.generateRecoveryPointId p).1, name := name,
          timestamp := (Core.readClock (Core.generateRecoveryPointId p).2).1,
          data := by assumption, status := "valid" } h.2
      rcases hp with hp | hp
      · exact hp.2
      · omega
  | invalidateBackup backupId =>
    simp only [Core.Call.run, Core.invalidateBackup, length_setBackupStatus]
    exact h
  | invalidateRecoveryPoint pointId =>
    simp only [Core.Call.run, Core.invalidateRecoveryPoint, length_setPointStatus]
    exact h

/-- Every sequence of calls keeps both lists within their limits. -/
theorem Core.runAll_bounded : ∀ (calls : List Core.Call) (p : Core.Protocol),
    p.backups.length ≤ 10 ∧ p.recoveryPoints.length ≤ 5 →
    (Core.runAll calls p).backups.length ≤ 10 ∧
      (Core.runAll calls p).recoveryPoints.length ≤ 5
  | [], _, h => h
  | c :: rest, p, h => by
    have h1 := Core.Call.run_bounded c p h
    exact Core.runAll_bounded rest (c.run p) h1

/-- The protocol starts with one `initial` backup and one `initialization` recovery
point, both `valid`. -/
theorem Core.initResurrectionProtocol_lists (env : Core.Protocol) :
    (Core.initResurrectionProtocol env).backups.map (fun b => (b.type, b.status))
      = [("initial", "valid")] ∧
    (Core.initResurrectionProtocol env).recoveryPoints.map (fun r => (r.name, r.status))
      = [("initialization", "valid")] := by
  constructor <;> rfl

/-- Claim C26.  The protocol of `phoenix-core.js` starts with one `initial` backup and
one `initialization` recovery point; after every sequence of `createBackup`,
`createRecoveryPoint`, `invalidateBackup` and `invalidateRecoveryPoint` calls it
holds at most 10 backups and at most 5 recovery points; and in every state so
reached a `createBackup` or `createRecoveryPoint` that returns appends its
snapshot and, exactly when the list was full, removes the entry at index 0. -/
theorem core_lists_stay_bounded (env : Core.Protocol) (calls : List Core.Call) :
    (Core.initResurrectionProtocol env).backups.map (fun b => (b.type, b.status))
      = [("initial", "valid")] ∧
    (Core.initResurrectionProtocol env).recoveryPoints.map (fun r => (r.name, r.status))
      = [("initialization", "valid")] ∧
    (Core.runAll calls (Core.initResurrectionProtocol env)).backups.length ≤ 10 ∧
    (Core.runAll calls (Core.initResurrectionProtocol env)).recoveryPoints.length ≤ 5 ∧
    (∀ data type b p',
      Core.createBackup data type (Core.runAll calls (Core.initResurrectionProtocol env))
        = (some b, p') →
      p'.backups =
        (if (Core.runAll calls (Core.initResurrectionProtocol env)).backups.length < 10
          then (Core.runAll calls (Core.initResurrectionProtocol env)).backups ++ [b]
          else (Core.runAll calls (Core.initResurrectionProtocol env)).backups.drop 1
            ++ [b]) ∧
      p'.recoveryPoints
        = (Core.runAll calls (Core.initResurrectionProtocol env)).recoveryPoints) ∧
    (∀ name data r p',
      Core.createRecoveryPoint name data
          (Core.runAll calls (Core.initResurrectionProtocol env)) = (some r, p') →
      p'.recoveryPoints =
        (if (Core.runAll calls (Core.initResurrectionProtocol env)).recoveryPoints.length < 5
          then (Core.runAll calls (Core.initResurrectionProtocol env)).recoveryPoints ++ [r]
          else (Core.runAll calls (Core.initResurrectionProtocol env)).recoveryPoints.drop 1
            ++ [r]) ∧
      p'.backups = (Core.runAll calls (Core.initResurrectionProtocol env)).backups) := by
  obtain ⟨hi1, hi2⟩ := Core.initResurrectionProtocol_lists env
  have h0 : (Core.initResurrectionProtocol env).backups.length ≤ 10 ∧
      (Core.initResurrectionProtocol env).recoveryPoints.length ≤ 5 := by
    have e1 := congrArg List.length hi1
    have e2 := congrArg List.length hi2
    simp only [List.length_map, List.length_singleton] at e1 e2
    omega
  have hb := Core.runAll_bounded calls _ h0
  generalize Core.runAll calls (Core.initResurrectionProtocol env) = p at hb ⊢
  refine ⟨hi1, hi2, hb.1, hb.2, ?_, ?_⟩
  · intro data type b p' h
    unfold Core.createBackup at h
    simp only at h
    split at h
    · cases h
    · next copy hc =>
      simp only [Prod.mk.injEq, Option.some.injEq] at h
      obtain ⟨hbdef, hp⟩ := h
      rw [← hp, ← hbdef]
      refine ⟨?_, rfl⟩
      have hpush := Core.shiftIfOver_push 10 p.backups
        { id := (Core.generateBackupId p).1,
          timestamp := (Core.readClock (Core.generateBackupId p).2).1,
          type := if argFalsy type then "full" else type.getD "full",
          data := copy, status := "valid" } hb.1
      rcases hpush with hpush | hpush
      · exact hpush.1
      · omega
  · intro name data r p' h
    unfold Core.createRecoveryPoint at h
    simp only at h
    split at h
    · cases h
    · next copy hc =>
      simp only [Prod.mk.injEq, Option.some.injEq] at h
      obtain ⟨hrdef, hp⟩ := h
      rw [← hp, ← hrdef]
      refine ⟨?_, rfl⟩
      have hpush := Core.shiftIfOver_push 5 p.recoveryPoints
        { id := (Core.generateRecoveryPointId p).1, name := name,
          timestamp := (Core.readClock (Core.generateRecoveryPointId p).2).1,
          data := copy, status := "valid" } hb.2
      rcases hpush with hpush | hpush
      · exact hpush.1
      · omega

/-- Witness for C26: ten more backups on the initial state; the eleventh backup in
all removes the `initial` one, and the ten kept are of type `full`. -/
theorem core_lists_stay_bounded_witness :
    ((Core.runAll (List.replicate 10 (Core.Call.createBackup sampleData none))
        (Core.initResurrectionProtocol Core.sampleEnv)).backups.map (fun b => b.type)
      = List.replicate 10 "full") ∧
    (Core.initResurrectionProtocol Core.sampleEnv).backups.map (fun b => (b.type, b.status))
      = [("initial", "valid")] ∧
    (Core.initResurrectionProtocol Core.sampleEnv).recoveryPoints.map
        (fun r => (r.name, r.status))
      = [("initialization", "valid")] ∧
    (Core.runAll (List.replicate 10 (Core.Call.createBackup sampleData none))
      (Core.initResurrectionProtocol Core.sampleEnv)).backups.length ≤ 10 ∧
    (Core.runAll (List.replicate 10 (Core.Call.createBackup sampleData none))
      (Core.initResurrectionProtocol Core.sampleEnv)).recoveryPoints.length ≤ 5 :=
  ⟨by decide,
    (core_lists_stay_bounded Core.sampleEnv
      (List.replicate 10 (Core.Call.createBackup sampleData none))).1,
    (core_lists_stay_bounded Core.sampleEnv
      (List.replicate 10 (Core.Call.createBackup sampleData none))).2.1,
    (core_lists_stay_bounded Core.sampleEnv
      (List.replicate 10 (Core.Call.createBackup sampleData none))).2.2.1,
    (core_lists_stay_bounded Core.sampleEnv
      (List.replicate 10 (Core.Call.createBackup sampleData none))).2.2.2.1⟩

/-! ## Object identity -/

theorem find?_zip_fst {α β : Type} (p : α → Bool) (x : α) (y : β) :
    ∀ (l : List α) (m : List β), l.length ≤ m.length →
      (l.zip m).find? (fun entry => p entry.1) = some (x, y) → l.find? p = some x
  | [], _, _, h => by simp at h
  | a :: l, [], hlen, _ => by simp at hlen
  | a :: l, b :: m, hlen, h => by
    rw [List.zip_cons_cons, List.find?_cons] at h
    rw [List.find?_cons]
    cases hp : p a with
    | true =>
      simp only [hp] at h
      cases h
      rfl
    | false =>
      simp only [hp] at h
      exact find?_zip_fst p x y l m (by simpa using hlen) h

/-- The addresses do not change what `restoreFromBackup` computes: a call that returns
with addresses returns the same data and ends in the same state without them,
provided every backup has its address. -/
theorem restoreFromBackupAt_sys (fuel : Nat) (backupId : String) (l l' : Located)
    (d : JSValue) (a : Nat) (hlen : l.sys.backups.length ≤ l.backupData.length)
    (h : restoreFromBackupAt fuel backupId l = some ((d, a), l')) :
    restoreFromBackup fuel backupId l.sys = .ok d l'.sys := by
  unfold restoreFromBackupAt at h
  split at h
  · cases h
  · next backup address hfind =>
    have hf := find?_zip_fst (fun (b : Backup) => b.id == backupId) backup address
      l.sys.backups l.backupData hlen hfind
    unfold restoreFromBackup
    rw [hf]
    simp only at h ⊢
    split at h
    · cases h
    · next hvalid =>
      simp only [hvalid, Bool.false_eq_true, ↓reduceIte]
      simp only [createRecoveryPointAt] at h
      cases hc : createRecoveryPoint fuel "preRestore" (getCurrentData l.sys).1
          (getCurrentData l.sys).2 with
      | diverge => rw [hc] at h; cases h
      | throw e s1 => rw [hc] at h; cases h
      | ok r s1 =>
        rw [hc] at h
        simp only [applyRestoredDataAt] at h
        cases ha : applyRestoredData backup.data s1 with
        | diverge => rw [ha] at h; cases h
        | throw e s2 => rw [ha] at h; cases h
        | ok u s2 =>
          rw [ha] at h
          simp only at h
          have hs : l'.sys = s2 ∧ d = backup.data := by
            by_cases hi : s1.intelligence.isSome = true
            · simp only [hi, ↓reduceIte, Option.some.injEq, Prod.mk.injEq] at h
              obtain ⟨⟨hd, _⟩, hl'⟩ := h
              rw [← hl', ← hd]
              exact ⟨rfl, rfl⟩
            · simp only [hi, Bool.false_eq_true, ↓reduceIte, Option.some.injEq,
                Prod.mk.injEq] at h
              obtain ⟨⟨hd, _⟩, hl'⟩ := h
              rw [← hl', ← hd]
              exact ⟨rfl, rfl⟩
          rw [hs.1, hs.2]
          simp only [ha]

/-- The object that `restoreFromBackup` returns is the data object of the backup it
found: its address is the address held for that backup.  The call leaves the
backup list and its addresses as they were. -/
theorem restoreFromBackupAt_alias (fuel : Nat) (backupId : String) (l l' : Located)
    (d : JSValue) (a : Nat)
    (h : restoreFromBackupAt fuel backupId l = some ((d, a), l')) :
    ∃ b, (b, a) ∈ l.sys.backups.zip l.backupData ∧ b.id = backupId ∧ d = b.data ∧
      l'.backupData = l.backupData ∧ l'.sys.backups = l.sys.backups := by
  unfold restoreFromBackupAt at h
  split at h
  · cases h
  · next backup address hfind =>
    have hmem := List.mem_of_find?_eq_some hfind
    have hid : backup.id = backupId := by
      have := List.find?_some hfind
      simpa using this
    simp only at h
    split at h
    · cases h
    · simp only [createRecoveryPointAt] at h
      cases hc : createRecoveryPoint fuel "preRestore" (getCurrentData l.sys).1
          (getCurrentData l.sys).2 with
      | diverge => rw [hc] at h; cases h
      | throw e s1 => rw [hc] at h; cases h
      | ok r s1 =>
        rw [hc] at h
        simp only [applyRestoredDataAt] at h
        obtain ⟨_, _, _, _, _, _, hb1, _⟩ := createRecoveryPoint_ok _ _ _ _ _ _ hc
        cases ha : applyRestoredData backup.data s1 with
        | diverge => rw [ha] at h; cases h
        | throw e s2 => rw [ha] at h; cases h
        | ok u s2 =>
          rw [ha] at h
          obtain ⟨hb2, _⟩ := applyRestoredData_ok _ _ _ _ ha
          have hb : s2.backups = l.sys.backups := by
            rw [hb2, hb1, (getCurrentData_frame l.sys).1]
          simp only at h
          by_cases hi : s1.intelligence.isSome = true
          · simp only [hi, ↓reduceIte, Option.some.injEq, Prod.mk.injEq] at h
            obtain ⟨⟨hd, haddr⟩, hl'⟩ := h
            rw [← hl', ← hd, ← haddr]
            exact ⟨backup, hmem, hid, rfl, rfl, hb⟩
          · simp only [hi, Bool.false_eq_true, ↓reduceIte, Option.some.injEq,
              Prod.mk.injEq] at h
            obtain ⟨⟨hd, haddr⟩, hl'⟩ := h
            rw [← hl', ← hd, ← haddr]
            exact ⟨backup, hmem, hid, rfl, rfl, hb⟩

/-- Claim C25 fails on the code.  `restoreFromBackup` returns the data object of the
backup itself (address 0 below), not a copy: an assignment made through the
returned object, here `returned.userData = null`, changes the data held by the
stored backup, which then fails the structural check.  The other half of the
claim holds on this input: the recovery point made before the restore and the
live `userData` and `appState` are new objects, and an assignment made through
the live `userData` leaves the stored backup and recovery point as they are. -/
theorem restoreFromBackup_returns_stored_object :
    locatedSys.backupData = [0] ∧
    ∃ l1, restoreFromBackupAt 1 "backup-1-0" locatedSys = some ((sampleData, 0), l1) ∧
      l1.backupData = [0] ∧ l1.sys.backups.map (fun b => b.data) = [sampleData] ∧
      (assignAt 0 (fun v => v.setProp "userData" .null) l1).sys.backups.map (fun b => b.data)
        = [sampleData.setProp "userData" .null] ∧
      structurallyValid sampleData = true ∧
      structurallyValid (sampleData.setProp "userData" .null) = false ∧
      l1.pointData = [3] ∧ l1.userData = 4 ∧ l1.appState = 5 ∧
      (assignAt l1.userData (fun _ => .null) l1).sys.backups = l1.sys.backups ∧
      (assignAt l1.userData (fun _ => .null) l1).sys.recoveryPoints
        = l1.sys.recoveryPoints :=
  ⟨rfl, _, rfl, rfl, rfl, rfl, by decide, by decide, rfl, rfl, rfl, rfl, rfl⟩

/-! ## What a repair leaves behind -/

theorem lookup_map_replace (k : String) (v : JSValue) :
    ∀ (props : List (String × JSValue)), (props.lookup k).isSome = true →
      (props.map (fun p => if p.1 == k then (p.1, v) else p)).lookup k = some v
  | [], h => by simp at h
  | (k1, v1) :: rest, h => by
    by_cases hk : k = k1
    · subst hk
      simp [List.lookup_cons]
    · have h1 : (k == k1) = false := by simpa using hk
      have h2 : (k1 == k) = false := by simpa using fun e : k1 = k => hk e.symm
      rw [List.lookup_cons, h1] at h
      simp only [List.map_cons, h2, Bool.false_eq_true, ↓reduceIte, List.lookup_cons, h1]
      exact lookup_map_replace k v rest h

theorem lookup_map_replace_other (k k' : String) (v : JSValue) (hne : k' ≠ k) :
    ∀ (props : List (String × JSValue)),
      (props.map (fun p => if p.1 == k then (p.1, v) else p)).lookup k' = props.lookup k'
  | [] => rfl
  | (k1, v1) :: rest => by
    have ih := lookup_map_replace_other k k' v hne rest
    by_cases hk : k1 = k
    · subst hk
      have h1 : (k' == k1) = false := by simpa using hne
      simp only [List.map_cons, beq_self_eq_true, ↓reduceIte, List.lookup_cons, h1]
      exact ih
    · have h2 : (k1 == k) = false := by simpa using hk
      simp only [List.map_cons, h2, Bool.false_eq_true, ↓reduceIte, List.lookup_cons]
      rw [ih]

theorem lookup_append_new (k k' : String) (v : JSValue) :
    ∀ (props : List (String × JSValue)),
      (props ++ [(k, v)]).lookup k'
        = match props.lookup k' with
          | some w => some w
          | none => if k' == k then some v else none
  | [] => by
    simp only [List.nil_append, List.lookup_cons, List.lookup_nil]
    cases k' == k <;> rfl
  | (k1, v1) :: rest => by
    have ih := lookup_append_new k k' v rest
    simp only [List.cons_append, List.lookup_cons]
    cases k' == k1
    · exact ih
    · rfl

/-- Reading back the property that an assignment wrote. -/
theorem lookup_assignProp_same (props : List (String × JSValue)) (k : String)
    (v : JSValue) : (assignProp props k v).lookup k = some v := by
  unfold assignProp
  by_cases h : (props.lookup k).isSome = true
  · simp only [h, ↓reduceIte, lookup_map_replace k v props h]
  · simp only [h, Bool.false_eq_true, ↓reduceIte, lookup_append_new]
    have hn : props.lookup k = none := by
      cases hl : props.lookup k with
      | none => rfl
      | some w => rw [hl] at h; simp at h
    simp [hn]

/-- Reading another property than the one that an assignment wrote. -/
theorem lookup_assignProp_other (props : List (String × JSValue)) (k k' : String)
    (v : JSValue) (hne : k' ≠ k) : (assignProp props k v).lookup k' = props.lookup k' := by
  unfold assignProp
  by_cases h : (props.lookup k).isSome = true
  · simp only [h, ↓reduceIte, lookup_map_replace_other k k' v hne props]
  · simp only [h, Bool.false_eq_true, ↓reduceIte, lookup_append_new]
    have h1 : (k' == k) = false := by simpa using hne
    cases props.lookup k' <;> simp [h1]

/-- Reading back the property that `setProp` wrote on an object or an array. -/
theorem get_setProp_same (d : JSValue) (k : String) (v : JSValue)
    (hd : isPrimitive d = false) : (d.setProp k v).get k = v := by
  cases d with
  | obj props =>
    simp only [JSValue.setProp, JSValue.get, lookup_assignProp_same, Option.getD_some]
  | arr items =>
    simp only [JSValue.setProp, JSValue.get, lookup_assignProp_same, Option.getD_some]
  | arrWith items props =>
    simp only [JSValue.setProp, JSValue.get, lookup_assignProp_same, Option.getD_some]
  | _ => simp [isPrimitive] at hd

/-- Reading another property than the one that `setProp` wrote. -/
theorem get_setProp_other (d : JSValue) (k k' : String) (v : JSValue) (hne : k' ≠ k) :
    (d.setProp k v).get k' = d.get k' := by
  cases d with
  | obj props =>
    simp only [JSValue.setProp, JSValue.get, lookup_assignProp_other _ _ _ _ hne]
  | arr items =>
    simp only [JSValue.setProp, JSValue.get, lookup_assignProp_other _ _ _ _ hne,
      List.lookup_nil, Option.getD_none]
  | arrWith items props =>
    simp only [JSValue.setProp, JSValue.get, lookup_assignProp_other _ _ _ _ hne]
  | _ => rfl

/-- An assignment does not turn an object or an array into a primitive, nor a
primitive into an object. -/
theorem isPrimitive_setProp (d : JSValue) (k : String) (v : JSValue) :
    isPrimitive (d.setProp k v) = isPrimitive d := by
  cases d <;> rfl

/-- Objects and arrays are truthy. -/
theorem truthy_of_not_primitive (d : JSValue) (hd : isPrimitive d = false) :
    d.truthy = true := by
  cases d with
  | obj props => rfl
  | arr items => rfl
  | arrWith items props => rfl
  | _ => simp [isPrimitive] at hd

/-- A truthy primitive has no property to read and drops every assignment. -/
theorem primitive_get_setProp (d : JSValue) (hd : isPrimitive d = true) :
    (∀ k, d.get k = JSValue.undefined) ∧ (∀ k v, d.setProp k v = d) := by
  cases d with
  | obj props => simp [isPrimitive] at hd
  | arr items => simp [isPrimitive] at hd
  | arrWith items props => simp [isPrimitive] at hd
  | _ => exact ⟨fun _ => rfl, fun _ _ => rfl⟩

/-- The repairing assignments only read the clock. -/
theorem repairData_frame (data : JSValue) (t : Sys) :
    (repairData data t).2.backups = t.backups ∧
    (repairData data t).2.recoveryPoints = t.recoveryPoints ∧
    (repairData data t).2.writeResult = t.writeResult ∧
    (repairData data t).2.writes = t.writes ∧
    (repairData data t).2.maxBackups = t.maxBackups ∧
    (repairData data t).2.maxRecoveryPoints = t.maxRecoveryPoints := by
  unfold repairData
  simp only
  split_ifs <;> exact ⟨rfl, rfl, rfl, rfl, rfl, rfl⟩

theorem getDefaultUserData_fields (t : Sys) :
    (getDefaultUserData t).1.truthy = true ∧
    (getDefaultUserData t).1.get "confidenceScore" ≠ JSValue.undefined ∧
    (getDefaultUserData t).1.get "challengesCompleted" ≠ JSValue.undefined ∧
    (getDefaultUserData t).1.get "streak" ≠ JSValue.undefined := by
  have h2 : ("challengesCompleted" == "confidenceScore") = false := by decide
  have h3 : ("streak" == "confidenceScore") = false := by decide
  have h4 : ("streak" == "challengesCompleted") = false := by decide
  simp [getDefaultUserData, JSValue.get, List.lookup, JSValue.truthy, h2, h3, h4]

/-- What the repairing assignments achieve on an object or an array: `userData` and
`appState` are truthy afterwards, and `userData` is the old one when that was
truthy. -/
theorem repairData_obj (d : JSValue) (t : Sys) (hd : isPrimitive d = false) :
    ((repairData d t).1.get "appState").truthy = true ∧
    ((repairData d t).1.get "userData").truthy = true ∧
    ((d.get "userData").truthy = true →
      (repairData d t).1.get "userData" = d.get "userData") ∧
    ((d.get "userData").truthy = false →
      (repairData d t).1.get "userData" = (getDefaultUserData t).1) := by
  have hne1 : ("appState" : String) ≠ "userData" := by decide
  have hne2 : ("userData" : String) ≠ "appState" := by decide
  have hA : getDefaultAppState.truthy = true := rfl
  have hU := (getDefaultUserData_fields t).1
  have htr : d.truthy = true := truthy_of_not_primitive d hd
  have hg1 : (d.setProp "userData" (getDefaultUserData t).1).get "appState"
      = d.get "appState" := get_setProp_other _ _ _ _ hne1
  have hg2 : (d.setProp "userData" (getDefaultUserData t).1).get "userData"
      = (getDefaultUserData t).1 := get_setProp_same _ _ _ hd
  by_cases hu : (d.get "userData").truthy = true
  · have hnf : (d.get "userData").truthy = false → False := by
      intro h
      rw [hu] at h
      cases h
    by_cases ha : (d.get "appState").truthy = true
    · have heq : (repairData d t).1 = d := by
        simp only [repairData, htr, hu, ha, ↓reduceIte]
      rw [heq]
      exact ⟨ha, hu, fun _ => rfl, fun h => (hnf h).elim⟩
    · have heq : (repairData d t).1 = d.setProp "appState" getDefaultAppState := by
        simp only [repairData, htr, hu, ha, Bool.false_eq_true, ↓reduceIte]
      rw [heq, get_setProp_same _ _ _ hd, get_setProp_other _ _ _ _ hne2]
      exact ⟨hA, hu, fun _ => rfl, fun h => (hnf h).elim⟩
  · have hfalse : (d.get "userData").truthy = false := by
      simpa using hu
    by_cases ha : (d.get "appState").truthy = true
    · have heq : (repairData d t).1 = d.setProp "userData" (getDefaultUserData t).1 := by
        simp only [repairData, htr, hu, hg1, ha, Bool.false_eq_true, ↓reduceIte]
      rw [heq, hg1, hg2]
      exact ⟨ha, hU, fun h => absurd h hu, fun _ => rfl⟩
    · have heq : (repairData d t).1
          = (d.setProp "userData" (getDefaultUserData t).1).setProp
              "appState" getDefaultAppState := by
        simp only [repairData, htr, hu, hg1, ha, Bool.false_eq_true, ↓reduceIte]
      have hd1 : isPrimitive (d.setProp "userData" (getDefaultUserData t).1) = false := by
        rw [isPrimitive_setProp]
        exact hd
      rw [heq, get_setProp_same _ _ _ hd1, get_setProp_other _ _ _ _ hne2, hg2]
      exact ⟨hA, hU, fun h => absurd h hu, fun _ => rfl⟩

/-- When the repaired data passes the structural check.  Falsy data is replaced by
the defaults and passes.  An object or an array passes exactly when its `userData`
was falsy, and so replaced by the default, or already held the three fields.  A
truthy primitive is left as it is and does not pass. -/
theorem repairData_valid_iff (data : JSValue) (t : Sys) :
    structurallyValid (repairData data t).1 = true ↔
      (data.truthy = false ∨
        (isPrimitive data = false ∧
          ((data.get "userData").truthy = false ∨
            ((data.get "userData").get "confidenceScore" ≠ JSValue.undefined ∧
              (data.get "userData").get "challengesCompleted" ≠ JSValue.undefined ∧
              (data.get "userData").get "streak" ≠ JSValue.undefined)))) := by
  have hfalsy : ∀ d : JSValue, d.truthy = false →
      repairData d t = repairData (.obj []) t := by
    intro d hd
    have h0 : (JSValue.obj []).truthy = true := rfl
    unfold repairData
    simp only [hd, h0, Bool.false_eq_true, ↓reduceIte]
  have hempty : structurallyValid (repairData (.obj []) t).1 = true := by
    obtain ⟨h1, h2, _, h4⟩ := repairData_obj (.obj []) t rfl
    obtain ⟨_, f1, f2, f3⟩ := getDefaultUserData_fields t
    rw [structurallyValid_iff, h4 rfl]
    exact ⟨h1, by rw [← h4 rfl]; exact h2, f1, f2, f3⟩
  have hprim : ∀ d : JSValue, d.truthy = true → isPrimitive d = true →
      structurallyValid (repairData d t).1 = false := by
    intro d hd hp
    obtain ⟨hget, hset⟩ := primitive_get_setProp d hp
    have hund : JSValue.undefined.truthy = false := rfl
    have heq : (repairData d t).1 = d := by
      simp only [repairData, hd, ↓reduceIte, hget, hund, Bool.false_eq_true, hset]
    rw [heq]
    cases hsv : structurallyValid d with
    | false => rfl
    | true =>
      have hv := (structurallyValid_iff d).1 hsv
      rw [hget] at hv
      rw [hund] at hv
      exact absurd hv.1 (by decide)
  by_cases htr : data.truthy = true
  · by_cases hobj : isPrimitive data = false
    · obtain ⟨h1, h2, h3, h4⟩ := repairData_obj data t hobj
      obtain ⟨_, f1, f2, f3⟩ := getDefaultUserData_fields t
      rw [structurallyValid_iff]
      by_cases hu : (data.get "userData").truthy = true
      · rw [h3 hu]
        constructor
        · intro h
          exact Or.inr ⟨hobj, Or.inr ⟨h.2.2.1, h.2.2.2.1, h.2.2.2.2⟩⟩
        · intro h
          rcases h with h | ⟨_, h | h⟩
          · rw [htr] at h; cases h
          · rw [hu] at h; cases h
          · exact ⟨h1, hu, h.1, h.2.1, h.2.2⟩
      · have hfalse : (data.get "userData").truthy = false := by
          simpa using hu
        rw [h4 hfalse]
        constructor
        · intro _
          exact Or.inr ⟨hobj, Or.inl hfalse⟩
        · intro _
          exact ⟨h1, (getDefaultUserData_fields t).1, f1, f2, f3⟩
    · have hp : isPrimitive data = true := by simpa using hobj
      rw [hprim data htr hp]
      constructor
      · intro h; cases h
      · intro h
        rcases h with h | ⟨h, _⟩
        · rw [htr] at h; cases h
        · exact absurd h hobj
  · have hfalse : data.truthy = false := by simpa using htr
    rw [hfalsy data hfalse, hempty]
    exact ⟨fun _ => Or.inl hfalse, fun _ => rfl⟩

/-- With a store that accepts every write, `validateRecoveryPoint` returns and leaves
the backup list and the store's answers as they are. -/
theorem validateRecoveryPoint_total (fuel : Nat) (pointId : String) (s : Sys)
    (hstore : ∀ n, s.writeResult n = WriteResult.ok) :
    ∃ v s1, validateRecoveryPoint (fuel + 1) pointId s = .ok v s1 ∧
      s1.backups = s.backups ∧ s1.writeResult = s.writeResult ∧
      s1.maxBackups = s.maxBackups := by
  unfold validateRecoveryPoint
  split
  · exact ⟨false, s, rfl, rfl, rfl, rfl⟩
  · split
    · exact ⟨true, s, rfl, rfl, rfl, rfl⟩
    · rw [saveRecoveryPoints_accepted fuel
        { s with recoveryPoints := setPointStatus pointId "invalid" s.recoveryPoints }
        (hstore _)]
      exact ⟨false, _, rfl, rfl, rfl, rfl⟩

/-- With a store that accepts every write, the callback of the loop over the recovery
points returns and leaves the backup list and the store's answers as they are. -/
theorem repairPointAt_total (fuel index : Nat) (s : Sys) (st : Loop RecoveryPoint)
    (hstore : ∀ n, s.writeResult n = WriteResult.ok) :
    ∃ st' s', repairPointAt (fuel + 1) index s st = .ok st' s' ∧
      s'.backups = s.backups ∧ s'.writeResult = s.writeResult ∧
      s'.maxBackups = s.maxBackups := by
  unfold repairPointAt
  simp only
  split
  · exact ⟨st, s, rfl, rfl, rfl, rfl⟩
  · next tag point _ =>
    obtain ⟨v, s1, hv, hb, hw, hm⟩ := validateRecoveryPoint_total fuel point.id s hstore
    rw [hv]
    cases v with
    | true => exact ⟨st, s1, rfl, hb, hw, hm⟩
    | false =>
      simp only
      obtain ⟨f1, _, f3, _, f5, _⟩ := repairData_frame point.data (readClock s1).2
      split
      · refine ⟨_, _, rfl, ?_, ?_, ?_⟩
        · exact f1.trans hb
        · exact f3.trans hw
        · exact f5.trans hm
      · exact ⟨_, _, rfl, hb, hw, hm⟩

/-- With a store that accepts every write, the loop over the recovery points returns
and leaves the backup list and the store's answers as they are. -/
theorem repairPoints_total (fuel : Nat) : ∀ (indices : List Nat) (s : Sys)
    (st : Loop RecoveryPoint), (∀ n, s.writeResult n = WriteResult.ok) →
    ∃ st' s', repairPoints (fuel + 1) indices s st = .ok st' s' ∧
      s'.backups = s.backups ∧ s'.writeResult = s.writeResult ∧
      s'.maxBackups = s.maxBackups
  | [], s, st, _ => ⟨st, s, rfl, rfl, rfl, rfl⟩
  | index :: rest, s, st, hstore => by
    obtain ⟨st1, s1, h1, hb1, hw1, hm1⟩ := repairPointAt_total fuel index s st hstore
    have hstore1 : ∀ n, s1.writeResult n = WriteResult.ok := by
      intro n
      rw [hw1]
      exact hstore n
    obtain ⟨st2, s2, h2, hb2, hw2, hm2⟩ := repairPoints_total fuel rest s1 st1 hstore1
    refine ⟨st2, s2, ?_, hb2.trans hb1, hw2.trans hw1, hm2.trans hm1⟩
    simp only [repairPoints, h1]
    exact h2

/-- The storage check at the end of `repairSystem` leaves the lists as they are. -/
theorem repairStorage_frame (s : Sys) :
    (repairStorage s).2.backups = s.backups ∧
    (repairStorage s).2.recoveryPoints = s.recoveryPoints := by
  unfold repairStorage
  split <;> exact ⟨rfl, rfl⟩

/-- The loop over the backups on a list of one backup `b`, with a store that accepts
every write: `b` is left alone when it passes the structural check; otherwise it
is repaired and marked `valid` when it is less than 24 hours old, and removed
when it is not. -/
theorem repairBackups_single (fuel : Nat) (s : Sys) (b : Backup) (hb : s.backups = [b])
    (hstore : ∀ n, s.writeResult n = WriteResult.ok) :
    ∃ st1 s1, repairBackups (fuel + 1) (List.range s.backups.length) s
        { tags := List.range s.backups.length, detached := none, repaired := 0, removed := 0 }
        = .ok st1 s1 ∧
      s1.writeResult = s.writeResult ∧ s1.maxBackups = s.maxBackups ∧
      (structurallyValid b.data = true → s1.backups = [b]) ∧
      (structurallyValid b.data = false →
        s.clock s.clockReads - b.timestamp < 24 * 60 * 60 * 1000 →
        ∃ t, s1.backups = [{ b with data := (repairData b.data t).1, status := "valid" }]) ∧
      (structurallyValid b.data = false →
        ¬ s.clock s.clockReads - b.timestamp < 24 * 60 * 60 * 1000 →
        s1.backups = []) := by
  have hrange : List.range s.backups.length = [0] := by
    rw [hb]
    rfl
  have hfind : s.backups.find? (fun c => c.id == b.id) = some b := by
    rw [hb]
    simp
  rw [hrange]
  simp only [repairBackups]
  cases hsv : structurallyValid b.data with
  | true =>
    have hstep : repairBackupAt (fuel + 1) 0 s
        { tags := [0], detached := none, repaired := 0, removed := 0 }
        = .ok { tags := [0], detached := none, repaired := 0, removed := 0 } s := by
      unfold repairBackupAt
      simp only [hb, List.zip_cons_cons, List.zip_nil_right, List.getElem?_cons_zero]
      simp only [validateBackup, hb, List.find?_cons, beq_self_eq_true, hsv, ↓reduceIte]
    rw [hstep]
    refine ⟨_, s, rfl, rfl, rfl, fun _ => hb, ?_, ?_⟩
    · intro h
      cases h
    · intro h
      cases h
  | false =>
    have hset : setBackupStatus b.id "invalid" s.backups = [{ b with status := "invalid" }] := by
      rw [hb]
      simp [setBackupStatus]
    have hval : ∃ s1, validateBackup (fuel + 1) b.id s = .ok false s1 ∧
        s1.backups = [{ b with status := "invalid" }] ∧ s1.writeResult = s.writeResult ∧
        s1.maxBackups = s.maxBackups ∧ s1.clock = s.clock ∧ s1.clockReads = s.clockReads := by
      simp only [validateBackup, hfind, hsv, Bool.false_eq_true, ↓reduceIte]
      rw [saveBackups_accepted fuel
        { s with backups := setBackupStatus b.id "invalid" s.backups } (hstore _)]
      exact ⟨_, rfl, hset, rfl, rfl, rfl, rfl⟩
    obtain ⟨s1, hv, hb1, hw1, hm1, hc1, hr1⟩ := hval
    have hwalk : ([0].zip s.backups)[0]? = some (0, b) := by
      rw [hb]
      rfl
    unfold repairBackupAt
    simp only [hwalk, hv]
    have hnow : (readClock s1).1 = s.clock s.clockReads := by
      simp only [readClock, hc1, hr1]
    obtain ⟨f1, _, f3, _, f5, _⟩ := repairData_frame b.data (readClock s1).2
    have hdrop : List.drop (s.backups.length - s1.backups.length) [0] = [0] := by
      rw [hb, hb1]
      rfl
    by_cases hrec : s.clock s.clockReads - b.timestamp < 24 * 60 * 60 * 1000
    · simp only [hnow, hrec, ↓reduceIte]
      refine ⟨_, _, rfl, f3.trans hw1, f5.trans hm1, ?_, ?_, ?_⟩
      · intro h
        cases h
      · intro _ _
        refine ⟨(readClock s1).2, ?_⟩
        have hbk : (repairData b.data (readClock s1).2).2.backups
            = [{ b with status := "invalid" }] := f1.trans hb1
        simp only [hdrop, hbk, updateTagged, ↓reduceIte]
      · intro _ h
        exact absurd trivial h
    · simp only [hnow, hrec, ↓reduceIte]
      refine ⟨_, _, rfl, hw1, hm1, ?_, ?_, ?_⟩
      · intro h
        cases h
      · intro _ h
        exact h.elim
      · intro _ _
        show (readClock s1).2.backups.eraseIdx 0 = []
        have hbk : (readClock s1).2.backups = [{ b with status := "invalid" }] := hb1
        rw [hbk]
        rfl

/-- The end of `repairSystem`, after the two loops, with a store that accepts every
write: a backup list that is not empty is left as the loops made it, and an empty
one receives the initial backup, which passes the structural check. -/
theorem repairSystem_after_loops (fuel : Nat) (s s1 s2 : Sys) (bl : Loop Backup)
    (pl : Loop RecoveryPoint)
    (h1 : repairBackups (fuel + 1) (List.range s.backups.length) s
        { tags := List.range s.backups.length, detached := none, repaired := 0, removed := 0 }
        = .ok bl s1)
    (h2 : repairPoints (fuel + 1) (List.range s1.recoveryPoints.length) s1
        { tags := List.range s1.recoveryPoints.length, detached := none,
          repaired := 0, removed := 0 } = .ok pl s2)
    (hstore : ∀ n, s2.writeResult n = WriteResult.ok) :
    ∃ r s', repairSystem (fuel + 1) s = .ok r s' ∧
      (s2.backups ≠ [] → s'.backups = s2.backups) ∧
      (s2.backups = [] → 1 ≤ s2.maxBackups →
        ∃ c, s'.backups = [c] ∧ c.type = "initial" ∧ c.status = "valid" ∧
          structurallyValid c.data = true) := by
  unfold repairSystem
  rw [h1]
  simp only
  rw [h2]
  simp only
  have hsave : ∃ s4, (match saveBackups (fuel + 1) s2 with
      | none => none
      | some s3 => saveRecoveryPoints (fuel + 1) s3) = some s4 ∧
      s4.backups = s2.backups ∧ s4.writeResult = s2.writeResult ∧
      s4.maxBackups = s2.maxBackups := by
    rw [saveBackups_accepted fuel s2 (hstore _)]
    simp only
    rw [saveRecoveryPoints_accepted fuel
      { s2 with writes := s2.writes + 1,
                storedBackups := some (s2.backups.map Backup.toJSON) } (hstore _)]
    exact ⟨_, rfl, rfl, rfl, rfl⟩
  obtain ⟨s4, hs4, hb4, hw4, hm4⟩ := hsave
  cases h3 : saveBackups (fuel + 1) s2 with
  | none => rw [h3] at hs4; cases hs4
  | some s3 =>
    rw [h3] at hs4
    simp only at hs4 ⊢
    rw [hs4]
    simp only
    have hstore4 : ∀ n, s4.writeResult n = WriteResult.ok := by
      intro n
      rw [hw4]
      exact hstore n
    have phase2 : ∀ s5 : Sys, (∀ n, s5.writeResult n = WriteResult.ok) →
        ∃ r6 t6, createInitialRecoveryPoint (fuel + 1) s5 = .ok r6 t6 ∧
          t6.backups = s5.backups := by
      intro s5 hstore5
      obtain ⟨hd, _, hwr, _, hbk, _⟩ := defaultData_spec s5
      obtain ⟨t6, ht6, _, _, _, _, _, _, hb6, _⟩ := createRecoveryPoint_accepted_fields fuel
        "initialization" (defaultData s5).1 (defaultData s5).2 hd
        (by rw [hwr]; exact hstore5 _)
      exact ⟨_, t6, ht6, hb6.trans hbk⟩
    obtain ⟨hd4, hv4, hwr4, _, hbk4, _, hmb4, _⟩ := defaultData_spec s4
    by_cases he : s2.backups = []
    · have hlen : s4.backups.length = 0 := by rw [hb4, he]; rfl
      obtain ⟨t5, ht5, hl5, _, _, hw5, _⟩ := createBackup_accepted_fields fuel "initial"
        (defaultData s4).1 (defaultData s4).2 hd4 (by rw [hwr4]; exact hstore4 _)
      have hstore5 : ∀ n, t5.writeResult n = WriteResult.ok := by
        intro n
        rw [hw5, hwr4]
        exact hstore4 n
      have hc5 : 1 ≤ s2.maxBackups → t5.backups
          = [newBackup "initial" (jsonNormalize (defaultData s4).1) (defaultData s4).2] := by
        intro hmax
        rw [hl5, hbk4, hb4, he, hmb4, hm4, evictOldest_eq_drop, List.nil_append,
          List.length_singleton, show 1 - s2.maxBackups = 0 by omega, List.drop_zero]
      obtain ⟨r6, t6, ht6, hb6⟩ := phase2 t5 hstore5
      simp only [hlen, ↓reduceIte, createInitialBackup, ht5]
      by_cases hp : t5.recoveryPoints.length = 0
      · simp only [hp, ↓reduceIte, ht6]
        refine ⟨_, _, rfl, fun hne => absurd he hne, fun _ hmax => ?_⟩
        exact ⟨newBackup "initial" (jsonNormalize (defaultData s4).1) (defaultData s4).2,
          (repairStorage_frame t6).1.trans (hb6.trans (hc5 hmax)), rfl, rfl, hv4⟩
      · simp only [hp, ↓reduceIte]
        refine ⟨_, _, rfl, fun hne => absurd he hne, fun _ hmax => ?_⟩
        exact ⟨newBackup "initial" (jsonNormalize (defaultData s4).1) (defaultData s4).2,
          (repairStorage_frame t5).1.trans (hc5 hmax), rfl, rfl, hv4⟩
    · have hlen : s4.backups.length ≠ 0 := by
        rw [hb4]
        intro h0
        exact he (List.length_eq_zero.1 h0)
      obtain ⟨r6, t6, ht6, hb6⟩ := phase2 s4 hstore4
      simp only [hlen, ↓reduceIte]
      by_cases hp : s4.recoveryPoints.length = 0
      · simp only [hp, ↓reduceIte, ht6]
        exact ⟨_, _, rfl, fun _ => (repairStorage_frame t6).1.trans (hb6.trans hb4),
          fun h => absurd h he⟩
      · simp only [hp, ↓reduceIte]
        exact ⟨_, _, rfl, fun _ => (repairStorage_frame s4).1.trans hb4,
          fun h => absurd h he⟩

/-- Claim C28, as the code has it, for a list of one backup `b` and a store that accepts
every write.  `repairSystem` returns.  When `b` passes the structural check it is
left as it is.  When it fails and is less than 24 hours old, it is kept with
status `valid` and with its data repaired by the three assignments, and it passes
the structural check afterwards exactly when its data was falsy, or was an
object or an array whose `userData` was falsy or already held `confidenceScore`,
`challengesCompleted` and `streak`.  When it fails and is not less than 24 hours
old, it is removed and the list receives one `initial` backup, which is `valid`
and passes the check. -/
theorem repairSystem_single_backup (fuel : Nat) (s : Sys) (b : Backup)
    (hb : s.backups = [b]) (hmax : 1 ≤ s.maxBackups)
    (hstore : ∀ n, s.writeResult n = WriteResult.ok) :
    ∃ r s', repairSystem (fuel + 1) s = .ok r s' ∧
      (structurallyValid b.data = true → s'.backups = [b]) ∧
      (structurallyValid b.data = false →
        s.clock s.clockReads - b.timestamp < 24 * 60 * 60 * 1000 →
        ∃ t, s'.backups = [{ b with data := (repairData b.data t).1, status := "valid" }] ∧
          (structurallyValid (repairData b.data t).1 = true ↔
            (b.data.truthy = false ∨
              (isPrimitive b.data = false ∧
                ((b.data.get "userData").truthy = false ∨
                  ((b.data.get "userData").get "confidenceScore" ≠ JSValue.undefined ∧
                    (b.data.get "userData").get "challengesCompleted" ≠ JSValue.undefined ∧
                    (b.data.get "userData").get "streak" ≠ JSValue.undefined)))))) ∧
      (structurallyValid b.data = false →
        ¬ s.clock s.clockReads - b.timestamp < 24 * 60 * 60 * 1000 →
        ∃ c, s'.backups = [c] ∧ c.type = "initial" ∧ c.status = "valid" ∧
          structurallyValid c.data = true) := by
  obtain ⟨bl, s1, h1, hw1, hm1, hvalid, hrecent, hold⟩ := repairBackups_single fuel s b hb hstore
  have hstore1 : ∀ n, s1.writeResult n = WriteResult.ok := by
    intro n
    rw [hw1]
    exact hstore n
  obtain ⟨pl, s2, h2, hb2, hw2, hm2⟩ := repairPoints_total fuel
    (List.range s1.recoveryPoints.length) s1
    { tags := List.range s1.recoveryPoints.length, detached := none,
      repaired := 0, removed := 0 } hstore1
  have hstore2 : ∀ n, s2.writeResult n = WriteResult.ok := by
    intro n
    rw [hw2]
    exact hstore1 n
  obtain ⟨r, s', hrun, hkeep, hnew⟩ := repairSystem_after_loops fuel s s1 s2 bl pl h1 h2 hstore2
  refine ⟨r, s', hrun, ?_, ?_, ?_⟩
  · intro hsv
    have hs1 := hvalid hsv
    rw [hkeep (by rw [hb2, hs1]; simp), hb2, hs1]
  · intro hsv hrec
    obtain ⟨t, ht⟩ := hrecent hsv hrec
    refine ⟨t, ?_, repairData_valid_iff b.data t⟩
    rw [hkeep (by rw [hb2, ht]; simp), hb2, ht]
  · intro hsv hrec
    have hs1 := hold hsv hrec
    exact hnew (by rw [hb2, hs1]) (by rw [hm2, hm1]; exact hmax)

/-- Witness for C28: a backup taken a second ago whose data is the array `[1]`. -/
theorem repairSystem_single_backup_witness :
    structurallyValid (.arr [.num 1]) = false ∧
    ∃ r s', repairSystem 1 recentArraySys = .ok r s' ∧
      (structurallyValid (.arr [.num 1]) = true →
        s'.backups = [{ id := "backup-1-0", type := "auto", timestamp := 99999000,
                        data := .arr [.num 1], status := "valid" }]) ∧
      (structurallyValid (.arr [.num 1]) = false →
        recentArraySys.clock recentArraySys.clockReads - 99999000 < 24 * 60 * 60 * 1000 →
        ∃ t, s'.backups = [{ id := "backup-1-0", type := "auto", timestamp := 99999000,
                             data := (repairData (.arr [.num 1]) t).1, status := "valid" }] ∧
          (structurallyValid (repairData (.arr [.num 1]) t).1 = true ↔
            ((JSValue.arr [.num 1]).truthy = false ∨
              (isPrimitive (.arr [.num 1]) = false ∧
                (((JSValue.arr [.num 1]).get "userData").truthy = false ∨
                  (((JSValue.arr [.num 1]).get "userData").get "confidenceScore"
                      ≠ JSValue.undefined ∧
                    ((JSValue.arr [.num 1]).get "userData").get "challengesCompleted"
                      ≠ JSValue.undefined ∧
                    ((JSValue.arr [.num 1]).get "userData").get "streak"
                      ≠ JSValue.undefined)))))) ∧
      (structurallyValid (.arr [.num 1]) = false →
        ¬ recentArraySys.clock recentArraySys.clockReads - 99999000
          < 24 * 60 * 60 * 1000 →
        ∃ c, s'.backups = [c] ∧ c.type = "initial" ∧ c.status = "valid" ∧
          structurallyValid c.data = true) :=
  ⟨by decide,
    repairSystem_single_backup 0 recentArraySys
      { id := "backup-1-0", type := "auto", timestamp := 99999000,
        data := .arr [.num 1], status := "valid" } rfl (by decide) (fun _ => rfl)⟩

/-- The repair of a recent backup whose data is the array `[1]`: the assignments attach
the default `userData` and `appState` to the array, and the backup, set to `valid`,
passes the structural check. -/
theorem repairSystem_repairs_array :
    ∃ r s' u, repairSystem 1 recentArraySys = .ok r s' ∧
      s'.backups = [{ id := "backup-1-0", type := "auto", timestamp := 99999000,
                      data := .arrWith [.num 1]
                        [("userData", u), ("appState", getDefaultAppState)],
                      status := "valid" }] ∧
      structurallyValid
        (.arrWith [.num 1] [("userData", u), ("appState", getDefaultAppState)]) = true ∧
      jsonNormalize (.arrWith [.num 1] [("userData", u), ("appState", getDefaultAppState)])
        = .arr [.num 1] ∧
      r.backupsRepaired = 1 :=
  ⟨_, _, _, rfl, rfl, by decide, rfl, rfl⟩

/-- Counterexample to C28 as stated: the only backup is a second old and its `userData`
lacks `confidenceScore`.  `validateBackup` marks it `invalid`, the repair finds
`userData` and `appState` in place, fills nothing and sets the status to `valid`:
after `repairSystem` the backup has status `valid` and fails the structural
check. -/
theorem repairSystem_marks_unrepaired_valid :
    ∃ r s', repairSystem 1 recentNoScoreSys = .ok r s' ∧
      s'.backups = [{ id := "backup-1-0", type := "auto", timestamp := 99999000,
                      data := noScoreData, status := "valid" }] ∧
      structurallyValid noScoreData = false ∧
      r.backupsRepaired = 1 ∧ r.overallSuccess = true :=
  ⟨_, _, rfl, rfl, by decide, rfl, rfl⟩

/-! ## When the automatic backup creates a backup -/

/-- The comparison `a !== b` of a live value with a value held by a snapshot is true
exactly when the two values are unequal or the live one is an array or an object,
which is identical to no value of a snapshot. -/
theorem strictNe_iff (a b : JSValue) :
    strictNe a b = true ↔ (a ≠ b ∨ isPrimitive a = false) := by
  cases a <;> cases b <;> simp [strictNe, isPrimitive]

/-- When `createAutoBackup` does not throw a `TypeError`, the comparison of
`hasDataChanged` has an answer. -/
theorem hasDataChanged_of_no_typeError (fuel : Nat) (s : Sys)
    (h : ∀ t, createAutoBackup fuel s ≠ .throw JSError.typeError t) :
    ∃ r, hasDataChanged (getCurrentData s).1 (getCurrentData s).2 = some r := by
  cases hr : hasDataChanged (getCurrentData s).1 (getCurrentData s).2 with
  | some r => exact ⟨r, rfl⟩
  | none =>
    exfalso
    apply h (getCurrentData s).2
    unfold createAutoBackup
    simp only [hr]

/-- When `hasDataChanged` answers true and the retry of `saveBackups` ends,
`createAutoBackup` is `createBackup('auto', getCurrentData())`, at every depth that
the retry needs. -/
theorem createAutoBackup_creates_ends (fuel : Nat) (s : Sys) (k : Nat)
    (hch : hasDataChanged (getCurrentData s).1 (getCurrentData s).2 = some true)
    (hk : s.writeResult (s.writes + k) ≠ WriteResult.quotaExceeded) :
    ∃ b s', createAutoBackup (k + 1 + fuel) s = .ok () s' ∧
      createBackup (k + 1 + fuel) "auto" (getCurrentData s).1 (getCurrentData s).2
        = .ok b s' := by
  have hf := getCurrentData_frame s
  have hk1 : (getCurrentData s).2.writeResult ((getCurrentData s).2.writes + k)
      ≠ WriteResult.quotaExceeded := by
    rw [hf.2.2.2.2.2.2.2.2.1, hf.2.2.2.2.2.2.2.2.2]
    exact hk
  have hd : (getCurrentData s).1 ≠ JSValue.undefined := by
    intro hu
    have hc := getCurrentData_clonable s
    generalize (getCurrentData s).1 = d at hu hc
    subst hu
    cases hc
  obtain ⟨s1, hb, _⟩ := createBackup_ends "auto" _ _ k hd hk1
  refine ⟨_, s1, ?_, hb fuel⟩
  unfold createAutoBackup
  simp only [hch, hb fuel]

/-- The current data is an object whose `userData` and `appState` are truthy. -/
theorem getCurrentData_fields (s : Sys) :
    (getCurrentData s).1 ≠ JSValue.undefined ∧ (getCurrentData s).1 ≠ JSValue.null ∧
    ((getCurrentData s).1.get "userData").truthy = true ∧
    ((getCurrentData s).1.get "appState").truthy = true := by
  have hk : ("appState" == "userData") = false := by decide
  have hU : ∀ t, (getDefaultUserData t).1.truthy = true := fun t => rfl
  have hA : getDefaultAppState.truthy = true := rfl
  unfold getCurrentData
  simp only [JSValue.get, List.lookup, hk, beq_self_eq_true, Option.getD_some]
  refine ⟨by simp, by simp, ?_, ?_⟩
  · split_ifs with h
    · exact h
    · exact hU s
  · split_ifs with h
    · exact h
    · exact hA

theorem truthy_ne_null (v : JSValue) (h : v.truthy = true) : v ≠ JSValue.null := by
  intro hv
  rw [hv] at h
  simp [JSValue.truthy] at h

theorem length?_of_ne (x : JSValue) (h1 : x ≠ JSValue.undefined) (h2 : x ≠ JSValue.null) :
    ∃ n, length? x = some n := by
  cases x with
  | undefined => exact absurd rfl h1
  | null => exact absurd rfl h2
  | _ => exact ⟨_, rfl⟩

/-- The comparison of `hasDataChanged` has an answer when every object it reads a
property of is there: the data of the last backup, the `userData` and `appState`
of both sides, and the `achievements` of both sides. -/
theorem hasDataChanged_answers (c : JSValue) (t : Sys) (b : Backup)
    (hl : t.backups.getLast? = some b)
    (hc1 : c ≠ JSValue.undefined) (hc2 : c ≠ JSValue.null)
    (hb1 : b.data ≠ JSValue.undefined) (hb2 : b.data ≠ JSValue.null)
    (hcu : c.get "userData" ≠ JSValue.undefined ∧ c.get "userData" ≠ JSValue.null)
    (hca : c.get "appState" ≠ JSValue.undefined ∧ c.get "appState" ≠ JSValue.null)
    (hbu : b.data.get "userData" ≠ JSValue.undefined ∧ b.data.get "userData" ≠ JSValue.null)
    (hba : b.data.get "appState" ≠ JSValue.undefined ∧ b.data.get "appState" ≠ JSValue.null)
    (hcl : (c.get "userData").get "achievements" ≠ JSValue.undefined ∧
      (c.get "userData").get "achievements" ≠ JSValue.null)
    (hbl : (b.data.get "userData").get "achievements" ≠ JSValue.undefined ∧
      (b.data.get "userData").get "achievements" ≠ JSValue.null) :
    ∃ r, hasDataChanged c t = some r := by
  have ru : ∀ k, readPath c "userData" k = some ((c.get "userData").get k) := by
    intro k
    simp only [readPath, getProp?_of_ne c "userData" hc1 hc2, Option.some_bind,
      getProp?_of_ne _ k hcu.1 hcu.2]
  have ra : ∀ k, readPath c "appState" k = some ((c.get "appState").get k) := by
    intro k
    simp only [readPath, getProp?_of_ne c "appState" hc1 hc2, Option.some_bind,
      getProp?_of_ne _ k hca.1 hca.2]
  have bu : ∀ k, readPath b.data "userData" k = some ((b.data.get "userData").get k) := by
    intro k
    simp only [readPath, getProp?_of_ne b.data "userData" hb1 hb2, Option.some_bind,
      getProp?_of_ne _ k hbu.1 hbu.2]
  have ba : ∀ k, readPath b.data "appState" k = some ((b.data.get "appState").get k) := by
    intro k
    simp only [readPath, getProp?_of_ne b.data "appState" hb1 hb2, Option.some_bind,
      getProp?_of_ne _ k hba.1 hba.2]
  obtain ⟨n1, hn1⟩ := length?_of_ne _ hcl.1 hcl.2
  obtain ⟨n2, hn2⟩ := length?_of_ne _ hbl.1 hbl.2
  simp only [hasDataChanged, hl, pathDiffers, achievementsDiffer, ru, ra, bu, ba,
    Option.some_bind, hn1, hn2]
  split_ifs <;> exact ⟨_, rfl⟩

/-- With those objects in place `createAutoBackup` throws no `TypeError`. -/
theorem createAutoBackup_no_typeError (fuel : Nat) (s : Sys) (last : Backup)
    (hl : s.backups.getLast? = some last)
    (hb1 : last.data ≠ JSValue.undefined) (hb2 : last.data ≠ JSValue.null)
    (hbu : last.data.get "userData" ≠ JSValue.undefined ∧
      last.data.get "userData" ≠ JSValue.null)
    (hba : last.data.get "appState" ≠ JSValue.undefined ∧
      last.data.get "appState" ≠ JSValue.null)
    (hbl : (last.data.get "userData").get "achievements" ≠ JSValue.undefined ∧
      (last.data.get "userData").get "achievements" ≠ JSValue.null)
    (hcl : ((getCurrentData s).1.get "userData").get "achievements" ≠ JSValue.undefined ∧
      ((getCurrentData s).1.get "userData").get "achievements" ≠ JSValue.null) :
    ∀ t, createAutoBackup fuel s ≠ .throw JSError.typeError t := by
  obtain ⟨hc1, hc2, hcu, hca⟩ := getCurrentData_fields s
  have hl1 : (getCurrentData s).2.backups.getLast? = some last := by
    rw [(getCurrentData_frame s).1]; exact hl
  obtain ⟨r, hr⟩ := hasDataChanged_answers (getCurrentData s).1 (getCurrentData s).2 last
    hl1 hc1 hc2 hb1 hb2 ⟨truthy_ne_undefined _ hcu, truthy_ne_null _ hcu⟩
    ⟨truthy_ne_undefined _ hca, truthy_ne_null _ hca⟩ hbu hba hcl hbl
  intro t h
  unfold createAutoBackup at h
  simp only [hr] at h
  cases r with
  | false => simp at h
  | true =>
    simp only at h
    split at h
    · cases h
    · next e s1 hcb =>
      simp only [createBackup, getCurrentData_clonable] at hcb
      split at hcb <;> cases hcb
    · cases h

/-- Claim C15, as the code has it, for a store on which the retry of `saveBackups`
ends (write number `k` of the call is not answered with `QuotaExceededError`).  On
an empty list `createAutoBackup` creates a backup of type `auto`.  On a non-empty
list, when the call does not throw a `TypeError` out of a comparison, it creates a
backup of type `auto` when the current data differs from the most recent backup
(the last of the list) in `userData.confidenceScore`,
`userData.challengesCompleted`, `userData.streak`, `userData.achievements.length`
or `appState.currentView`, and it leaves the lists and the store as they are when
none of the five differs: five comparisons, not four.  Two values differ when they
are unequal or when the live one is an array or an object.  The call throws no
`TypeError` when the data of the last backup, its `userData` and `appState`, and
the `achievements` of both sides are neither `undefined` nor `null`. -/
theorem createAutoBackup_spec (fuel : Nat) (s : Sys) (k : Nat)
    (hstore : s.writeResult (s.writes + k) ≠ WriteResult.quotaExceeded) :
    (s.backups = [] →
      ∃ b s', createAutoBackup (k + 1 + fuel) s = .ok () s' ∧ b.type = "auto" ∧
        b.status = "valid" ∧ b.data = jsonNormalize (getCurrentData s).1 ∧
        (1 ≤ s.maxBackups → s'.backups = [b])) ∧
    (∀ last, s.backups.getLast? = some last →
      (∀ t, createAutoBackup (k + 1 + fuel) s ≠ .throw JSError.typeError t) →
      (((((getCurrentData s).1.get "userData").get "confidenceScore"
              ≠ (last.data.get "userData").get "confidenceScore" ∨
            isPrimitive (((getCurrentData s).1.get "userData").get "confidenceScore")
              = false) ∨
          (((getCurrentData s).1.get "userData").get "challengesCompleted"
              ≠ (last.data.get "userData").get "challengesCompleted" ∨
            isPrimitive (((getCurrentData s).1.get "userData").get "challengesCompleted")
              = false) ∨
          (((getCurrentData s).1.get "userData").get "streak"
              ≠ (last.data.get "userData").get "streak" ∨
            isPrimitive (((getCurrentData s).1.get "userData").get "streak") = false) ∨
          (∃ a b, length? (((getCurrentData s).1.get "userData").get "achievements")
              = some a ∧
            length? ((last.data.get "userData").get "achievements") = some b ∧
            (a ≠ b ∨ isPrimitive a = false)) ∨
          (((getCurrentData s).1.get "appState").get "currentView"
              ≠ (last.data.get "appState").get "currentView" ∨
            isPrimitive (((getCurrentData s).1.get "appState").get "currentView")
              = false)) →
        ∃ b s', createAutoBackup (k + 1 + fuel) s = .ok () s' ∧ b.type = "auto" ∧
          b.status = "valid" ∧ b.data = jsonNormalize (getCurrentData s).1 ∧
          (1 ≤ s.maxBackups → ∃ j, j ≤ s.backups.length ∧
            s'.backups = s.backups.drop j ++ [b])) ∧
      (¬ ((((getCurrentData s).1.get "userData").get "confidenceScore"
              ≠ (last.data.get "userData").get "confidenceScore" ∨
            isPrimitive (((getCurrentData s).1.get "userData").get "confidenceScore")
              = false) ∨
          (((getCurrentData s).1.get "userData").get "challengesCompleted"
              ≠ (last.data.get "userData").get "challengesCompleted" ∨
            isPrimitive (((getCurrentData s).1.get "userData").get "challengesCompleted")
              = false) ∨
          (((getCurrentData s).1.get "userData").get "streak"
              ≠ (last.data.get "userData").get "streak" ∨
            isPrimitive (((getCurrentData s).1.get "userData").get "streak") = false) ∨
          (∃ a b, length? (((getCurrentData s).1.get "userData").get "achievements")
              = some a ∧
            length? ((last.data.get "userData").get "achievements") = some b ∧
            (a ≠ b ∨ isPrimitive a = false)) ∨
          (((getCurrentData s).1.get "appState").get "currentView"
              ≠ (last.data.get "appState").get "currentView" ∨
            isPrimitive (((getCurrentData s).1.get "appState").get "currentView")
              = false)) →
        createAutoBackup (k + 1 + fuel) s = .ok () (getCurrentData s).2 ∧
        (getCurrentData s).2.backups = s.backups ∧
        (getCurrentData s).2.recoveryPoints = s.recoveryPoints ∧
        (getCurrentData s).2.storedBackups = s.storedBackups ∧
        (getCurrentData s).2.writes = s.writes)) ∧
    (∀ last, s.backups.getLast? = some last →
      last.data ≠ JSValue.undefined → last.data ≠ JSValue.null →
      (last.data.get "userData" ≠ JSValue.undefined ∧
        last.data.get "userData" ≠ JSValue.null) →
      (last.data.get "appState" ≠ JSValue.undefined ∧
        last.data.get "appState" ≠ JSValue.null) →
      ((last.data.get "userData").get "achievements" ≠ JSValue.undefined ∧
        (last.data.get "userData").get "achievements" ≠ JSValue.null) →
      (((getCurrentData s).1.get "userData").get "achievements" ≠ JSValue.undefined ∧
        ((getCurrentData s).1.get "userData").get "achievements" ≠ JSValue.null) →
      ∀ t, createAutoBackup (k + 1 + fuel) s ≠ .throw JSError.typeError t) := by
  have hf := getCurrentData_frame s
  refine ⟨?_, ?_, ?_⟩
  · intro he
    have hch : hasDataChanged (getCurrentData s).1 (getCurrentData s).2 = some true := by
      unfold hasDataChanged
      rw [hf.1, he]
      rfl
    obtain ⟨b, s', h1, hb⟩ := createAutoBackup_creates_ends fuel s k hch hstore
    obtain ⟨h2, h3, h4, h5⟩ := createBackup_auto_shape _ _ _ _ hb
    refine ⟨b, s', h1, h2, h3, h4, fun hmax => ?_⟩
    obtain ⟨j, _, hj⟩ := h5 hmax
    rw [hj, he]
    simp
  · intro last hl hno
    have hl1 : (getCurrentData s).2.backups.getLast? = some last := by
      rw [hf.1]; exact hl
    obtain ⟨r, hr⟩ := hasDataChanged_of_no_typeError _ s hno
    have hiff := hasDataChanged_iff _ _ last r hl1 hr
    simp only [strictNe_iff] at hiff
    constructor
    · intro hD
      have htrue : r = true := hiff.2 hD
      rw [htrue] at hr
      obtain ⟨b, s', h1, hb⟩ := createAutoBackup_creates_ends fuel s k hr hstore
      obtain ⟨h2, h3, h4, h5⟩ := createBackup_auto_shape _ _ _ _ hb
      exact ⟨b, s', h1, h2, h3, h4, h5⟩
    · intro hD
      have hfalse : r = false := by
        cases r with
        | false => rfl
        | true => exact absurd (hiff.1 rfl) hD
      rw [hfalse] at hr
      refine ⟨?_, hf.1, hf.2.1, hf.2.2.2.2.2.2.1, hf.2.2.2.2.2.2.2.2.2⟩
      unfold createAutoBackup
      simp only [hr]
  · intro last hl hb1 hb2 hbu hba hbl hcl
    exact createAutoBackup_no_typeError _ s last hl hb1 hb2 hbu hba hbl hcl

/-- Witness for C15, on three states.  On a fresh system, whose list is empty, a backup
of type `auto` is created.  On a state that differs from its only backup in the
number of achievements alone, a backup of type `auto` is appended.  On a state
that equals its only backup in all five comparisons, nothing is created. -/
theorem createAutoBackup_spec_witness :
    (∃ b s', createAutoBackup 1 (freshSys WriteResult.ok) = .ok () s' ∧ b.type = "auto" ∧
      b.status = "valid" ∧
      b.data = jsonNormalize (getCurrentData (freshSys WriteResult.ok)).1 ∧
      (1 ≤ (freshSys WriteResult.ok).maxBackups → s'.backups = [b])) ∧
    (∃ b s', createAutoBackup 1 (profileSys [.str "first"] []) = .ok () s' ∧
      b.type = "auto" ∧ b.status = "valid" ∧
      b.data = jsonNormalize (getCurrentData (profileSys [.str "first"] [])).1 ∧
      (1 ≤ (profileSys [.str "first"] []).maxBackups →
        ∃ j, j ≤ (profileSys [.str "first"] []).backups.length ∧
          s'.backups = (profileSys [.str "first"] []).backups.drop j ++ [b])) ∧
    (createAutoBackup 1 (profileSys [] []) = .ok () (getCurrentData (profileSys [] [])).2 ∧
      (getCurrentData (profileSys [] [])).2.backups = (profileSys [] []).backups ∧
      (getCurrentData (profileSys [] [])).2.recoveryPoints
        = (profileSys [] []).recoveryPoints ∧
      (getCurrentData (profileSys [] [])).2.storedBackups
        = (profileSys [] []).storedBackups ∧
      (getCurrentData (profileSys [] [])).2.writes = (profileSys [] []).writes) :=
  ⟨(createAutoBackup_spec 0 (freshSys WriteResult.ok) 0 (by decide)).1 rfl,
    ((createAutoBackup_spec 0 (profileSys [.str "first"] []) 0 (by decide)).2.1
      { id := "backup-1-0", type := "auto", timestamp := 1,
        data := profileData [], status := "valid" } rfl
      ((createAutoBackup_spec 0 (profileSys [.str "first"] []) 0 (by decide)).2.2
        { id := "backup-1-0", type := "auto", timestamp := 1,
          data := profileData [], status := "valid" } rfl
        (by decide) (by decide) ⟨by decide, by decide⟩ ⟨by decide, by decide⟩
        ⟨by decide, by decide⟩ ⟨by decide, by decide⟩)).1
      (Or.inr (Or.inr (Or.inr (Or.inl
        ⟨.num 1, .num 0, rfl, rfl, Or.inl (by decide)⟩)))),
    ((createAutoBackup_spec 0 (profileSys [] []) 0 (by decide)).2.1
      { id := "backup-1-0", type := "auto", timestamp := 1,
        data := profileData [], status := "valid" } rfl
      ((createAutoBackup_spec 0 (profileSys [] []) 0 (by decide)).2.2
        { id := "backup-1-0", type := "auto", timestamp := 1,
          data := profileData [], status := "valid" } rfl
        (by decide) (by decide) ⟨by decide, by decide⟩ ⟨by decide, by decide⟩
        ⟨by decide, by decide⟩ ⟨by decide, by decide⟩)).2
      (by
        intro h
        rcases h with h | h | h | ⟨a, b, ha, hb, h⟩ | h
        · revert h; decide
        · revert h; decide
        · revert h; decide
        · cases ha
          cases hb
          revert h
          decide
        · revert h; decide)⟩

/-- Counterexample to C15 as stated: the current state and the most recent backup
agree on `confidenceScore`, `challengesCompleted`, `streak` and `currentView` and
differ only in the number of achievements; `createAutoBackup` creates a new backup
of type `auto`. -/
theorem createAutoBackup_on_achievements_change :
    ((getCurrentData (profileSys [.str "first"] [])).1.get "userData").get "confidenceScore"
      = ((profileData []).get "userData").get "confidenceScore" ∧
    ((getCurrentData (profileSys [.str "first"] [])).1.get "userData").get
        "challengesCompleted"
      = ((profileData []).get "userData").get "challengesCompleted" ∧
    ((getCurrentData (profileSys [.str "first"] [])).1.get "userData").get "streak"
      = ((profileData []).get "userData").get "streak" ∧
    ((getCurrentData (profileSys [.str "first"] [])).1.get "appState").get "currentView"
      = ((profileData []).get "appState").get "currentView" ∧
    ∃ s', createAutoBackup 1 (profileSys [.str "first"] []) = .ok () s' ∧
      s'.backups.map (fun b => b.type) = ["auto", "auto"] ∧
      (profileSys [.str "first"] []).backups.length = 1 :=
  ⟨by decide, by decide, by decide, by decide, _, rfl, rfl, rfl⟩

/-! ## When a restore fails -/

/-- For a valid backup whose data can be applied, on a store whose write number `k`
from now is not answered with `QuotaExceededError`, `restoreFromBackup` returns the
backup's data at every depth of recursion above `k`. -/
theorem restoreFromBackup_ends (backupId : String) (s : Sys) (b : Backup) (k : Nat)
    (hb : s.backups.find? (fun b => b.id == backupId) = some b)
    (hv : b.status = "valid")
    (hd : s.intelligence = none ∨
      (b.data.get "userData" ≠ JSValue.undefined ∧
        b.data.get "appState" ≠ JSValue.undefined))
    (hk : s.writeResult (s.writes + k) ≠ WriteResult.quotaExceeded) :
    ∃ s', ∀ fuel, restoreFromBackup (k + 1 + fuel) backupId s = .ok b.data s' := by
  have hf := getCurrentData_frame s
  have hk1 : (getCurrentData s).2.writeResult ((getCurrentData s).2.writes + k)
      ≠ WriteResult.quotaExceeded := by
    rw [hf.2.2.2.2.2.2.2.2.1, hf.2.2.2.2.2.2.2.2.2]
    exact hk
  have hne : (getCurrentData s).1 ≠ JSValue.undefined := by
    intro hu
    have hc := getCurrentData_clonable s
    generalize (getCurrentData s).1 = d at hu hc
    subst hu
    cases hc
  obtain ⟨s1, hr, _⟩ := createRecoveryPoint_ends "preRestore" _ _ k hne hk1
  obtain ⟨_, _, _, _, _, _, _, hi, _, _, _, _⟩ := createRecoveryPoint_ok _ _ _ _ _ _ (hr 0)
  have hd1 : s1.intelligence = none ∨
      (b.data.get "userData" ≠ JSValue.undefined ∧
        b.data.get "appState" ≠ JSValue.undefined) := by
    rw [hi, hf.2.2.2.2.1]
    exact hd
  obtain ⟨s2, h2⟩ := applyRestoredData_total b.data s1 hd1
  refine ⟨s2, fun fuel => ?_⟩
  unfold restoreFromBackup
  rw [hb]
  simp only [hv, bne_self_eq_false, Bool.false_eq_true, ↓reduceIte, hr fuel, h2]

/-- Claim C3, for backups whose data can be applied and a store on which the retry of
`saveRecoveryPoints` ends.  Provided the backup found for the id, when valid, holds
both `userData` and `appState` (or no application object is installed), and
provided write number `k` of the call is not answered with `QuotaExceededError`,
at every depth of recursion above `k`: `restoreFromBackup(id)` ends, by a return
or by an exception; it returns no data exactly when no backup has that id or the
backup found for it has a status other than `valid`, and it then throws; whenever
it throws, the whole state (backup list, recovery-point list, application state)
is unchanged; for a valid backup it returns the backup's data; and after
`invalidateBackup(id)` on a store that does not answer that write with
`QuotaExceededError` it throws. -/
theorem restoreFromBackup_fails_iff (fuel : Nat) (backupId : String) (s : Sys) (k : Nat)
    (hdata : ∀ b, s.backups.find? (fun b => b.id == backupId) = some b →
      b.status = "valid" →
      s.intelligence = none ∨
        (b.data.get "userData" ≠ JSValue.undefined ∧
          b.data.get "appState" ≠ JSValue.undefined))
    (hstore : s.writeResult (s.writes + k) ≠ WriteResult.quotaExceeded) :
    restoreFromBackup (k + 1 + fuel) backupId s ≠ .diverge ∧
    ((∀ d s', restoreFromBackup (k + 1 + fuel) backupId s ≠ .ok d s') ↔
      ((∀ b ∈ s.backups, b.id ≠ backupId) ∨
        ∃ b, s.backups.find? (fun b => b.id == backupId) = some b ∧
          b.status ≠ "valid")) ∧
    ((∃ e s', restoreFromBackup (k + 1 + fuel) backupId s = .throw e s') ↔
      ((∀ b ∈ s.backups, b.id ≠ backupId) ∨
        ∃ b, s.backups.find? (fun b => b.id == backupId) = some b ∧
          b.status ≠ "valid")) ∧
    (∀ e s', restoreFromBackup (k + 1 + fuel) backupId s = .throw e s' → s' = s) ∧
    (∀ b, s.backups.find? (fun b => b.id == backupId) = some b → b.status = "valid" →
      ∃ s', restoreFromBackup (k + 1 + fuel) backupId s = .ok b.data s') ∧
    (s.writeResult s.writes ≠ WriteResult.quotaExceeded →
      ∃ s1, invalidateBackup (fuel + 1) backupId s = .ok () s1 ∧
        ∀ depth, ∃ e, restoreFromBackup depth backupId s1 = .throw e s1) := by
  have hnone : (∀ b ∈ s.backups, b.id ≠ backupId) ↔
      s.backups.find? (fun b => b.id == backupId) = none := by
    rw [List.find?_eq_none]
    simp
  have hfail : ((∀ b ∈ s.backups, b.id ≠ backupId) ∨
        ∃ b, s.backups.find? (fun b => b.id == backupId) = some b ∧
          b.status ≠ "valid") →
      ∃ e, restoreFromBackup (k + 1 + fuel) backupId s = .throw e s := by
    intro h
    have h1 : s.backups.find? (fun b => b.id == backupId) = none ∨
        ∃ b, s.backups.find? (fun b => b.id == backupId) = some b ∧
          b.status ≠ "valid" := by
      rcases h with h | h
      · exact Or.inl (hnone.1 h)
      · exact Or.inr h
    exact restoreFromBackup_lookup_failure (k + 1 + fuel) backupId s h1
  have hgood : ∀ b, s.backups.find? (fun b => b.id == backupId) = some b →
      b.status = "valid" →
      ∃ s', restoreFromBackup (k + 1 + fuel) backupId s = .ok b.data s' := by
    intro b hf hv
    obtain ⟨s', hs'⟩ := restoreFromBackup_ends backupId s b k hf hv (hdata b hf hv) hstore
    exact ⟨s', hs' fuel⟩
  have hcases : ((∀ b ∈ s.backups, b.id ≠ backupId) ∨
        ∃ b, s.backups.find? (fun b => b.id == backupId) = some b ∧
          b.status ≠ "valid") ∨
      ∃ (b : Backup) (s' : Sys),
        restoreFromBackup (k + 1 + fuel) backupId s = .ok b.data s' := by
    cases hf : s.backups.find? (fun b => b.id == backupId) with
    | none => exact Or.inl (Or.inl (hnone.2 hf))
    | some b =>
      by_cases hv : b.status = "valid"
      · obtain ⟨s', hs'⟩ := hgood b hf hv
        exact Or.inr ⟨b, s', hs'⟩
      · exact Or.inl (Or.inr ⟨b, rfl, hv⟩)
  refine ⟨?_, ⟨?_, ?_⟩, ⟨?_, ?_⟩, ?_, hgood, ?_⟩
  · intro hdiv
    rcases hcases with h | ⟨b, s', h⟩
    · obtain ⟨e, he⟩ := hfail h
      rw [he] at hdiv
      cases hdiv
    · rw [h] at hdiv
      cases hdiv
  · intro hno
    rcases hcases with h | ⟨b, s', h⟩
    · exact h
    · exact absurd h (hno b.data s')
  · intro h d s' hok
    obtain ⟨e, he⟩ := hfail h
    rw [he] at hok
    cases hok
  · rintro ⟨e, s', h⟩
    rcases hcases with h1 | ⟨b, s1, h1⟩
    · exact h1
    · rw [h1] at h
      cases h
  · intro h
    obtain ⟨e, he⟩ := hfail h
    exact ⟨e, s, he⟩
  · intro e s' h
    rcases hcases with h1 | ⟨b, s1, h1⟩
    · obtain ⟨e1, he⟩ := hfail h1
      rw [he] at h
      cases h
      rfl
    · rw [h1] at h
      cases h
  · intro hq
    unfold invalidateBackup
    cases hf : s.backups.find? (fun b => b.id == backupId) with
    | none =>
      exact ⟨s, rfl, fun depth =>
        restoreFromBackup_lookup_failure depth backupId s (Or.inl hf)⟩
    | some b =>
      obtain ⟨s1, h1, h2⟩ := saveBackups_not_quota fuel
        { s with backups := setBackupStatus backupId "invalid" s.backups } hq
      simp only [h1]
      refine ⟨s1, rfl, fun depth =>
        restoreFromBackup_lookup_failure depth backupId s1 (Or.inr ?_)⟩
      refine ⟨{ b with status := "invalid" }, ?_, ?_⟩
      swap
      · show "invalid" ≠ "valid"
        decide
      rw [h2]
      show (setBackupStatus backupId "invalid" s.backups).find? _ = _
      rw [find?_setBackupStatus, hf]
      rfl

/-- Witness for C3, on three states.  On a store that answers the first write with
`QuotaExceededError` and accepts the second, a valid, well-formed backup is
restored.  A backup that has status `invalid` is not restored: the call throws and
leaves the state as it is.  After `invalidateBackup` on an accepting store the
restore of a backup that was valid throws. -/
theorem restoreFromBackup_fails_iff_witness :
    (quotaOnceSys.backups.find? (fun b => b.id == "backup-1-0") = some (sampleBackup 1) ∧
      (sampleBackup 1).status = "valid" ∧
      quotaOnceSys.writeResult (quotaOnceSys.writes + 0) = WriteResult.quotaExceeded ∧
      quotaOnceSys.writeResult (quotaOnceSys.writes + 1) ≠ WriteResult.quotaExceeded ∧
      ∃ s', restoreFromBackup 2 "backup-1-0" quotaOnceSys = .ok (sampleBackup 1).data s') ∧
    ((∃ e s', restoreFromBackup 1 "backup-1-0" invalidatedSys = .throw e s') ∧
      (∀ d s', restoreFromBackup 1 "backup-1-0" invalidatedSys ≠ .ok d s') ∧
      (∀ e s', restoreFromBackup 1 "backup-1-0" invalidatedSys = .throw e s' →
        s' = invalidatedSys)) ∧
    (∃ s1, invalidateBackup 1 "backup-1-0" (oneBackupSys sampleData) = .ok () s1 ∧
      ∀ depth, ∃ e, restoreFromBackup depth "backup-1-0" s1 = .throw e s1) :=
  ⟨⟨by decide, rfl, rfl, by decide,
      (restoreFromBackup_fails_iff 0 "backup-1-0" quotaOnceSys 1
        (fun b hb _ => Or.inr (by
          have hb1 : b = sampleBackup 1 := by
            have : quotaOnceSys.backups.find? (fun b => b.id == "backup-1-0")
                = some (sampleBackup 1) := by decide
            rw [this] at hb
            exact (Option.some.inj hb).symm
          subst hb1
          exact ⟨by decide, by decide⟩))
        (by decide)).2.2.2.2.1 (sampleBackup 1) (by decide) rfl⟩,
    ⟨(restoreFromBackup_fails_iff 0 "backup-1-0" invalidatedSys 0
        (fun b hb hv => by
          have hb1 : b = { manualBackup sampleData with status := "invalid" } := by
            have : invalidatedSys.backups.find? (fun b => b.id == "backup-1-0")
                = some { manualBackup sampleData with status := "invalid" } := by decide
            rw [this] at hb
            exact (Option.some.inj hb).symm
          subst hb1
          exact absurd hv (by decide))
        (by decide)).2.2.1.2
        (Or.inr ⟨{ manualBackup sampleData with status := "invalid" }, by decide, by decide⟩),
      (restoreFromBackup_fails_iff 0 "backup-1-0" invalidatedSys 0
        (fun b hb hv => by
          have hb1 : b = { manualBackup sampleData with status := "invalid" } := by
            have : invalidatedSys.backups.find? (fun b => b.id == "backup-1-0")
                = some { manualBackup sampleData with status := "invalid" } := by decide
            rw [this] at hb
            exact (Option.some.inj hb).symm
          subst hb1
          exact absurd hv (by decide))
        (by decide)).2.1.2
        (Or.inr ⟨{ manualBackup sampleData with status := "invalid" }, by decide, by decide⟩),
      (restoreFromBackup_fails_iff 0 "backup-1-0" invalidatedSys 0
        (fun b hb hv => by
          have hb1 : b = { manualBackup sampleData with status := "invalid" } := by
            have : invalidatedSys.backups.find? (fun b => b.id == "backup-1-0")
                = some { manualBackup sampleData with status := "invalid" } := by decide
            rw [this] at hb
            exact (Option.some.inj hb).symm
          subst hb1
          exact absurd hv (by decide))
        (by decide)).2.2.2.1⟩,
    (restoreFromBackup_fails_iff 0 "backup-1-0" (oneBackupSys sampleData) 0
      (fun b hb _ => Or.inr (by
        have hb1 : b = manualBackup sampleData := by
          have : (oneBackupSys sampleData).backups.find? (fun b => b.id == "backup-1-0")
              = some (manualBackup sampleData) := by decide
          rw [this] at hb
          exact (Option.some.inj hb).symm
        subst hb1
        exact ⟨by decide, by decide⟩))
      (by decide)).2.2.2.2.2 (by decide)⟩

/-- Counterexample to C3 as stated.  (1) A backup with status `valid` whose data holds
`userData` but no `appState` (as `createBackup` accepts it): `restoreFromBackup`
throws although the backup exists and is valid, and by then a `preRestore`
recovery point has been created and `userData` has been applied.  (2) Two backups
share an id and the store is full: `invalidateBackup(id)` marks the first, the
`QuotaExceededError` cuts the list to its last five entries, and
`restoreFromBackup(id)` then succeeds on the second. -/
theorem restoreFromBackup_fails_after_mutation :
    ((oneBackupSys (.obj [("userData", .obj [("streak", .num 9)])])).backups.find?
        (fun b => b.id == "backup-1-0")
      = some (manualBackup (.obj [("userData", .obj [("streak", .num 9)])])) ∧
    ∃ s', restoreFromBackup 1 "backup-1-0"
        (oneBackupSys (.obj [("userData", .obj [("streak", .num 9)])]))
        = .throw JSError.syntaxError s' ∧
      (oneBackupSys (.obj [("userData", .obj [("streak", .num 9)])])).recoveryPoints = [] ∧
      s'.recoveryPoints.map (fun r => r.name) = ["preRestore"] ∧
      (oneBackupSys (.obj [("userData", .obj [("streak", .num 9)])])).intelligence
        = some { userData := .obj [], appState := .obj [] } ∧
      s'.intelligence
        = some { userData := .obj [("streak", .num 9)], appState := .obj [] }) ∧
    (∃ s1 s2, invalidateBackup 2 "backup-5-5" twinFullSys = .ok () s1 ∧
      s1.backups.length = 5 ∧
      restoreFromBackup 1 "backup-5-5" s1 = .ok sampleData s2) :=
  ⟨⟨by decide, _, rfl, rfl, rfl, rfl, rfl⟩, ⟨_, _, rfl, rfl, rfl⟩⟩

end Resurrection
